import Mathlib

/-!
# Character controller (apps/openmw/mwmechanics/character.cpp)

A shallow embedding of `MWMechanics::CharacterController`.

* C++ `float` values are exact rationals (`ℚ`).
* `size_t` loop counts are natural numbers; `~(size_t)0` is `sizeMax`.
* The animation collaborator (`MWRender::Animation`) is a record of answer
  functions.  Every answer may depend on the whole list of calls the controller
  has issued to the collaborator so far, so a stateful collaborator is covered.
  The controller carries that list of calls (`calls`) as a ghost field.
* The world / class / inventory collaborators are a record of answer functions
  (`World`) handed to every call of `update`.
* A C++ exception is an `Except.error`.
-/

namespace MWMechanics

/-- Modelled from the spec: the `CharacterState` enumeration of `character.hpp`
(not part of the sources at hand).  The enumerators are the ones `character.cpp`
names; the special-idle state comes first and the death variants come last, so
that `state >= CharState_Death1` holds exactly for the death variants (`update`
tests for the special-idle state inside the block it runs for states that are not
`>= CharState_Death1`). -/
inductive CharacterState
  | SpecialIdle
  | Idle | Idle2 | Idle3 | Idle4 | Idle5 | Idle6 | Idle7 | Idle8 | Idle9
  | IdleSwim | IdleSneak
  | WalkForward | WalkBack | WalkLeft | WalkRight
  | SwimWalkForward | SwimWalkBack | SwimWalkLeft | SwimWalkRight
  | RunForward | RunBack | RunLeft | RunRight
  | SwimRunForward | SwimRunBack | SwimRunLeft | SwimRunRight
  | SneakForward | SneakBack | SneakLeft | SneakRight
  | TurnLeft | TurnRight
  | Jump
  | Death1 | Death2 | Death3 | Death4 | Death5
  deriving DecidableEq, Repr

/-- Numeric value of an enumerator (its position in the enumeration). -/
def CharacterState.toNat : CharacterState → Nat
  | .SpecialIdle => 0
  | .Idle => 1 | .Idle2 => 2 | .Idle3 => 3 | .Idle4 => 4 | .Idle5 => 5
  | .Idle6 => 6 | .Idle7 => 7 | .Idle8 => 8 | .Idle9 => 9
  | .IdleSwim => 10 | .IdleSneak => 11
  | .WalkForward => 12 | .WalkBack => 13 | .WalkLeft => 14 | .WalkRight => 15
  | .SwimWalkForward => 16 | .SwimWalkBack => 17 | .SwimWalkLeft => 18 | .SwimWalkRight => 19
  | .RunForward => 20 | .RunBack => 21 | .RunLeft => 22 | .RunRight => 23
  | .SwimRunForward => 24 | .SwimRunBack => 25 | .SwimRunLeft => 26 | .SwimRunRight => 27
  | .SneakForward => 28 | .SneakBack => 29 | .SneakLeft => 30 | .SneakRight => 31
  | .TurnLeft => 32 | .TurnRight => 33
  | .Jump => 34
  | .Death1 => 35 | .Death2 => 36 | .Death3 => 37 | .Death4 => 38 | .Death5 => 39

/-- The test `state >= CharState_Death1`. -/
def CharacterState.isDeath (s : CharacterState) : Bool :=
  decide (CharacterState.Death1.toNat ≤ s.toNat)

/-- Modelled from the spec: the `WeaponState` enumeration of `character.hpp`
(not part of the sources at hand), with the enumerators `character.cpp` names. -/
inductive WeaponState
  | None | HandToHand | OneHand | TwoHand | TwoWide
  | BowAndArrow | Crossbow | ThowWeapon | Spell
  deriving DecidableEq, Repr

/-- The table `sStateList`: state and group name, in source order. -/
def sStateList : List (CharacterState × String) :=
  [ (.Idle, "idle"), (.Idle2, "idle2"), (.Idle3, "idle3"), (.Idle4, "idle4"),
    (.Idle5, "idle5"), (.Idle6, "idle6"), (.Idle7, "idle7"), (.Idle8, "idle8"),
    (.Idle9, "idle9"), (.IdleSwim, "idleswim"), (.IdleSneak, "idlesneak"),
    (.WalkForward, "walkforward"), (.WalkBack, "walkback"),
    (.WalkLeft, "walkleft"), (.WalkRight, "walkright"),
    (.SwimWalkForward, "swimwalkforward"), (.SwimWalkBack, "swimwalkback"),
    (.SwimWalkLeft, "swimwalkleft"), (.SwimWalkRight, "swimwalkright"),
    (.RunForward, "runforward"), (.RunBack, "runback"),
    (.RunLeft, "runleft"), (.RunRight, "runright"),
    (.SwimRunForward, "swimrunforward"), (.SwimRunBack, "swimrunback"),
    (.SwimRunLeft, "swimrunleft"), (.SwimRunRight, "swimrunright"),
    (.SneakForward, "sneakforward"), (.SneakBack, "sneakback"),
    (.SneakLeft, "sneakleft"), (.SneakRight, "sneakright"),
    (.TurnLeft, "turnleft"), (.TurnRight, "turnright"),
    (.Jump, "jump"),
    (.Death1, "death1"), (.Death2, "death2"), (.Death3, "death3"),
    (.Death4, "death4"), (.Death5, "death5") ]

/-- One row of `sWeaponStateList`. -/
structure WeaponStateEntry where
  state : WeaponState
  idlegroup : String
  movementgroup : String
  actiongroup : String

/-- The table `sWeaponStateList`, in source order. -/
def sWeaponStateList : List WeaponStateEntry :=
  [ ⟨.HandToHand, "hh", "hh", "handtohand"⟩,
    ⟨.OneHand, "1h", "1h", "weapononehand"⟩,
    ⟨.TwoHand, "2c", "2c", "weapontwohand"⟩,
    ⟨.TwoWide, "2w", "2w", "weapontwowide"⟩,
    ⟨.BowAndArrow, "1h", "1h", "bowandarrow"⟩,
    ⟨.Crossbow, "crossbow", "2c", "crossbow"⟩,
    ⟨.ThowWeapon, "1h", "1h", "throwweapon"⟩,
    ⟨.Spell, "spell", "", "spellcast"⟩ ]

/-- The first loop of `getCurrentGroup`: scan the state table for `st`, stop at
the first hit; `name` stays empty when there is none. -/
def findStateName (st : CharacterState) : List (CharacterState × String) → String
  | [] => ""
  | e :: rest => if e.1 = st then e.2 else findStateName st rest

/-- The second loop of `getCurrentGroup`: scan the weapon table for `ws`; at the
first hit `group` becomes `name` followed by the idle group (state `Idle`) or the
movement group (any other state); `group` is left alone when there is no hit. -/
def findWeaponGroup (group name : String) (st : CharacterState) (ws : WeaponState) :
    List WeaponStateEntry → String
  | [] => group
  | e :: rest =>
    if e.state = ws then
      (if st = CharacterState.Idle then name ++ e.idlegroup else name ++ e.movementgroup)
    else findWeaponGroup group name st ws rest

/-- A three-component vector (`Ogre::Vector3`, `float[3]`). -/
structure Vec3 where
  x : ℚ
  y : ℚ
  z : ℚ
  deriving DecidableEq

/-- The animation priority; only `Priority_Default` is used. -/
inductive Priority
  | Default
  deriving DecidableEq, Repr

/-- A call issued to the animation collaborator. -/
inductive AnimCall
  | hasAnimation (anim : String)
  | play (groupname : String) (priority : Priority) (start stop : String)
      (blendWeight : ℚ) (loops : Nat)
  | setSpeed (speed : ℚ)
  | runAnimation (duration : ℚ)
  | showWeapons (show_ : Bool)
  | setAccumulation (accum : Vec3)
  deriving DecidableEq

/-- The animation collaborator: what it answers to a call, given the calls
issued to it before. -/
structure Animation where
  hasAnimation : List AnimCall → String → Bool
  play : List AnimCall → String → Priority → String → String → ℚ → Nat → Bool
  runAnimation : List AnimCall → ℚ → Vec3

/-- An entity handle (`MWWorld::Ptr`). -/
abbrev Ptr := Nat

/-- The errors the controller can raise. -/
inductive Error
  /-- The exception "Failed to find character state" of `getCurrentGroup`. -/
  | failedToFindCharacterState (st : CharacterState)
  /-- A call through a null `mAnimation`. -/
  | nullAnimation
  deriving DecidableEq, Repr

/-- The value `~(size_t)0`. -/
def sizeMax : Nat := 2 ^ 64 - 1

/-- The fields of `CharacterController`, and the calls made so far to the
animation collaborator (`calls`) and to `skillUsageSucceeded` (`skillCalls`:
entity and use type, the skill always being athletics). -/
structure CharacterController where
  mPtr : Ptr
  mAnimation : Option Animation
  mAnimQueue : List (String × Nat)
  mCharState : CharacterState
  mWeapState : WeaponState
  mLooping : Bool
  mSkipAnim : Bool
  mMovingAnim : Bool
  mSecondsOfRunning : ℚ
  mSecondsOfSwimming : ℚ
  calls : List AnimCall
  skillCalls : List (Ptr × Nat)

/-- The output record `Movement` of `movement.hpp`: position and rotation
deltas, index 0, 1, 2 being `x`, `y`, `z`. -/
structure Movement where
  mPosition : Vec3
  mRotation : Vec3
  deriving DecidableEq

/-- The draw state of `NpcStats` (`DrawState_Nothing`, `DrawState_Weapon`,
`DrawState_Spell`). -/
inductive DrawState
  | Nothing | Weapon | Spell
  deriving DecidableEq, Repr

/-- The weapon categories `ESM::Weapon::Type` that `update` switches on. -/
inductive WeaponType
  | ShortBladeOneHand | LongBladeOneHand | LongBladeTwoHand
  | BluntOneHand | BluntTwoClose | BluntTwoWide
  | SpearTwoWide | AxeOneHand | AxeTwoHand
  | MarksmanBow | MarksmanCrossbow | MarksmanThrown
  | Arrow | Bolt
  deriving DecidableEq, Repr

/-- What the right-hand slot holds, by type name: a lockpick, a probe, a weapon
(with its category, `none` for a stored value that is no enumerator), or an
object of another type. -/
inductive CarriedItem
  | Lockpick
  | Probe
  | Weapon (type : Option WeaponType)
  | Other
  deriving DecidableEq, Repr

/-- The world, class, stats and inventory collaborators, as the answers they
give during one call. -/
structure World where
  isActor : Ptr → Bool
  isOnGround : Ptr → Bool
  isSwimming : Ptr → Bool
  getPlayer : Ptr
  getStanceRun : Ptr → Bool
  getStanceSneak : Ptr → Bool
  getMovementVector : Ptr → Vec3
  getRotationVector : Ptr → Vec3
  getSpeed : Ptr → ℚ
  getJump : Ptr → ℚ
  isNpc : Ptr → Bool
  getDrawState : Ptr → DrawState
  getSlotCarriedRight : Ptr → Option CarriedItem

/-- The loop `while(seconds > 1) { skillUsageSucceeded(..); seconds -= 1; }`:
returns the remaining seconds and the number of calls made, added to `n`. -/
def athleticsLoop (seconds : ℚ) (n : Nat) : ℚ × Nat :=
  if h : seconds > 1 then athleticsLoop (seconds - 1) (n + 1) else (seconds, n)
termination_by ⌈seconds⌉.toNat
decreasing_by
  have h2 : (1 : ℤ) < ⌈seconds⌉ := Int.lt_ceil.mpr (by exact_mod_cast h)
  rw [Int.ceil_sub_one]
  omega

/-- The weapon state `update` derives for an NPC from the draw state and the
right-hand slot (lines 230 to 280). -/
def deriveWeaponState (w : World) (ptr : Ptr) : WeaponState :=
  if w.getDrawState ptr = DrawState.Spell then WeaponState.Spell
  else if w.getDrawState ptr = DrawState.Weapon then
    match w.getSlotCarriedRight ptr with
    | none => WeaponState.HandToHand
    | some CarriedItem.Lockpick => WeaponState.OneHand
    | some CarriedItem.Probe => WeaponState.OneHand
    | some (CarriedItem.Weapon type) =>
      match type with
      | some WeaponType.ShortBladeOneHand => WeaponState.OneHand
      | some WeaponType.LongBladeOneHand => WeaponState.OneHand
      | some WeaponType.BluntOneHand => WeaponState.OneHand
      | some WeaponType.AxeOneHand => WeaponState.OneHand
      | some WeaponType.Arrow => WeaponState.OneHand
      | some WeaponType.Bolt => WeaponState.OneHand
      | some WeaponType.LongBladeTwoHand => WeaponState.TwoHand
      | some WeaponType.BluntTwoClose => WeaponState.TwoHand
      | some WeaponType.AxeTwoHand => WeaponState.TwoHand
      | some WeaponType.BluntTwoWide => WeaponState.TwoWide
      | some WeaponType.SpearTwoWide => WeaponState.TwoWide
      | some WeaponType.MarksmanBow => WeaponState.BowAndArrow
      | some WeaponType.MarksmanCrossbow => WeaponState.Crossbow
      | some WeaponType.MarksmanThrown => WeaponState.ThowWeapon
      | none => WeaponState.None
    | some CarriedItem.Other => WeaponState.None
  else WeaponState.None

namespace CharacterController

/-- The function `CharacterController::getCurrentGroup`, called with a non-null
`mAnimation` (`anim`).  `group` is the in/out argument; both callers pass a fresh
empty string.  Returns the final `group` and the controller with the
`hasAnimation` calls recorded. -/
def getCurrentGroup (anim : Animation) (c : CharacterController) (group : String) :
    Except Error (String × CharacterController) :=
  let name := findStateName c.mCharState sStateList
  if name.isEmpty then
    .error (.failedToFindCharacterState c.mCharState)
  else
    let group :=
      if !c.mCharState.isDeath && c.mWeapState != WeaponState.None then
        findWeaponGroup group name c.mCharState c.mWeapState sWeaponStateList
      else group
    if group.isEmpty then
      let has := anim.hasAnimation c.calls name
      .ok (if has then name else "", { c with calls := c.calls ++ [AnimCall.hasAnimation name] })
    else
      let hasGroup := anim.hasAnimation c.calls group
      let c1 := { c with calls := c.calls ++ [AnimCall.hasAnimation group] }
      if !hasGroup then
        let has := anim.hasAnimation c1.calls name
        .ok (if has then name else "", { c1 with calls := c1.calls ++ [AnimCall.hasAnimation name] })
      else
        .ok (group, c1)

/-- The constructor `CharacterController::CharacterController(ptr, anim, state, loop)`
(a constructor cannot carry the name of its type here). -/
def create (w : World) (ptr : Ptr) (anim : Option Animation)
    (state : CharacterState) (loop : Bool) : Except Error CharacterController :=
  let c : CharacterController :=
    { mPtr := ptr, mAnimation := anim, mAnimQueue := [], mCharState := state,
      mWeapState := WeaponState.None, mLooping := false, mSkipAnim := false,
      mMovingAnim := false, mSecondsOfRunning := 0, mSecondsOfSwimming := 0,
      calls := [], skillCalls := [] }
  match anim with
  | none => .ok c
  | some a =>
    let accum : Vec3 := if w.isActor ptr then ⟨1, 1, 0⟩ else ⟨0, 0, 0⟩
    let c1 := { c with calls := c.calls ++ [AnimCall.setAccumulation accum] }
    match getCurrentGroup a c1 "" with
    | .error e => .error e
    | .ok (group, c2) =>
      let loops := if loop then sizeMax else 0
      let moving := a.play c2.calls group Priority.Default "start" "stop" 1 loops
      .ok { c2 with
        mMovingAnim := moving
        calls := c2.calls ++ [AnimCall.play group Priority.Default "start" "stop" 1 loops] }

/-- The function `CharacterController::updatePtr`. -/
def updatePtr (ptr : Ptr) (c : CharacterController) : CharacterController :=
  { c with mPtr := ptr }

/-- The function `CharacterController::skipAnim`. -/
def skipAnim (c : CharacterController) : CharacterController :=
  { c with mSkipAnim := true }

/-- The function `CharacterController::forceStateUpdate`. -/
def forceStateUpdate (c : CharacterController) : Except Error CharacterController :=
  match c.mAnimation with
  | none => .ok c
  | some a =>
    let c1 := { c with mAnimQueue := [] }
    match getCurrentGroup a c1 "" with
    | .error e => .error e
    | .ok (group, c2) =>
      let loops := if c2.mLooping then sizeMax else 0
      let moving := a.play c2.calls group Priority.Default "start" "stop" 0 loops
      let c3 := { c2 with
        mMovingAnim := moving
        calls := c2.calls ++ [AnimCall.play group Priority.Default "start" "stop" 0 loops] }
      let shown := c3.mWeapState != WeaponState.None && c3.mWeapState != WeaponState.HandToHand &&
        c3.mWeapState != WeaponState.Spell
      .ok { c3 with calls := c3.calls ++ [AnimCall.showWeapons shown] }

/-- The function `CharacterController::setState`. -/
def setState (state : CharacterState) (loop : Bool) (c : CharacterController) :
    Except Error CharacterController :=
  if c.mCharState = state then .ok c
  else forceStateUpdate { c with mCharState := state, mLooping := loop }

/-- The function `CharacterController::setWeaponState`. -/
def setWeaponState (state : WeaponState) (c : CharacterController) :
    Except Error CharacterController :=
  if state = c.mWeapState then .ok c
  else forceStateUpdate { c with mWeapState := state }

/-- The function `CharacterController::playGroup`.  The message written to
`std::cerr` is not modelled. -/
def playGroup (groupname : String) (mode count : Int) (c : CharacterController) :
    CharacterController :=
  match c.mAnimation with
  | none => c
  | some a =>
    let has := a.hasAnimation c.calls groupname
    let c1 := { c with calls := c.calls ++ [AnimCall.hasAnimation groupname] }
    if !has then c1
    else
      let count := max count 1
      if mode ≠ 0 ∨ c1.mCharState ≠ CharacterState.SpecialIdle then
        let start := if mode = 2 then "loop start" else "start"
        let loops := (count - 1).toNat
        let moving := a.play c1.calls groupname Priority.Default start "stop" 0 loops
        { c1 with
          mAnimQueue := []
          mCharState := CharacterState.SpecialIdle
          mLooping := false
          mMovingAnim := moving
          calls := c1.calls ++ [AnimCall.play groupname Priority.Default start "stop" 0 loops] }
      else if mode = 0 then
        { c1 with mAnimQueue := [] ++ [(groupname, (count - 1).toNat)] }
      else c1

/-- The first branch of the locomotion cascade of `update` (lines 305 to 319):
sideways movement. -/
def updateSideways (w : World) (duration speed : ℚ) (c : CharacterController)
    (movement : Movement) : Except Error (CharacterController × Movement) :=
  let inwater := w.isSwimming c.mPtr
  let isrunning := w.getStanceRun c.mPtr
  let sneak := w.getStanceSneak c.mPtr
  let vec := w.getMovementVector c.mPtr
  let r :=
    if vec.x > 0 then
      setState (if inwater then (if isrunning then CharacterState.SwimRunRight
                                 else CharacterState.SwimWalkRight)
                else (if sneak then CharacterState.SneakRight
                      else (if isrunning then CharacterState.RunRight
                            else CharacterState.WalkRight))) true c
    else if vec.x < 0 then
      setState (if inwater then (if isrunning then CharacterState.SwimRunLeft
                                 else CharacterState.SwimWalkLeft)
                else (if sneak then CharacterState.SneakLeft
                      else (if isrunning then CharacterState.RunLeft
                            else CharacterState.WalkLeft))) true c
    else .ok c
  match r with
  | .error e => .error e
  | .ok c1 =>
    let p := movement.mPosition
    let p1 : Vec3 := if !c1.mMovingAnim then { p with x := p.x + vec.x * (speed * duration) } else p
    let p2 : Vec3 := { p1 with y := p1.y + vec.y * (speed * duration) }
    .ok (c1, { movement with mPosition := p2 })

/-- The second branch of the locomotion cascade of `update` (lines 320 to 334):
forward or backward movement. -/
def updateForward (w : World) (duration speed : ℚ) (c : CharacterController)
    (movement : Movement) : Except Error (CharacterController × Movement) :=
  let inwater := w.isSwimming c.mPtr
  let isrunning := w.getStanceRun c.mPtr
  let sneak := w.getStanceSneak c.mPtr
  let vec := w.getMovementVector c.mPtr
  let r :=
    if vec.y > 0 then
      setState (if inwater then (if isrunning then CharacterState.SwimRunForward
                                 else CharacterState.SwimWalkForward)
                else (if sneak then CharacterState.SneakForward
                      else (if isrunning then CharacterState.RunForward
                            else CharacterState.WalkForward))) true c
    else if vec.y < 0 then
      setState (if inwater then (if isrunning then CharacterState.SwimRunBack
                                 else CharacterState.SwimWalkBack)
                else (if sneak then CharacterState.SneakBack
                      else (if isrunning then CharacterState.RunBack
                            else CharacterState.WalkBack))) true c
    else .ok c
  match r with
  | .error e => .error e
  | .ok c1 =>
    let p := movement.mPosition
    let p1 : Vec3 := { p with x := p.x + vec.x * (speed * duration) }
    let p2 : Vec3 := if !c1.mMovingAnim then { p1 with y := p1.y + vec.y * (speed * duration) } else p1
    .ok (c1, { movement with mPosition := p2 })

/-- The third branch of the locomotion cascade of `update` (lines 335 to 341):
turning. -/
def updateTurn (w : World) (c : CharacterController) : Except Error CharacterController :=
  let rot := w.getRotationVector c.mPtr
  if rot.z > 0 then setState CharacterState.TurnRight true c
  else if rot.z < 0 then setState CharacterState.TurnLeft true c
  else .ok c

/-- The fourth branch of the locomotion cascade of `update` (lines 342 to 354),
entered when the state is not `SpecialIdle`: go idle, or play the front of the
queue.  The play call goes through `mAnimation` without a null check. -/
def updateIdle (w : World) (c : CharacterController) : Except Error CharacterController :=
  let inwater := w.isSwimming c.mPtr
  let sneak := w.getStanceSneak c.mPtr
  match c.mAnimQueue with
  | [] =>
    setState (if inwater then CharacterState.IdleSwim
              else (if sneak then CharacterState.IdleSneak else CharacterState.Idle)) true c
  | front :: rest =>
    match c.mAnimation with
    | none => .error Error.nullAnimation
    | some a =>
      let moving := a.play c.calls front.1 Priority.Default "start" "stop" 0 front.2
      .ok { c with
        mMovingAnim := moving
        mAnimQueue := rest
        calls := c.calls ++ [AnimCall.play front.1 Priority.Default "start" "stop" 0 front.2] }

/-- The athletics block of `update` (lines 204 to 225). -/
def updateAthletics (w : World) (duration : ℚ) (c : CharacterController) : CharacterController :=
  let vec := w.getMovementVector c.mPtr
  if vec.x * vec.x + vec.y * vec.y + vec.z * vec.z > 0 ∧ c.mPtr = w.getPlayer then
    if w.isSwimming c.mPtr then
      let r := athleticsLoop (c.mSecondsOfSwimming + duration) 0
      { c with
        mSecondsOfSwimming := r.1
        skillCalls := c.skillCalls ++ List.replicate r.2 (c.mPtr, 1) }
    else if w.getStanceRun c.mPtr then
      let r := athleticsLoop (c.mSecondsOfRunning + duration) 0
      { c with
        mSecondsOfRunning := r.1
        skillCalls := c.skillCalls ++ List.replicate r.2 (c.mPtr, 0) }
    else c
  else c

/-- The jump block of `update` (lines 287 to 303). -/
def updateJump (w : World) (duration : ℚ) (ptr : Ptr) (movement : Movement) : Movement :=
  let vec := w.getMovementVector ptr
  if w.isOnGround ptr ∧ vec.z > 0 then
    let x := w.getJump ptr
    let p := movement.mPosition
    if vec.x = 0 ∧ vec.y = 0 then
      { movement with mPosition := { p with z := p.z + x * duration } }
    else
      { movement with mPosition := { p with z := p.z + x * (707 / 1000) * duration } }
  else movement

/-- The equipment block of `update` (lines 227 to 283): for an NPC, derive the
weapon state and set it. -/
def updateWeaponState (w : World) (c : CharacterController) : Except Error CharacterController :=
  if w.isNpc c.mPtr then setWeaponState (deriveWeaponState w c.mPtr) c else .ok c

/-- The locomotion cascade of `update` (lines 305 to 354). -/
def updateLocomotion (w : World) (duration speed : ℚ) (c : CharacterController)
    (movement : Movement) : Except Error (CharacterController × Movement) :=
  let inwater := w.isSwimming c.mPtr
  let sneak := w.getStanceSneak c.mPtr
  let vec := w.getMovementVector c.mPtr
  let rot := w.getRotationVector c.mPtr
  if |vec.x / 2| > |vec.y| ∧ speed > 0 then
    updateSideways w duration speed c movement
  else if vec.y ≠ 0 ∧ speed > 0 then
    updateForward w duration speed c movement
  else if rot.z ≠ 0 ∧ inwater = false ∧ sneak = false then
    match updateTurn w c with
    | .error e => .error e
    | .ok c1 => .ok (c1, movement)
  else if c.mCharState ≠ CharacterState.SpecialIdle then
    match updateIdle w c with
    | .error e => .error e
    | .ok c1 => .ok (c1, movement)
  else .ok (c, movement)

/-- The first part of `update` (lines 190 to 359): `float speed = 0.0f;` and the
block `if(!(getState() >= CharState_Death1))`.  Returns the controller, the output
record and `speed`. -/
def updateLiving (w : World) (duration : ℚ) (c : CharacterController) (movement : Movement) :
    Except Error (CharacterController × Movement × ℚ) :=
  if c.mCharState.isDeath then .ok (c, movement, 0)
  else
    let rot := w.getRotationVector c.mPtr
    let speed := w.getSpeed c.mPtr
    match updateWeaponState w (updateAthletics w duration c) with
    | .error e => .error e
    | .ok c2 =>
      match updateLocomotion w duration speed c2 (updateJump w duration c2.mPtr movement) with
      | .error e => .error e
      | .ok (c3, movement2) =>
        let q := movement2.mRotation
        let q1 : Vec3 := ⟨q.x + rot.x * duration, q.y + rot.y * duration, q.z + rot.z * duration⟩
        .ok (c3, { movement2 with mRotation := q1 }, speed)

/-- The last part of `update` (lines 361 to 369): advance the animation unless
it is to be skipped, and clear the skip flag. -/
def updateAnimation (duration speed : ℚ) (c : CharacterController) (movement : Movement) :
    CharacterController × Movement :=
  match c.mAnimation with
  | none => ({ c with mSkipAnim := false }, movement)
  | some a =>
    if !c.mSkipAnim then
      let c1 := { c with calls := c.calls ++ [AnimCall.setSpeed speed] }
      let moved := a.runAnimation c1.calls duration
      let c2 := { c1 with calls := c1.calls ++ [AnimCall.runAnimation duration] }
      let p := movement.mPosition
      ({ c2 with mSkipAnim := false },
       { movement with mPosition := ⟨p.x + moved.x, p.y + moved.y, p.z + moved.z⟩ })
    else ({ c with mSkipAnim := false }, movement)

/-- The function `CharacterController::update`. -/
def update (w : World) (duration : ℚ) (c : CharacterController) (movement : Movement) :
    Except Error (CharacterController × Movement) :=
  match updateLiving w duration c movement with
  | .error e => .error e
  | .ok (c1, movement1, speed) => .ok (updateAnimation duration speed c1 movement1)

end CharacterController

/-- A call on the controller from outside. -/
inductive Op
  | update (w : World) (duration : ℚ) (movement : Movement)
  | playGroup (groupname : String) (mode count : Int)
  | skipAnim
  | updatePtr (ptr : Ptr)
  | setState (state : CharacterState) (loop : Bool)
  | setWeaponState (state : WeaponState)

/-- Carry out one call; the output record of an `update` is dropped. -/
def step (c : CharacterController) : Op → Except Error CharacterController
  | .update w duration movement =>
    match c.update w duration movement with
    | .error e => .error e
    | .ok r => .ok r.1
  | .playGroup groupname mode count => .ok (c.playGroup groupname mode count)
  | .skipAnim => .ok c.skipAnim
  | .updatePtr ptr => .ok (c.updatePtr ptr)
  | .setState state loop => c.setState state loop
  | .setWeaponState state => c.setWeaponState state

/-- Carry out a sequence of calls, stopping at the first error. -/
def run (c : CharacterController) : List Op → Except Error CharacterController
  | [] => .ok c
  | op :: ops =>
    match step c op with
    | .error e => .error e
    | .ok c1 => run c1 ops

/-- The error a result carries, if any. -/
def raised {α : Type} : Except Error α → Option Error
  | .error e => some e
  | .ok _ => none

/-- The calls that only update, skipAnim and updatePtr make up. -/
def Op.isUpdateSkipOrPtr : Op → Bool
  | .update _ _ _ => true
  | .skipAnim => true
  | .updatePtr _ => true
  | _ => false

/-- The calls that advance the animation: setSpeed and runAnimation. -/
def AnimCall.isAdvance : AnimCall → Bool
  | .setSpeed _ => true
  | .runAnimation _ => true
  | _ => false

/-- The suffix table as the specification words it: idle suffix (flag set) and
movement suffix (flag clear) of an equipment state. -/
def equipmentSuffixSpec : WeaponState → Bool → String
  | .None, _ => ""
  | .HandToHand, _ => "hh"
  | .OneHand, _ => "1h"
  | .TwoHand, _ => "2c"
  | .TwoWide, _ => "2w"
  | .BowAndArrow, _ => "1h"
  | .Crossbow, true => "crossbow"
  | .Crossbow, false => "2c"
  | .ThowWeapon, _ => "1h"
  | .Spell, true => "spell"
  | .Spell, false => ""

/-- The resolver as the specification words it (section 4.1, steps 2 to 4), for
a state whose table name is `base`. -/
def resolveSpec (base : String) (locomotion : CharacterState) (equipment : WeaponState)
    (hasClip : String → Bool) : String :=
  let combined : Option String :=
    if locomotion.isDeath = false ∧ equipment ≠ WeaponState.None then
      some (base ++ equipmentSuffixSpec equipment (decide (locomotion = CharacterState.Idle)))
    else none
  match combined with
  | some g => if g ≠ "" ∧ hasClip g = true then g else if hasClip base then base else ""
  | none => if hasClip base then base else ""

/-- A collaborator that has no clip at all, never reports a moving animation
and never reports root motion. -/
def animNoClips : Animation :=
  { hasAnimation := fun _ _ => false
    play := fun _ _ _ _ _ _ _ => false
    runAnimation := fun _ _ => ⟨0, 0, 0⟩ }

/-- A collaborator that has every clip, never reports a moving animation and
never reports root motion. -/
def animAllClips : Animation :=
  { hasAnimation := fun _ _ => true
    play := fun _ _ _ _ _ _ _ => false
    runAnimation := fun _ _ => ⟨0, 0, 0⟩ }

/-- A collaborator that has exactly the clip `clip`, never reports a moving
animation and never reports root motion. -/
def animOnly (clip : String) : Animation :=
  { hasAnimation := fun _ n => n == clip
    play := fun _ _ _ _ _ _ _ => false
    runAnimation := fun _ _ => ⟨0, 0, 0⟩ }

/-- A controller for entity 0 in the given states, all else as the constructor
leaves it. -/
def controllerIn (anim : Option Animation) (state : CharacterState) (weap : WeaponState) :
    CharacterController :=
  { mPtr := 0, mAnimation := anim, mAnimQueue := [], mCharState := state,
    mWeapState := weap, mLooping := false, mSkipAnim := false,
    mMovingAnim := false, mSecondsOfRunning := 0, mSecondsOfSwimming := 0,
    calls := [], skillCalls := [] }

/-- The call list `l2` is `l1` followed by calls none of which advances the
animation. -/
def QuietExt (l1 l2 : List AnimCall) : Prop :=
  ∃ extra, l2 = l1 ++ extra ∧ ∀ e ∈ extra, AnimCall.isAdvance e = false

/-- What no operation but `skipAnim`, `updatePtr` and the last part of `update`
touches: the entity, the collaborator and the skip flag stay, and the calls are
extended by calls that do not advance the animation. -/
def Frame (c1 c2 : CharacterController) : Prop :=
  c2.mPtr = c1.mPtr ∧ c2.mAnimation = c1.mAnimation ∧ c2.mSkipAnim = c1.mSkipAnim
    ∧ QuietExt c1.calls c2.calls

/-- A world in which entity 0 is an NPC that stands still with its weapon drawn
and nothing in the right hand. -/
def worldBareHands : World :=
  { isActor := fun _ => true
    isOnGround := fun _ => true
    isSwimming := fun _ => false
    getPlayer := 1
    getStanceRun := fun _ => false
    getStanceSneak := fun _ => false
    getMovementVector := fun _ => ⟨0, 0, 0⟩
    getRotationVector := fun _ => ⟨0, 0, 0⟩
    getSpeed := fun _ => 0
    getJump := fun _ => 0
    isNpc := fun _ => true
    getDrawState := fun _ => DrawState.Weapon
    getSlotCarriedRight := fun _ => none }

/-- The output record with all deltas zero. -/
def Movement.zero : Movement := ⟨⟨0, 0, 0⟩, ⟨0, 0, 0⟩⟩

/-- An NPC controller is constructed idle with a collaborator that has every
clip, an animation is played on it with `playGroup "idle" 1 1`, and `update`
then finds the weapon drawn with nothing in the right hand. -/
def playThenDrawWeapon : Except Error CharacterController :=
  match CharacterController.create worldBareHands 0 (some animAllClips) CharacterState.Idle true with
  | .error e => .error e
  | .ok c => run c [Op.playGroup "idle" 1 1, Op.update worldBareHands (1 / 10) Movement.zero]

/-- The root motion the last part of `update` adds to the output position, read
off the controller before (`c`) and after (`c1`) the call: nothing for a null
collaborator or a set skip flag, else the collaborator's answer to the
`runAnimation` call, which is the last call issued. -/
def rootMotionAdded (duration : ℚ) (c c1 : CharacterController) : Vec3 :=
  match c.mAnimation with
  | none => ⟨0, 0, 0⟩
  | some a => if c.mSkipAnim then ⟨0, 0, 0⟩ else a.runAnimation c1.calls.dropLast duration

/-- A world in which entity 0, not an NPC and not the player, is on the ground,
neither swimming, running nor sneaking, and wants to move forward (intent 1) at
speed 3. -/
def worldWalkForward : World :=
  { isActor := fun _ => true
    isOnGround := fun _ => true
    isSwimming := fun _ => false
    getPlayer := 1
    getStanceRun := fun _ => false
    getStanceSneak := fun _ => false
    getMovementVector := fun _ => ⟨0, 1, 0⟩
    getRotationVector := fun _ => ⟨0, 0, 0⟩
    getSpeed := fun _ => 3
    getJump := fun _ => 0
    isNpc := fun _ => false
    getDrawState := fun _ => DrawState.Nothing
    getSlotCarriedRight := fun _ => none }

/-- A collaborator that has every clip, never reports a moving animation, and
reports the root motion (1, 2, 3) for every advance. -/
def animRootMotion : Animation :=
  { hasAnimation := fun _ _ => true
    play := fun _ _ _ _ _ _ _ => false
    runAnimation := fun _ _ => ⟨1, 2, 3⟩ }

/-- The controller `controllerIn (some animAllClips) Idle None` after one
`update` in `worldWalkForward` with a tick of 1/10. -/
def walkedController : CharacterController :=
  { controllerIn (some animAllClips) CharacterState.WalkForward WeaponState.None with
    mLooping := true
    calls := [AnimCall.hasAnimation "walkforward",
      AnimCall.play "walkforward" Priority.Default "start" "stop" 0 sizeMax,
      AnimCall.showWeapons false, AnimCall.setSpeed 3, AnimCall.runAnimation (1 / 10)] }

/-- A world in which entity 0, an NPC that is not the player, stands still on
the ground with a two-handed long blade drawn. -/
def worldTwoHandDrawn : World :=
  { isActor := fun _ => true
    isOnGround := fun _ => true
    isSwimming := fun _ => false
    getPlayer := 1
    getStanceRun := fun _ => false
    getStanceSneak := fun _ => false
    getMovementVector := fun _ => ⟨0, 0, 0⟩
    getRotationVector := fun _ => ⟨0, 0, 0⟩
    getSpeed := fun _ => 0
    getJump := fun _ => 0
    isNpc := fun _ => true
    getDrawState := fun _ => DrawState.Weapon
    getSlotCarriedRight := fun _ => some (CarriedItem.Weapon (some WeaponType.LongBladeTwoHand)) }

/-- The controller `controllerIn (some animAllClips) Idle None` after one
`update` in `worldTwoHandDrawn` with a tick of 1/10. -/
def twoHandController : CharacterController :=
  { controllerIn (some animAllClips) CharacterState.Idle WeaponState.TwoHand with
    calls := [AnimCall.hasAnimation "idle2c",
      AnimCall.play "idle2c" Priority.Default "start" "stop" 0 0,
      AnimCall.showWeapons true, AnimCall.setSpeed 0, AnimCall.runAnimation (1 / 10)] }

/-- A world in which entity 0, not an NPC and not the player, is on the ground
and wants to move forward (intent 1) and to jump (intent 1), at speed 3 and with
jump height 1. -/
def worldJumpForward : World :=
  { isActor := fun _ => true
    isOnGround := fun _ => true
    isSwimming := fun _ => false
    getPlayer := 1
    getStanceRun := fun _ => false
    getStanceSneak := fun _ => false
    getMovementVector := fun _ => ⟨0, 1, 1⟩
    getRotationVector := fun _ => ⟨0, 0, 0⟩
    getSpeed := fun _ => 3
    getJump := fun _ => 1
    isNpc := fun _ => false
    getDrawState := fun _ => DrawState.Nothing
    getSlotCarriedRight := fun _ => none }

/-- The controller `controllerIn (some animAllClips) Idle None` after one
`update` in `worldJumpForward` with a tick of 1. -/
def jumpedController : CharacterController :=
  { controllerIn (some animAllClips) CharacterState.WalkForward WeaponState.None with
    mLooping := true
    calls := [AnimCall.hasAnimation "walkforward",
      AnimCall.play "walkforward" Priority.Default "start" "stop" 0 sizeMax,
      AnimCall.showWeapons false, AnimCall.setSpeed 3, AnimCall.runAnimation 1] }

/-- The movement families of the specification. -/
inductive Family
  | SwimRun | SwimWalk | Sneak | Run | Walk
  deriving DecidableEq, Repr

/-- The four directions of a movement family. -/
inductive Direction
  | Forward | Back | Left | Right
  deriving DecidableEq, Repr

/-- The family F as the specification words it: swim-run if submerged and
running, swim-walk if submerged and not running, else sneak if sneaking, else run
if running, else walk. -/
def familySpec (submerged sneaking running : Bool) : Family :=
  match submerged, sneaking, running with
  | true, _, true => Family.SwimRun
  | true, _, false => Family.SwimWalk
  | false, true, _ => Family.Sneak
  | false, false, true => Family.Run
  | false, false, false => Family.Walk

/-- The state that is the given direction's variant of the given family. -/
def variantSpec : Family → Direction → CharacterState
  | .SwimRun, .Forward => .SwimRunForward
  | .SwimRun, .Back => .SwimRunBack
  | .SwimRun, .Left => .SwimRunLeft
  | .SwimRun, .Right => .SwimRunRight
  | .SwimWalk, .Forward => .SwimWalkForward
  | .SwimWalk, .Back => .SwimWalkBack
  | .SwimWalk, .Left => .SwimWalkLeft
  | .SwimWalk, .Right => .SwimWalkRight
  | .Sneak, .Forward => .SneakForward
  | .Sneak, .Back => .SneakBack
  | .Sneak, .Left => .SneakLeft
  | .Sneak, .Right => .SneakRight
  | .Run, .Forward => .RunForward
  | .Run, .Back => .RunBack
  | .Run, .Left => .RunLeft
  | .Run, .Right => .RunRight
  | .Walk, .Forward => .WalkForward
  | .Walk, .Back => .WalkBack
  | .Walk, .Left => .WalkLeft
  | .Walk, .Right => .WalkRight

/-- The ordered rule list of the specification for the locomotion state after a
tick, the one-shot queue being empty where rule (d) looks at it: intent `(x, y)`,
yaw intent `r`, speed `s`. -/
def locomotionSpec (current : CharacterState) (x y r s : ℚ)
    (submerged sneaking running : Bool) : CharacterState :=
  if |x| / 2 > |y| ∧ s > 0 then
    (if x > 0 then variantSpec (familySpec submerged sneaking running) Direction.Right
     else variantSpec (familySpec submerged sneaking running) Direction.Left)
  else if y ≠ 0 ∧ s > 0 then
    (if y > 0 then variantSpec (familySpec submerged sneaking running) Direction.Forward
     else variantSpec (familySpec submerged sneaking running) Direction.Back)
  else if r ≠ 0 ∧ submerged = false ∧ sneaking = false then
    (if r > 0 then CharacterState.TurnRight else CharacterState.TurnLeft)
  else if current = CharacterState.SpecialIdle then current
  else if submerged then CharacterState.IdleSwim
  else if sneaking then CharacterState.IdleSneak
  else CharacterState.Idle

/-- The controller the constructor returns for
`CharacterController(0, animAllClips, CharState_Idle, true)`. -/
def constructedLooping : CharacterController :=
  { controllerIn (some animAllClips) CharacterState.Idle WeaponState.None with
    calls := [AnimCall.setAccumulation ⟨1, 1, 0⟩, AnimCall.hasAnimation "idle",
      AnimCall.play "idle" Priority.Default "start" "stop" 1 sizeMax] }

/-- The controller `constructedLooping` after one `update` in `worldBareHands`
with a tick of 1/10. -/
def constructedThenDrawn : CharacterController :=
  { controllerIn (some animAllClips) CharacterState.Idle WeaponState.HandToHand with
    calls := [AnimCall.setAccumulation ⟨1, 1, 0⟩, AnimCall.hasAnimation "idle",
      AnimCall.play "idle" Priority.Default "start" "stop" 1 sizeMax,
      AnimCall.hasAnimation "idlehh",
      AnimCall.play "idlehh" Priority.Default "start" "stop" 0 0,
      AnimCall.showWeapons false, AnimCall.setSpeed 0, AnimCall.runAnimation (1 / 10)] }

/-- The controller at the point where the constructor, given the non-null
collaborator `a`, calls `getCurrentGroup`: the fields as initialised and the
`setAccumulation` call issued. -/
def createdBeforePlay (w : World) (ptr : Ptr) (a : Animation) (state : CharacterState) :
    CharacterController :=
  { mPtr := ptr, mAnimation := some a, mAnimQueue := [], mCharState := state,
    mWeapState := WeaponState.None, mLooping := false, mSkipAnim := false,
    mMovingAnim := false, mSecondsOfRunning := 0, mSecondsOfSwimming := 0,
    calls := [AnimCall.setAccumulation (if w.isActor ptr then ⟨1, 1, 0⟩ else ⟨0, 0, 0⟩)],
    skillCalls := [] }

/-- The queue invariant: the queue holds at most one entry, and it is empty
whenever the state is not special-idle or the collaborator is null. -/
def QueueInv (c : CharacterController) : Prop :=
  c.mAnimQueue.length ≤ 1
    ∧ (c.mCharState ≠ CharacterState.SpecialIdle ∨ c.mAnimation = none → c.mAnimQueue = [])

/-- The state of a controller without collaborator that has made no call to
one: null collaborator, empty queue, no call issued. -/
def NullInv (c : CharacterController) : Prop :=
  c.mAnimation = none ∧ c.mAnimQueue = [] ∧ c.calls = []

/-- What the blocks of `update` after the athletics block leave alone: the two
seconds counters and the skill-progress calls. -/
def Counters (c1 c2 : CharacterController) : Prop :=
  c2.mSecondsOfRunning = c1.mSecondsOfRunning
    ∧ c2.mSecondsOfSwimming = c1.mSecondsOfSwimming ∧ c2.skillCalls = c1.skillCalls

/-- An `update` call in which the entity `ptr` is the player, swims and has a
non-zero movement intent, with a tick that is not negative. -/
def Op.isSwimTick (ptr : Ptr) : Op → Prop
  | .update w duration _ =>
    w.isSwimming ptr = true
      ∧ (w.getMovementVector ptr).x * (w.getMovementVector ptr).x
          + (w.getMovementVector ptr).y * (w.getMovementVector ptr).y
          + (w.getMovementVector ptr).z * (w.getMovementVector ptr).z > 0
      ∧ ptr = w.getPlayer ∧ 0 ≤ duration
  | _ => False

/-- The tick of an `update` call, zero for any other call. -/
def Op.duration : Op → ℚ
  | .update _ duration _ => duration
  | _ => 0

/-- The sum of the ticks of a sequence of calls. -/
def totalDuration (ops : List Op) : ℚ := (ops.map Op.duration).sum

/-- The invariant of the swim-seconds accrual for the entity `ptr` after ticks that
sum to `S`: the controller is not in a death state, the counter lies in [0, 1]
and is positive once `S` is, counter and number of skill-progress calls add up
to `S`, and every such call is for `ptr` in submerged mode. -/
def SwimInv (ptr : Ptr) (S : ℚ) (c : CharacterController) : Prop :=
  c.mPtr = ptr ∧ c.mCharState.isDeath = false
    ∧ 0 ≤ c.mSecondsOfSwimming ∧ c.mSecondsOfSwimming ≤ 1
    ∧ c.mSecondsOfSwimming + (c.skillCalls.length : ℚ) = S
    ∧ (0 < S → 0 < c.mSecondsOfSwimming)
    ∧ c.skillCalls = List.replicate c.skillCalls.length (ptr, 1)

/-- A world in which entity 0, the player, an NPC with nothing drawn, swims
forward (intent 1) at speed 3. -/
def worldSwim : World :=
  { isActor := fun _ => true
    isOnGround := fun _ => false
    isSwimming := fun _ => true
    getPlayer := 0
    getStanceRun := fun _ => false
    getStanceSneak := fun _ => false
    getMovementVector := fun _ => ⟨0, 1, 0⟩
    getRotationVector := fun _ => ⟨0, 0, 0⟩
    getSpeed := fun _ => 3
    getJump := fun _ => 0
    isNpc := fun _ => true
    getDrawState := fun _ => DrawState.Nothing
    getSlotCarriedRight := fun _ => none }

/-- The controller `controllerIn (some animAllClips) Idle None` after one
`update` in `worldSwim` with the given tick, when that leaves the given
swim-seconds counter and skill-progress calls. -/
def swamController (duration seconds : ℚ) (skills : List (Ptr × Nat)) : CharacterController :=
  { controllerIn (some animAllClips) CharacterState.SwimWalkForward WeaponState.None with
    mLooping := true
    mSecondsOfSwimming := seconds
    skillCalls := skills
    calls := [AnimCall.hasAnimation "swimwalkforward",
      AnimCall.play "swimwalkforward" Priority.Default "start" "stop" 0 sizeMax,
      AnimCall.showWeapons false, AnimCall.setSpeed 3, AnimCall.runAnimation duration] }

/-- The calls of the failing input of `playThenDrawWeapon`, with `skipAnim`
called before the `update`. -/
def playSkipThenDrawWeapon : Except Error CharacterController :=
  match CharacterController.create worldBareHands 0 (some animAllClips) CharacterState.Idle true with
  | .error e => .error e
  | .ok c =>
    run c [Op.playGroup "idle" 1 1, Op.skipAnim, Op.update worldBareHands (1 / 10) Movement.zero]

/-- A world in which entity 0, an NPC that is not the player, has its weapon
drawn with nothing in the right hand, is on the ground, neither swimming, running
nor sneaking, and wants to move forward (intent 1) at speed 3. -/
def worldWalkForwardDrawn : World :=
  { isActor := fun _ => true
    isOnGround := fun _ => true
    isSwimming := fun _ => false
    getPlayer := 1
    getStanceRun := fun _ => false
    getStanceSneak := fun _ => false
    getMovementVector := fun _ => ⟨0, 1, 0⟩
    getRotationVector := fun _ => ⟨0, 0, 0⟩
    getSpeed := fun _ => 3
    getJump := fun _ => 0
    isNpc := fun _ => true
    getDrawState := fun _ => DrawState.Weapon
    getSlotCarriedRight := fun _ => none }

/-- An NPC controller is constructed idle with a collaborator that has every
clip, an animation is played on it with `playGroup "idle" 1 1`, and `update`
then finds the weapon drawn with nothing in the right hand and forward intent 1
at speed 3. -/
def playThenWalkDrawn : Except Error CharacterController :=
  match CharacterController.create worldWalkForwardDrawn 0 (some animAllClips)
      CharacterState.Idle true with
  | .error e => .error e
  | .ok c =>
    run c [Op.playGroup "idle" 1 1, Op.update worldWalkForwardDrawn (1 / 10) Movement.zero]

/-- A world in which entity 0, an NPC that is not the player, has its weapon
drawn with nothing in the right hand, stands on the ground, neither swimming,
running nor sneaking, and wants to turn right (yaw intent 1). -/
def worldTurnRightDrawn : World :=
  { isActor := fun _ => true
    isOnGround := fun _ => true
    isSwimming := fun _ => false
    getPlayer := 1
    getStanceRun := fun _ => false
    getStanceSneak := fun _ => false
    getMovementVector := fun _ => ⟨0, 0, 0⟩
    getRotationVector := fun _ => ⟨0, 0, 1⟩
    getSpeed := fun _ => 0
    getJump := fun _ => 0
    isNpc := fun _ => true
    getDrawState := fun _ => DrawState.Weapon
    getSlotCarriedRight := fun _ => none }

/-- An NPC controller is constructed idle with a collaborator that has every
clip, an animation is played on it with `playGroup "idle" 1 1`, and `update`
then finds the weapon drawn with nothing in the right hand and yaw intent 1. -/
def playThenTurnDrawn : Except Error CharacterController :=
  match CharacterController.create worldTurnRightDrawn 0 (some animAllClips)
      CharacterState.Idle true with
  | .error e => .error e
  | .ok c =>
    run c [Op.playGroup "idle" 1 1, Op.update worldTurnRightDrawn (1 / 10) Movement.zero]

/-! ## Theorems -/

theorem lookup_eq_findStateName (st : CharacterState) (h : st ≠ CharacterState.SpecialIdle) :
    sStateList.lookup st = some (findStateName st sStateList) := by
  cases st <;> first | rfl | exact absurd rfl h

theorem lookup_specialIdle : sStateList.lookup CharacterState.SpecialIdle = none := by rfl

theorem findStateName_ne_empty (st : CharacterState) (h : st ≠ CharacterState.SpecialIdle) :
    (findStateName st sStateList).isEmpty = false := by
  cases st <;> first | rfl | exact absurd rfl h

theorem findWeaponGroup_eq (name : String) (st : CharacterState) (ws : WeaponState)
    (h : ws ≠ WeaponState.None) :
    findWeaponGroup "" name st ws sWeaponStateList
      = name ++ equipmentSuffixSpec ws (decide (st = CharacterState.Idle)) := by
  by_cases hs : st = CharacterState.Idle <;>
    cases ws <;> simp_all [findWeaponGroup, sWeaponStateList, equipmentSuffixSpec]

theorem ne_empty_of_isEmpty_eq_false (s : String) (h : s.isEmpty = false) : s ≠ "" := by
  intro h1
  rw [h1] at h
  exact absurd h (by decide)

theorem append_isEmpty_eq_false (s t : String) (h : s.isEmpty = false) :
    (s ++ t).isEmpty = false := by
  have hs := ne_empty_of_isEmpty_eq_false s h
  cases hb : (s ++ t).isEmpty
  · rfl
  · exfalso
    apply hs
    have h2 := (String.isEmpty_iff _).mp hb
    have h3 := congrArg String.data h2
    rw [String.data_append] at h3
    have h4 : s.data = [] := (List.append_eq_nil.mp h3).1
    exact String.ext h4

theorem lookup_some_facts (st : CharacterState) (base : String)
    (hbase : sStateList.lookup st = some base) :
    st ≠ CharacterState.SpecialIdle ∧ findStateName st sStateList = base
      ∧ base.isEmpty = false := by
  have hne : st ≠ CharacterState.SpecialIdle := by
    intro h
    rw [h, lookup_specialIdle] at hbase
    exact absurd hbase (by simp)
  have hb : findStateName st sStateList = base := by
    have := lookup_eq_findStateName st hne
    rw [hbase] at this
    exact (Option.some.inj this).symm
  have hemp := findStateName_ne_empty st hne
  rw [hb] at hemp
  exact ⟨hne, hb, hemp⟩

theorem getCurrentGroup_fst (a : Animation) (c : CharacterController)
    (hasClip : String → Bool) (base : String)
    (hbase : sStateList.lookup c.mCharState = some base)
    (horacle : ∀ l n, a.hasAnimation l n = hasClip n) :
    Except.map Prod.fst (c.getCurrentGroup a "")
      = .ok (resolveSpec base c.mCharState c.mWeapState hasClip) := by
  obtain ⟨hne, hb, hemp⟩ := lookup_some_facts c.mCharState base hbase
  have he : "".isEmpty = true := rfl
  unfold CharacterController.getCurrentGroup resolveSpec
  simp only [hb, hemp, horacle]
  by_cases hd : c.mCharState.isDeath = true
  · simp [hd, he, Except.map]
  · simp only [Bool.not_eq_true] at hd
    by_cases hw : c.mWeapState = WeaponState.None
    · simp [hd, hw, he, Except.map]
    · have happ := append_isEmpty_eq_false base
        (equipmentSuffixSpec c.mWeapState (decide (c.mCharState = CharacterState.Idle))) hemp
      have hne2 := ne_empty_of_isEmpty_eq_false _ happ
      simp [hd, hw, findWeaponGroup_eq, hb, happ, hne2, Except.map]
      cases h1 : hasClip (base ++ equipmentSuffixSpec c.mWeapState
          (decide (c.mCharState = CharacterState.Idle))) <;> cases h2 : hasClip base <;> simp [h1, h2]

theorem getCurrentGroup_nonempty (a : Animation) (c : CharacterController) (base : String)
    (hbase : sStateList.lookup c.mCharState = some base)
    (hclip : ∀ l, a.hasAnimation l base = true) :
    ∃ g c1, c.getCurrentGroup a "" = .ok (g, c1) ∧ g ≠ "" := by
  obtain ⟨hne, hb, hemp⟩ := lookup_some_facts c.mCharState base hbase
  have hbne := ne_empty_of_isEmpty_eq_false base hemp
  have he : "".isEmpty = true := rfl
  unfold CharacterController.getCurrentGroup
  simp only [hb, hemp]
  by_cases hcond : (!c.mCharState.isDeath && c.mWeapState != WeaponState.None) = true
  · have hw : c.mWeapState ≠ WeaponState.None := by
      intro h
      simp [h] at hcond
    have happ := append_isEmpty_eq_false base
      (equipmentSuffixSpec c.mWeapState (decide (c.mCharState = CharacterState.Idle))) hemp
    have hane := ne_empty_of_isEmpty_eq_false _ happ
    rw [if_pos hcond, findWeaponGroup_eq base c.mCharState c.mWeapState hw]
    cases hg : a.hasAnimation c.calls (base ++ equipmentSuffixSpec c.mWeapState
        (decide (c.mCharState = CharacterState.Idle)))
    · simp [happ, hclip, hbne]
    · simp [happ, hane]
  · simp [hcond, he, hclip, hbne]

theorem getCurrentGroup_specialIdle (a : Animation) (c : CharacterController) (group : String)
    (h : c.mCharState = CharacterState.SpecialIdle) :
    c.getCurrentGroup a group
      = .error (Error.failedToFindCharacterState CharacterState.SpecialIdle) := by
  unfold CharacterController.getCurrentGroup
  rw [h]
  rfl

/-- C1 (counterexample): with no clip at all, so that "idle2c" does not exist,
idle with a two-handed-close weapon resolves to the empty name, not to "idle". -/
theorem resolver_idle_twoHand_without_clips :
    animNoClips.hasAnimation [] "idle2c" = false
    ∧ Except.map Prod.fst
        ((controllerIn (some animNoClips) CharacterState.Idle WeaponState.TwoHand).getCurrentGroup
          animNoClips "") = .ok ""
    ∧ Except.map Prod.fst
        ((controllerIn (some animNoClips) CharacterState.Idle WeaponState.TwoHand).getCurrentGroup
          animNoClips "") ≠ .ok "idle" := by
  have h := getCurrentGroup_fst animNoClips
    (controllerIn (some animNoClips) CharacterState.Idle WeaponState.TwoHand)
    (fun _ => false) "idle" rfl (fun _ _ => rfl)
  have h2 : resolveSpec "idle" CharacterState.Idle WeaponState.TwoHand (fun _ => false) = "" := by
    decide
  have h3 : (controllerIn (some animNoClips) CharacterState.Idle WeaponState.TwoHand).mCharState
      = CharacterState.Idle := rfl
  have h4 : (controllerIn (some animNoClips) CharacterState.Idle WeaponState.TwoHand).mWeapState
      = WeaponState.TwoHand := rfl
  rw [h3, h4, h2] at h
  refine ⟨rfl, h, ?_⟩
  rw [h]
  intro hc
  injection hc with hc
  exact absurd hc (by decide)

/-- C1 (amended): for a state with table name `base` and a collaborator that
answers has-clip by the oracle `hasClip`, the group `getCurrentGroup` returns is
the one the reference definition `resolveSpec` gives: the combined name if it was
formed, is non-empty and exists, else `base` if it exists, else the empty name.
Idle with a two-handed-close weapon resolves to "idle2c" when that clip exists,
else to "idle" when that clip exists, else to the empty name. -/
theorem getCurrentGroup_eq_resolveSpec (a : Animation) (c : CharacterController)
    (hasClip : String → Bool) (base : String)
    (hbase : sStateList.lookup c.mCharState = some base)
    (horacle : ∀ l n, a.hasAnimation l n = hasClip n) :
    Except.map Prod.fst (c.getCurrentGroup a "")
        = .ok (resolveSpec base c.mCharState c.mWeapState hasClip)
    ∧ (c.mCharState = CharacterState.Idle → c.mWeapState = WeaponState.TwoHand →
        Except.map Prod.fst (c.getCurrentGroup a "")
          = .ok (if hasClip "idle2c" then "idle2c" else if hasClip "idle" then "idle" else "")) := by
  refine ⟨getCurrentGroup_fst a c hasClip base hbase horacle, ?_⟩
  intro hs hw
  have hbase2 : sStateList.lookup c.mCharState = some "idle" := by rw [hs]; rfl
  rw [getCurrentGroup_fst a c hasClip "idle" hbase2 horacle, hs, hw]
  have h1 : ("idle" ++ "2c" : String) = "idle2c" := by decide
  have h2 : ("idle2c" : String) ≠ "" := by decide
  simp [resolveSpec, equipmentSuffixSpec, CharacterState.isDeath, CharacterState.toNat, h1, h2]

/-- C1 (witness): the idle state with a two-handed-close weapon and a
collaborator that has only "idle2c". -/
theorem getCurrentGroup_eq_resolveSpec_witness :
    Except.map Prod.fst
        ((controllerIn (some (animOnly "idle2c")) CharacterState.Idle WeaponState.TwoHand).getCurrentGroup
          (animOnly "idle2c") "")
        = .ok (resolveSpec "idle" CharacterState.Idle WeaponState.TwoHand (fun n => n == "idle2c"))
    ∧ resolveSpec "idle" CharacterState.Idle WeaponState.TwoHand (fun n => n == "idle2c")
        = "idle2c" :=
  ⟨(getCurrentGroup_eq_resolveSpec (animOnly "idle2c")
      (controllerIn (some (animOnly "idle2c")) CharacterState.Idle WeaponState.TwoHand)
      (fun n => n == "idle2c") "idle" rfl (fun _ _ => rfl)).1, by decide⟩

/-- C2 (counterexample): in the special-idle state the resolver raises the
table-lookup error, even with a collaborator that has every clip. -/
theorem resolver_specialIdle_raises :
    raised ((controllerIn (some animAllClips) CharacterState.SpecialIdle
        WeaponState.None).getCurrentGroup animAllClips "")
      = some (Error.failedToFindCharacterState CharacterState.SpecialIdle) := by
  decide

/-- C2 (amended): every state other than special-idle has a non-empty table
name, and for a state with table name `base`, every equipment state and every
collaborator that has the clip `base`, the resolver returns a non-empty group
without raising; in the special-idle state the resolver raises the table-lookup
error. -/
theorem getCurrentGroup_fallback (a : Animation) (c : CharacterController) :
    (c.mCharState ≠ CharacterState.SpecialIdle →
        ∃ base, sStateList.lookup c.mCharState = some base ∧ base ≠ "")
    ∧ (∀ base, sStateList.lookup c.mCharState = some base →
        (∀ l, a.hasAnimation l base = true) →
        ∃ g c1, c.getCurrentGroup a "" = .ok (g, c1) ∧ g ≠ "")
    ∧ (c.mCharState = CharacterState.SpecialIdle →
        c.getCurrentGroup a ""
          = .error (Error.failedToFindCharacterState CharacterState.SpecialIdle)) := by
  refine ⟨?_, ?_, ?_⟩
  · intro hne
    exact ⟨_, lookup_eq_findStateName _ hne,
      ne_empty_of_isEmpty_eq_false _ (findStateName_ne_empty _ hne)⟩
  · intro base hbase hclip
    exact getCurrentGroup_nonempty a c base hbase hclip
  · intro h
    exact getCurrentGroup_specialIdle a c "" h

/-- C2 (witness): walking forward with a bow, the collaborator having the clip
"walkforward" and no other, so that no combined clip exists. -/
theorem getCurrentGroup_fallback_witness :
    ∃ g c1, (controllerIn (some (animOnly "walkforward")) CharacterState.WalkForward
        WeaponState.BowAndArrow).getCurrentGroup (animOnly "walkforward") "" = .ok (g, c1)
      ∧ g ≠ "" :=
  (getCurrentGroup_fallback (animOnly "walkforward")
    (controllerIn (some (animOnly "walkforward")) CharacterState.WalkForward
      WeaponState.BowAndArrow)).2.1
    "walkforward" rfl (fun _ => (by decide : ("walkforward" == "walkforward") = true))

theorem quietExt_refl (l : List AnimCall) : QuietExt l l :=
  ⟨[], by simp, by simp⟩

theorem quietExt_trans {l1 l2 l3 : List AnimCall} (h1 : QuietExt l1 l2) (h2 : QuietExt l2 l3) :
    QuietExt l1 l3 := by
  obtain ⟨e1, rfl, q1⟩ := h1
  obtain ⟨e2, rfl, q2⟩ := h2
  refine ⟨e1 ++ e2, by simp, ?_⟩
  intro e he
  rcases List.mem_append.mp he with h | h
  · exact q1 e h
  · exact q2 e h

theorem quietExt_snoc {l1 l2 : List AnimCall} (h : QuietExt l1 l2) (e : AnimCall)
    (he : AnimCall.isAdvance e = false) : QuietExt l1 (l2 ++ [e]) :=
  quietExt_trans h ⟨[e], rfl, by simpa using he⟩

theorem quietExt_snoc1 (l : List AnimCall) (e : AnimCall)
    (he : AnimCall.isAdvance e = false) : QuietExt l (l ++ [e]) :=
  quietExt_snoc (quietExt_refl l) e he

theorem quietExt_snoc2 (l : List AnimCall) (e1 e2 : AnimCall)
    (he1 : AnimCall.isAdvance e1 = false) (he2 : AnimCall.isAdvance e2 = false) :
    QuietExt l (l ++ [e1] ++ [e2]) :=
  quietExt_snoc (quietExt_snoc (quietExt_refl l) e1 he1) e2 he2

theorem frame_refl (c : CharacterController) : Frame c c :=
  ⟨rfl, rfl, rfl, quietExt_refl _⟩

theorem frame_trans {c1 c2 c3 : CharacterController} (h1 : Frame c1 c2) (h2 : Frame c2 c3) :
    Frame c1 c3 :=
  ⟨h2.1.trans h1.1, h2.2.1.trans h1.2.1, h2.2.2.1.trans h1.2.2.1,
    quietExt_trans h1.2.2.2 h2.2.2.2⟩

theorem getCurrentGroup_frame (a : Animation) (c c1 : CharacterController) (g g1 : String)
    (h : c.getCurrentGroup a g = .ok (g1, c1)) :
    Frame c c1 ∧ c1.mCharState = c.mCharState ∧ c1.mWeapState = c.mWeapState
      ∧ c1.mLooping = c.mLooping ∧ c1.mAnimQueue = c.mAnimQueue
      ∧ c1.mMovingAnim = c.mMovingAnim := by
  unfold CharacterController.getCurrentGroup at h
  simp only at h
  split_ifs at h <;> simp only [Except.ok.injEq, Prod.mk.injEq] at h <;>
    obtain ⟨_, rfl⟩ := h <;>
    refine ⟨⟨rfl, rfl, rfl, ?_⟩, rfl, rfl, rfl, rfl, rfl⟩ <;>
    first
      | (apply quietExt_snoc1; rfl)
      | (apply quietExt_snoc2 <;> rfl)

theorem forceStateUpdate_frame (c c1 : CharacterController)
    (h : c.forceStateUpdate = .ok c1) :
    Frame c c1 ∧ c1.mCharState = c.mCharState ∧ c1.mWeapState = c.mWeapState
      ∧ c1.mLooping = c.mLooping := by
  unfold CharacterController.forceStateUpdate at h
  cases ha : c.mAnimation with
  | none =>
    simp only [ha, Except.ok.injEq] at h
    subst h
    exact ⟨frame_refl _, rfl, rfl, rfl⟩
  | some a =>
    simp only [ha] at h
    cases hg : CharacterController.getCurrentGroup a { c with mAnimQueue := [] } "" with
    | error e =>
      rw [ha] at hg
      simp [hg] at h
    | ok p =>
      obtain ⟨g, c2⟩ := p
      rw [ha] at hg
      simp only [hg, Except.ok.injEq] at h
      subst h
      obtain ⟨⟨f1, f2, f3, f4⟩, k1, k2, k3, _, _⟩ := getCurrentGroup_frame a _ _ _ _ hg
      refine ⟨⟨f1, ?_, f3, ?_⟩, k1, k2, k3⟩
      · rw [ha]
        exact f2
      · apply quietExt_trans f4
        apply quietExt_snoc2 <;> rfl

theorem setState_frame (state : CharacterState) (loop : Bool) (c c1 : CharacterController)
    (h : c.setState state loop = .ok c1) :
    Frame c c1 ∧ c1.mCharState = state ∧ c1.mWeapState = c.mWeapState := by
  unfold CharacterController.setState at h
  split_ifs at h with hs
  · simp only [Except.ok.injEq] at h
    subst h
    exact ⟨frame_refl _, hs, rfl⟩
  · obtain ⟨f, k1, k2, _⟩ := forceStateUpdate_frame _ _ h
    exact ⟨f, k1, k2⟩

theorem setWeaponState_frame (state : WeaponState) (c c1 : CharacterController)
    (h : c.setWeaponState state = .ok c1) :
    Frame c c1 ∧ c1.mCharState = c.mCharState ∧ c1.mWeapState = state := by
  unfold CharacterController.setWeaponState at h
  split_ifs at h with hs
  · simp only [Except.ok.injEq] at h
    subst h
    exact ⟨frame_refl _, rfl, hs.symm⟩
  · obtain ⟨f, k1, k2, _⟩ := forceStateUpdate_frame _ _ h
    exact ⟨f, k1, k2⟩

theorem updateSideways_frame (w : World) (duration speed : ℚ) (c c1 : CharacterController)
    (m m1 : Movement) (h : c.updateSideways w duration speed m = .ok (c1, m1)) :
    Frame c c1 ∧ c1.mWeapState = c.mWeapState := by
  unfold CharacterController.updateSideways at h
  simp only at h
  split at h
  · exact absurd h (by simp)
  · rename_i c2 hr
    simp only [Except.ok.injEq, Prod.mk.injEq] at h
    obtain ⟨rfl, _⟩ := h
    split_ifs at hr <;>
    first
      | (simp only [Except.ok.injEq] at hr; subst hr; exact ⟨frame_refl _, rfl⟩)
      | exact ⟨(setState_frame _ _ _ _ hr).1, (setState_frame _ _ _ _ hr).2.2⟩

theorem updateForward_frame (w : World) (duration speed : ℚ) (c c1 : CharacterController)
    (m m1 : Movement) (h : c.updateForward w duration speed m = .ok (c1, m1)) :
    Frame c c1 ∧ c1.mWeapState = c.mWeapState := by
  unfold CharacterController.updateForward at h
  simp only at h
  split at h
  · exact absurd h (by simp)
  · rename_i c2 hr
    simp only [Except.ok.injEq, Prod.mk.injEq] at h
    obtain ⟨rfl, _⟩ := h
    split_ifs at hr <;>
    first
      | (simp only [Except.ok.injEq] at hr; subst hr; exact ⟨frame_refl _, rfl⟩)
      | exact ⟨(setState_frame _ _ _ _ hr).1, (setState_frame _ _ _ _ hr).2.2⟩

theorem updateTurn_frame (w : World) (c c1 : CharacterController)
    (h : c.updateTurn w = .ok c1) : Frame c c1 ∧ c1.mWeapState = c.mWeapState := by
  unfold CharacterController.updateTurn at h
  simp only at h
  split_ifs at h <;>
  first
    | (simp only [Except.ok.injEq] at h; subst h; exact ⟨frame_refl _, rfl⟩)
    | exact ⟨(setState_frame _ _ _ _ h).1, (setState_frame _ _ _ _ h).2.2⟩

theorem updateIdle_frame (w : World) (c c1 : CharacterController)
    (h : c.updateIdle w = .ok c1) : Frame c c1 ∧ c1.mWeapState = c.mWeapState := by
  unfold CharacterController.updateIdle at h
  simp only at h
  split at h
  · obtain ⟨f, _, k⟩ := setState_frame _ _ _ _ h
    exact ⟨f, k⟩
  · split at h
    · exact absurd h (by simp)
    · simp only [Except.ok.injEq] at h
      subst h
      exact ⟨⟨rfl, rfl, rfl, quietExt_snoc1 _ _ rfl⟩, rfl⟩

theorem updateAthletics_frame (w : World) (duration : ℚ) (c : CharacterController) :
    Frame c (c.updateAthletics w duration)
      ∧ (c.updateAthletics w duration).mCharState = c.mCharState
      ∧ (c.updateAthletics w duration).mWeapState = c.mWeapState
      ∧ (c.updateAthletics w duration).calls = c.calls := by
  unfold CharacterController.updateAthletics
  simp only
  split_ifs <;> exact ⟨frame_refl _, rfl, rfl, rfl⟩


theorem updateWeaponState_frame (w : World) (c c1 : CharacterController)
    (h : c.updateWeaponState w = .ok c1) :
    Frame c c1 ∧ c1.mCharState = c.mCharState := by
  unfold CharacterController.updateWeaponState at h
  split_ifs at h
  · exact ⟨(setWeaponState_frame _ _ _ h).1, (setWeaponState_frame _ _ _ h).2.1⟩
  · simp only [Except.ok.injEq] at h
    subst h
    exact ⟨frame_refl _, rfl⟩

theorem updateLocomotion_frame (w : World) (duration speed : ℚ) (c c1 : CharacterController)
    (m m1 : Movement) (h : c.updateLocomotion w duration speed m = .ok (c1, m1)) :
    Frame c c1 ∧ c1.mWeapState = c.mWeapState := by
  unfold CharacterController.updateLocomotion at h
  simp only at h
  split_ifs at h
  · exact updateSideways_frame _ _ _ _ _ _ _ h
  · exact updateForward_frame _ _ _ _ _ _ _ h
  · split at h
    · exact absurd h (by simp)
    · rename_i c2 hc
      simp only [Except.ok.injEq, Prod.mk.injEq] at h
      obtain ⟨rfl, _⟩ := h
      exact updateTurn_frame _ _ _ hc
  · split at h
    · exact absurd h (by simp)
    · rename_i c2 hc
      simp only [Except.ok.injEq, Prod.mk.injEq] at h
      obtain ⟨rfl, _⟩ := h
      exact updateIdle_frame _ _ _ hc
  · simp only [Except.ok.injEq, Prod.mk.injEq] at h
    obtain ⟨rfl, _⟩ := h
    exact ⟨frame_refl _, rfl⟩

theorem updateLiving_frame (w : World) (duration : ℚ) (c c1 : CharacterController)
    (m m1 : Movement) (speed : ℚ) (h : c.updateLiving w duration m = .ok (c1, m1, speed)) :
    Frame c c1 := by
  unfold CharacterController.updateLiving at h
  split_ifs at h
  · simp only [Except.ok.injEq, Prod.mk.injEq] at h
    obtain ⟨rfl, _, _⟩ := h
    exact frame_refl _
  · simp only at h
    split at h
    · exact absurd h (by simp)
    · rename_i c2 hc2
      split at h
      · exact absurd h (by simp)
      · rename_i c3 m3 hc3
        simp only [Except.ok.injEq, Prod.mk.injEq] at h
        obtain ⟨rfl, _, _⟩ := h
        exact frame_trans (frame_trans (updateAthletics_frame w duration c).1
          (updateWeaponState_frame _ _ _ hc2).1) (updateLocomotion_frame _ _ _ _ _ _ _ hc3).1

theorem updateLiving_death (w : World) (duration : ℚ) (c : CharacterController) (m : Movement)
    (hd : c.mCharState.isDeath = true) : c.updateLiving w duration m = .ok (c, m, 0) := by
  unfold CharacterController.updateLiving
  simp [hd]

theorem updateAnimation_fields (duration speed : ℚ) (c : CharacterController) (m : Movement) :
    (c.updateAnimation duration speed m).1.mCharState = c.mCharState
    ∧ (c.updateAnimation duration speed m).1.mWeapState = c.mWeapState
    ∧ (c.updateAnimation duration speed m).1.mLooping = c.mLooping
    ∧ (c.updateAnimation duration speed m).1.mMovingAnim = c.mMovingAnim
    ∧ (c.updateAnimation duration speed m).1.mAnimQueue = c.mAnimQueue
    ∧ (c.updateAnimation duration speed m).1.mAnimation = c.mAnimation
    ∧ (c.updateAnimation duration speed m).1.mPtr = c.mPtr
    ∧ (c.updateAnimation duration speed m).1.mSkipAnim = false := by
  unfold CharacterController.updateAnimation
  cases c.mAnimation with
  | none => simp
  | some a => cases c.mSkipAnim <;> simp

theorem step_death (c : CharacterController) (op : Op)
    (hd : c.mCharState.isDeath = true) (hop : op.isUpdateSkipOrPtr = true) :
    ∃ c1, step c op = .ok c1 ∧ c1.mCharState = c.mCharState := by
  cases op with
  | update w duration movement =>
    refine ⟨(c.updateAnimation duration 0 movement).1, ?_, (updateAnimation_fields _ _ _ _).1⟩
    simp [step, CharacterController.update, updateLiving_death w duration c movement hd]
  | playGroup g mode count => simp [Op.isUpdateSkipOrPtr] at hop
  | skipAnim => exact ⟨_, rfl, rfl⟩
  | updatePtr ptr => exact ⟨_, rfl, rfl⟩
  | setState s l => simp [Op.isUpdateSkipOrPtr] at hop
  | setWeaponState s => simp [Op.isUpdateSkipOrPtr] at hop

theorem run_death (ops : List Op) (c : CharacterController)
    (hd : c.mCharState.isDeath = true) (hops : ∀ op ∈ ops, Op.isUpdateSkipOrPtr op = true) :
    ∃ c1, run c ops = .ok c1 ∧ c1.mCharState = c.mCharState := by
  induction ops generalizing c with
  | nil => exact ⟨c, rfl, rfl⟩
  | cons op ops ih =>
    obtain ⟨c1, h1, k1⟩ := step_death c op hd (hops op (List.mem_cons_self _ _))
    have hd1 : c1.mCharState.isDeath = true := by rw [k1]; exact hd
    obtain ⟨c2, h2, k2⟩ := ih c1 hd1 (fun o ho => hops o (List.mem_cons_of_mem _ ho))
    refine ⟨c2, ?_, k2.trans k1⟩
    simp [run, h1, h2]

theorem playGroup_available (c : CharacterController) (a : Animation) (groupname : String)
    (mode count : Int) (ha : c.mAnimation = some a)
    (hclip : a.hasAnimation c.calls groupname = true)
    (hmode : mode ≠ 0 ∨ c.mCharState ≠ CharacterState.SpecialIdle) :
    c.playGroup groupname mode count =
      { c with
        mAnimQueue := []
        mCharState := CharacterState.SpecialIdle
        mLooping := false
        mMovingAnim := a.play (c.calls ++ [AnimCall.hasAnimation groupname]) groupname
          Priority.Default (if mode = 2 then "loop start" else "start") "stop" 0
          (max count 1 - 1).toNat
        calls := c.calls ++ [AnimCall.hasAnimation groupname] ++
          [AnimCall.play groupname Priority.Default (if mode = 2 then "loop start" else "start")
            "stop" 0 (max count 1 - 1).toNat] } := by
  unfold CharacterController.playGroup
  simp only [ha, hclip]
  simp [hmode]

/-- C3 (counterexample): a controller in the first death state whose
collaborator has the clip "idle" is in the special-idle state after
`playGroup "idle" 0 1`. -/
theorem playGroup_leaves_death :
    (controllerIn (some animAllClips) CharacterState.Death1 WeaponState.None).mCharState.isDeath
        = true
    ∧ (run (controllerIn (some animAllClips) CharacterState.Death1 WeaponState.None)
        [Op.playGroup "idle" 0 1]).toOption.map (fun c => c.mCharState)
        = some CharacterState.SpecialIdle := by
  decide

/-- C3 (amended): once the locomotion state is a death variant, every finite
sequence of update, skipAnim and updatePtr calls, whatever the collaborators
answer, completes without raising and leaves that same death variant; a
playGroup call for a clip the collaborator has, with any mode and count, puts the
controller into the special-idle state instead. -/
theorem death_terminal_without_playGroup (c : CharacterController)
    (hd : c.mCharState.isDeath = true) :
    (∀ ops : List Op, (∀ op ∈ ops, Op.isUpdateSkipOrPtr op = true) →
        ∃ c1, run c ops = .ok c1 ∧ c1.mCharState = c.mCharState)
    ∧ (∀ (a : Animation) (groupname : String) (mode count : Int),
        c.mAnimation = some a → a.hasAnimation c.calls groupname = true →
        (c.playGroup groupname mode count).mCharState = CharacterState.SpecialIdle) := by
  refine ⟨fun ops hops => run_death ops c hd hops, ?_⟩
  intro a groupname mode count ha hclip
  have hne : c.mCharState ≠ CharacterState.SpecialIdle := by
    intro h
    rw [h] at hd
    exact absurd hd (by decide)
  rw [playGroup_available c a groupname mode count ha hclip (Or.inr hne)]

/-- C3 (witness): a dead controller that is ticked, told to skip, rebound and
ticked again stays in its death state. -/
theorem death_terminal_without_playGroup_witness :
    ∃ c1, run (controllerIn (some animAllClips) CharacterState.Death2 WeaponState.None)
        [Op.update worldBareHands 1 Movement.zero, Op.skipAnim, Op.updatePtr 5,
          Op.update worldBareHands 1 Movement.zero] = .ok c1
      ∧ c1.mCharState = CharacterState.Death2 :=
  (death_terminal_without_playGroup
    (controllerIn (some animAllClips) CharacterState.Death2 WeaponState.None) (by decide)).1
    [Op.update worldBareHands 1 Movement.zero, Op.skipAnim, Op.updatePtr 5,
      Op.update worldBareHands 1 Movement.zero] (by simp [Op.isUpdateSkipOrPtr])

/-- C5: `setState` with the state the controller is in returns the controller
as it was: no field changes and no call is added to the calls made to the
animation collaborator. -/
theorem setState_same_state (c : CharacterController) (loop : Bool) :
    c.setState c.mCharState loop = .ok c := by
  simp [CharacterController.setState]


theorem forceStateUpdate_specialIdle (c : CharacterController) (a : Animation)
    (hs : c.mCharState = CharacterState.SpecialIdle) (ha : c.mAnimation = some a) :
    c.forceStateUpdate
      = .error (Error.failedToFindCharacterState CharacterState.SpecialIdle) := by
  unfold CharacterController.forceStateUpdate
  simp only [ha]
  rw [getCurrentGroup_specialIdle a _ "" (by exact hs)]

theorem update_specialIdle_weapon_change (w : World) (duration : ℚ) (c : CharacterController)
    (m : Movement) (a : Animation)
    (hs : c.mCharState = CharacterState.SpecialIdle) (ha : c.mAnimation = some a)
    (hn : w.isNpc c.mPtr = true) (hw : deriveWeaponState w c.mPtr ≠ c.mWeapState) :
    c.update w duration m
      = .error (Error.failedToFindCharacterState CharacterState.SpecialIdle) := by
  obtain ⟨⟨f1, f2, _, _⟩, k1, k2, _⟩ := updateAthletics_frame w duration c
  have hd : c.mCharState.isDeath = false := by rw [hs]; decide
  have h2 : (c.updateAthletics w duration).updateWeaponState w
      = .error (Error.failedToFindCharacterState CharacterState.SpecialIdle) := by
    unfold CharacterController.updateWeaponState CharacterController.setWeaponState
    rw [f1, k2, if_pos hn, if_neg hw]
    exact forceStateUpdate_specialIdle _ a (by rw [← hs, ← k1]) (by rw [← ha, ← f2])
  unfold CharacterController.update CharacterController.updateLiving
  simp [hd, h2]

/-- C4 (failing input): constructed idle, after `playGroup "idle" 1 1` the
controller is in the special-idle state, and the next `update`, deriving the
hand-to-hand weapon state for the NPC, raises the table-lookup error for the
special-idle state. -/
theorem update_raises_in_specialIdle :
    raised playThenDrawWeapon
      = some (Error.failedToFindCharacterState CharacterState.SpecialIdle) := by
  have h0 : CharacterController.create worldBareHands 0 (some animAllClips)
      CharacterState.Idle true
      = .ok { controllerIn (some animAllClips) CharacterState.Idle WeaponState.None with
          calls := [AnimCall.setAccumulation ⟨1, 1, 0⟩, AnimCall.hasAnimation "idle",
            AnimCall.play "idle" Priority.Default "start" "stop" 1 sizeMax] } := rfl
  have h1 := update_specialIdle_weapon_change worldBareHands (1 / 10)
    (({ controllerIn (some animAllClips) CharacterState.Idle WeaponState.None with
          calls := [AnimCall.setAccumulation ⟨1, 1, 0⟩, AnimCall.hasAnimation "idle",
            AnimCall.play "idle" Priority.Default "start" "stop" 1 sizeMax] } :
        CharacterController).playGroup "idle" 1 1)
    Movement.zero animAllClips rfl rfl rfl (by decide)
  unfold playThenDrawWeapon
  rw [h0]
  simp only [run, step, h1]
  rfl

/-- C6: for a controller with a collaborator that has the clip, and a mode other
than 0 or a state other than special-idle, after `playGroup` the queue is empty,
the state is special-idle, the looping flag is false, the weapon state is
unchanged, and the calls issued are the has-clip query followed by one play
request for that clip with `max count 1 - 1` repeats, stop marker "stop" and start
marker "loop start" for mode 2 and "start" otherwise; the moving flag is the
answer to that request. -/
theorem playGroup_interrupts (c : CharacterController) (a : Animation) (groupname : String)
    (mode count : Int) (ha : c.mAnimation = some a)
    (hclip : a.hasAnimation c.calls groupname = true)
    (hmode : mode ≠ 0 ∨ c.mCharState ≠ CharacterState.SpecialIdle) :
    (c.playGroup groupname mode count).mAnimQueue = []
    ∧ (c.playGroup groupname mode count).mCharState = CharacterState.SpecialIdle
    ∧ (c.playGroup groupname mode count).mLooping = false
    ∧ (c.playGroup groupname mode count).mWeapState = c.mWeapState
    ∧ (c.playGroup groupname mode count).calls
        = c.calls ++ [AnimCall.hasAnimation groupname,
            AnimCall.play groupname Priority.Default (if mode = 2 then "loop start" else "start")
              "stop" 0 (max count 1 - 1).toNat]
    ∧ (c.playGroup groupname mode count).mMovingAnim
        = a.play (c.calls ++ [AnimCall.hasAnimation groupname]) groupname Priority.Default
            (if mode = 2 then "loop start" else "start") "stop" 0 (max count 1 - 1).toNat := by
  rw [playGroup_available c a groupname mode count ha hclip hmode]
  simp

/-- C6 (witness): `playGroup "idle" 2 3` on a walking controller whose
collaborator has every clip. -/
theorem playGroup_interrupts_witness :
    ((controllerIn (some animAllClips) CharacterState.WalkForward
        WeaponState.OneHand).playGroup "idle" 2 3).mCharState = CharacterState.SpecialIdle
    ∧ ((controllerIn (some animAllClips) CharacterState.WalkForward
        WeaponState.OneHand).playGroup "idle" 2 3).calls
        = [AnimCall.hasAnimation "idle",
            AnimCall.play "idle" Priority.Default "loop start" "stop" 0 2] := by
  have h := playGroup_interrupts
    (controllerIn (some animAllClips) CharacterState.WalkForward WeaponState.OneHand)
    animAllClips "idle" 2 3 rfl rfl (Or.inl (by decide))
  exact ⟨h.2.1, h.2.2.2.2.1⟩

/-- C7 (counterexample): two appending `playGroup` calls in the special-idle
state, for "a" once and for "b" twice, leave the queue with the one entry
("b", 1), not with the two entries ("a", 0), ("b", 1). -/
theorem playGroup_append_twice_one_entry :
    (((controllerIn (some animAllClips) CharacterState.SpecialIdle WeaponState.None).playGroup
        "a" 0 1).playGroup "b" 0 2).mAnimQueue = [("b", 1)]
    ∧ (((controllerIn (some animAllClips) CharacterState.SpecialIdle WeaponState.None).playGroup
        "a" 0 1).playGroup "b" 0 2).mAnimQueue ≠ [("a", 0), ("b", 1)] := by
  decide

/-- C7 (amended): in the special-idle state, with a collaborator that has both
clips, `playGroup a 0 ca` leaves the queue with the one entry
`(a, max ca 1 - 1)`, and a following `playGroup b 0 cb` leaves it with the one
entry `(b, max cb 1 - 1)`; the two calls issue the two has-clip queries and no
play request, and change no other field. -/
theorem playGroup_append_replaces (c : CharacterController) (a : Animation) (na nb : String)
    (ca cb : Int) (hs : c.mCharState = CharacterState.SpecialIdle)
    (ha : c.mAnimation = some a)
    (hca : a.hasAnimation c.calls na = true)
    (hcb : a.hasAnimation (c.calls ++ [AnimCall.hasAnimation na]) nb = true) :
    c.playGroup na 0 ca
        = { c with
            mAnimQueue := [(na, (max ca 1 - 1).toNat)]
            calls := c.calls ++ [AnimCall.hasAnimation na] }
    ∧ (c.playGroup na 0 ca).playGroup nb 0 cb
        = { c with
            mAnimQueue := [(nb, (max cb 1 - 1).toNat)]
            calls := c.calls ++ [AnimCall.hasAnimation na, AnimCall.hasAnimation nb] } := by
  have h1 : c.playGroup na 0 ca
      = { c with
          mAnimQueue := [(na, (max ca 1 - 1).toNat)]
          calls := c.calls ++ [AnimCall.hasAnimation na] } := by
    unfold CharacterController.playGroup
    simp [ha, hca, hs]
  refine ⟨h1, ?_⟩
  rw [h1]
  unfold CharacterController.playGroup
  simp [ha, hcb, hs]

/-- C7 (witness): the two calls of the counterexample, on clips "a" and "b". -/
theorem playGroup_append_replaces_witness :
    ((controllerIn (some animAllClips) CharacterState.SpecialIdle WeaponState.None).playGroup
        "a" 0 1).playGroup "b" 0 2
      = { controllerIn (some animAllClips) CharacterState.SpecialIdle WeaponState.None with
          mAnimQueue := [("b", (max 2 1 - 1 : Int).toNat)]
          calls := (controllerIn (some animAllClips) CharacterState.SpecialIdle
            WeaponState.None).calls ++ [AnimCall.hasAnimation "a", AnimCall.hasAnimation "b"] } :=
  (playGroup_append_replaces
    (controllerIn (some animAllClips) CharacterState.SpecialIdle WeaponState.None)
    animAllClips "a" "b" 1 2 rfl rfl rfl rfl).2

/-- C8: when the collaborator is null, or does not have the clip, `playGroup`
(which cannot raise) returns the controller with every field as it was; the only
call issued is the has-clip query to a non-null collaborator, so no play request
is issued. -/
theorem playGroup_unavailable (c : CharacterController) (groupname : String) (mode count : Int)
    (h : c.mAnimation = none
      ∨ ∃ a, c.mAnimation = some a ∧ a.hasAnimation c.calls groupname = false) :
    c.playGroup groupname mode count
      = { c with
          calls := c.calls ++
            (if c.mAnimation.isSome then [AnimCall.hasAnimation groupname] else []) } := by
  rcases h with h | ⟨a, ha, hclip⟩
  · cases c
    simp only at h
    subst h
    simp [CharacterController.playGroup]
  · unfold CharacterController.playGroup
    simp [ha, hclip]

/-- C8 (witness): a walking controller whose collaborator has no clip. -/
theorem playGroup_unavailable_witness :
    (controllerIn (some animNoClips) CharacterState.WalkForward WeaponState.None).playGroup
        "idle" 1 1
      = { controllerIn (some animNoClips) CharacterState.WalkForward WeaponState.None with
          calls := [AnimCall.hasAnimation "idle"] } :=
  playGroup_unavailable
    (controllerIn (some animNoClips) CharacterState.WalkForward WeaponState.None)
    "idle" 1 1 (Or.inr ⟨animNoClips, rfl, rfl⟩)


theorem updateJump_xy (w : World) (duration : ℚ) (ptr : Ptr) (m : Movement) :
    (CharacterController.updateJump w duration ptr m).mPosition.x = m.mPosition.x
    ∧ (CharacterController.updateJump w duration ptr m).mPosition.y = m.mPosition.y
    ∧ (CharacterController.updateJump w duration ptr m).mRotation = m.mRotation := by
  unfold CharacterController.updateJump
  simp only
  split_ifs <;> exact ⟨rfl, rfl, rfl⟩

theorem updateSideways_position (w : World) (duration speed : ℚ) (c c1 : CharacterController)
    (m m1 : Movement) (h : c.updateSideways w duration speed m = .ok (c1, m1)) :
    m1.mPosition.x = m.mPosition.x
        + (if c1.mMovingAnim then 0 else (w.getMovementVector c.mPtr).x * (speed * duration))
    ∧ m1.mPosition.y = m.mPosition.y + (w.getMovementVector c.mPtr).y * (speed * duration)
    ∧ m1.mPosition.z = m.mPosition.z ∧ m1.mRotation = m.mRotation := by
  unfold CharacterController.updateSideways at h
  simp only at h
  split at h
  · exact absurd h (by simp)
  · simp only [Except.ok.injEq, Prod.mk.injEq] at h
    obtain ⟨rfl, rfl⟩ := h
    rename_i c2 _
    cases c2.mMovingAnim <;> simp

theorem updateForward_position (w : World) (duration speed : ℚ) (c c1 : CharacterController)
    (m m1 : Movement) (h : c.updateForward w duration speed m = .ok (c1, m1)) :
    m1.mPosition.x = m.mPosition.x + (w.getMovementVector c.mPtr).x * (speed * duration)
    ∧ m1.mPosition.y = m.mPosition.y
        + (if c1.mMovingAnim then 0 else (w.getMovementVector c.mPtr).y * (speed * duration))
    ∧ m1.mPosition.z = m.mPosition.z ∧ m1.mRotation = m.mRotation := by
  unfold CharacterController.updateForward at h
  simp only at h
  split at h
  · exact absurd h (by simp)
  · simp only [Except.ok.injEq, Prod.mk.injEq] at h
    obtain ⟨rfl, rfl⟩ := h
    rename_i c2 _
    cases c2.mMovingAnim <;> simp

theorem updateLocomotion_position (w : World) (duration speed : ℚ) (c c1 : CharacterController)
    (m m1 : Movement) (hs : 0 < speed)
    (h : c.updateLocomotion w duration speed m = .ok (c1, m1)) :
    (|(w.getMovementVector c.mPtr).x / 2| > |(w.getMovementVector c.mPtr).y| →
        m1.mPosition.x = m.mPosition.x
          + (if c1.mMovingAnim then 0 else (w.getMovementVector c.mPtr).x * (speed * duration))
        ∧ m1.mPosition.y = m.mPosition.y + (w.getMovementVector c.mPtr).y * (speed * duration))
    ∧ (¬ |(w.getMovementVector c.mPtr).x / 2| > |(w.getMovementVector c.mPtr).y| →
        (w.getMovementVector c.mPtr).y ≠ 0 →
        m1.mPosition.x = m.mPosition.x + (w.getMovementVector c.mPtr).x * (speed * duration)
        ∧ m1.mPosition.y = m.mPosition.y
          + (if c1.mMovingAnim then 0 else (w.getMovementVector c.mPtr).y * (speed * duration)))
    ∧ (¬ |(w.getMovementVector c.mPtr).x / 2| > |(w.getMovementVector c.mPtr).y| →
        (w.getMovementVector c.mPtr).y = 0 →
        m1.mPosition.x = m.mPosition.x ∧ m1.mPosition.y = m.mPosition.y) := by
  unfold CharacterController.updateLocomotion at h
  simp only at h
  by_cases h1 : |(w.getMovementVector c.mPtr).x / 2| > |(w.getMovementVector c.mPtr).y|
  · rw [if_pos ⟨h1, hs⟩] at h
    obtain ⟨k1, k2, _, _⟩ := updateSideways_position _ _ _ _ _ _ _ h
    exact ⟨fun _ => ⟨k1, k2⟩, fun hn => absurd h1 hn, fun hn => absurd h1 hn⟩
  · rw [if_neg (fun hc => h1 hc.1)] at h
    by_cases h2 : (w.getMovementVector c.mPtr).y = 0
    · rw [if_neg (fun hc => hc.1 h2)] at h
      refine ⟨fun hp => absurd hp h1, fun _ hn => absurd h2 hn, fun _ _ => ?_⟩
      split_ifs at h
      · split at h
        · exact absurd h (by simp)
        · simp only [Except.ok.injEq, Prod.mk.injEq] at h
          obtain ⟨_, rfl⟩ := h
          exact ⟨rfl, rfl⟩
      · split at h
        · exact absurd h (by simp)
        · simp only [Except.ok.injEq, Prod.mk.injEq] at h
          obtain ⟨_, rfl⟩ := h
          exact ⟨rfl, rfl⟩
      · simp only [Except.ok.injEq, Prod.mk.injEq] at h
        obtain ⟨_, rfl⟩ := h
        exact ⟨rfl, rfl⟩
    · rw [if_pos ⟨h2, hs⟩] at h
      obtain ⟨k1, k2, _, _⟩ := updateForward_position _ _ _ _ _ _ _ h
      exact ⟨fun hp => absurd hp h1, fun _ _ => ⟨k1, k2⟩, fun _ hn => absurd hn h2⟩

theorem updateLiving_inv (w : World) (duration : ℚ) (c c1 : CharacterController)
    (m m1 : Movement) (speed : ℚ) (hd : c.mCharState.isDeath = false)
    (h : c.updateLiving w duration m = .ok (c1, m1, speed)) :
    speed = w.getSpeed c.mPtr
    ∧ ∃ c2 m2, (c.updateAthletics w duration).updateWeaponState w = .ok c2
      ∧ c2.mPtr = c.mPtr
      ∧ c2.updateLocomotion w duration speed (CharacterController.updateJump w duration c.mPtr m) = .ok (c1, m2)
      ∧ m1.mPosition = m2.mPosition := by
  unfold CharacterController.updateLiving at h
  simp only [hd, Bool.false_eq_true, if_false] at h
  split at h
  · exact absurd h (by simp)
  · rename_i c2 hc2
    split at h
    · exact absurd h (by simp)
    · rename_i c3 m3 hc3
      simp only [Except.ok.injEq, Prod.mk.injEq] at h
      obtain ⟨rfl, rfl, rfl⟩ := h
      have hp : c2.mPtr = c.mPtr :=
        (frame_trans (updateAthletics_frame w duration c).1
          (updateWeaponState_frame _ _ _ hc2).1).1
      rw [hp] at hc3
      exact ⟨rfl, c2, m3, hc2, hp, hc3, rfl⟩

theorem updateAnimation_position (duration speed : ℚ) (c : CharacterController) (m : Movement) :
    (c.updateAnimation duration speed m).2.mPosition
      = ⟨m.mPosition.x + (rootMotionAdded duration c (c.updateAnimation duration speed m).1).x,
         m.mPosition.y + (rootMotionAdded duration c (c.updateAnimation duration speed m).1).y,
         m.mPosition.z + (rootMotionAdded duration c (c.updateAnimation duration speed m).1).z⟩ := by
  unfold CharacterController.updateAnimation rootMotionAdded
  cases c.mAnimation with
  | none => simp
  | some a =>
    cases c.mSkipAnim
    · simp [List.dropLast_concat]
    · simp


theorem walk_eval :
    (controllerIn (some animAllClips) CharacterState.Idle WeaponState.None).update
        worldWalkForward (1 / 10) Movement.zero
      = .ok (walkedController, ⟨⟨0, 3 / 10, 0⟩, ⟨0, 0, 0⟩⟩) := by
  have hg : CharacterController.getCurrentGroup animAllClips
      { controllerIn (some animAllClips) CharacterState.WalkForward WeaponState.None with
        mLooping := true } ""
      = .ok ("walkforward",
          { controllerIn (some animAllClips) CharacterState.WalkForward WeaponState.None with
            mLooping := true, calls := [AnimCall.hasAnimation "walkforward"] }) := rfl
  simp only [controllerIn] at hg
  simp [CharacterController.update, CharacterController.updateLiving,
    CharacterController.updateWeaponState, CharacterController.updateAthletics,
    CharacterController.updateLocomotion, CharacterController.updateForward,
    CharacterController.updateJump, CharacterController.setState,
    CharacterController.forceStateUpdate, CharacterController.updateAnimation,
    worldWalkForward, controllerIn, CharacterState.isDeath, CharacterState.toNat,
    Movement.zero, hg, walkedController]
  norm_num [animAllClips]

theorem walk_skip_eval :
    (controllerIn (some animRootMotion) CharacterState.Idle
        WeaponState.None).skipAnim.updateLiving worldWalkForward (1 / 10) Movement.zero
      = .ok ({ controllerIn (some animRootMotion) CharacterState.WalkForward WeaponState.None with
              mLooping := true
              mSkipAnim := true
              calls := [AnimCall.hasAnimation "walkforward",
                AnimCall.play "walkforward" Priority.Default "start" "stop" 0 sizeMax,
                AnimCall.showWeapons false] },
            ⟨⟨0, 3 / 10, 0⟩, ⟨0, 0, 0⟩⟩, 3) := by
  have hg : CharacterController.getCurrentGroup animRootMotion
      { controllerIn (some animRootMotion) CharacterState.WalkForward WeaponState.None with
        mLooping := true, mSkipAnim := true } ""
      = .ok ("walkforward",
          { controllerIn (some animRootMotion) CharacterState.WalkForward WeaponState.None with
            mLooping := true, mSkipAnim := true
            calls := [AnimCall.hasAnimation "walkforward"] }) := rfl
  simp only [controllerIn] at hg
  simp [CharacterController.skipAnim, CharacterController.updateLiving,
    CharacterController.updateWeaponState, CharacterController.updateAthletics,
    CharacterController.updateLocomotion, CharacterController.updateForward,
    CharacterController.updateJump, CharacterController.setState,
    CharacterController.forceStateUpdate,
    worldWalkForward, controllerIn, CharacterState.isDeath, CharacterState.toNat,
    Movement.zero, hg]
  norm_num [animRootMotion]

theorem updateAnimation_skip (duration speed : ℚ) (c : CharacterController) (m : Movement)
    (hk : c.mSkipAnim = true) :
    c.updateAnimation duration speed m = ({ c with mSkipAnim := false }, m) := by
  unfold CharacterController.updateAnimation
  split <;> simp [hk]

theorem rootMotionAdded_congr (duration : ℚ) (c c0 c1 : CharacterController)
    (ha : c0.mAnimation = c.mAnimation) (hk : c0.mSkipAnim = c.mSkipAnim) :
    rootMotionAdded duration c0 c1 = rootMotionAdded duration c c1 := by
  unfold rootMotionAdded
  rw [ha, hk]

/-- Skipping, for updates that return: (1) when the first part of the `update` that follows `skipAnim` returns
`(c0, m0, speed)`, that `update` returns `c0` with the skip flag cleared and the
output record `m0` as it is, no root motion added, and the calls issued since
before `skipAnim` contain no `setSpeed` and no `runAnimation`; (2) in a death
state that `update` returns the controller with the flag cleared and the output
record untouched; (3) after every `update` the skip flag is false and the
collaborator is the same; (4) with the flag false and a collaborator `a`, when
the first part returns `(c0, m0, speed)`, `update` issues `setSpeed speed` and
`runAnimation duration` and adds the root motion `a` answers to the output
position. -/
theorem skipAnim_of_returns (w : World) (duration : ℚ) (c : CharacterController)
    (m : Movement) :
    (∀ c0 m0 speed, c.skipAnim.updateLiving w duration m = .ok (c0, m0, speed) →
        c.skipAnim.update w duration m = .ok ({ c0 with mSkipAnim := false }, m0)
        ∧ QuietExt c.calls c0.calls)
    ∧ (c.mCharState.isDeath = true →
        c.skipAnim.update w duration m = .ok ({ c with mSkipAnim := false }, m))
    ∧ (∀ c1 m1, c.update w duration m = .ok (c1, m1) →
        c1.mSkipAnim = false ∧ c1.mAnimation = c.mAnimation)
    ∧ (∀ a c0 m0 speed, c.mSkipAnim = false → c.mAnimation = some a →
        c.updateLiving w duration m = .ok (c0, m0, speed) →
        c.update w duration m = .ok
          ({ c0 with
              calls := c0.calls ++ [AnimCall.setSpeed speed, AnimCall.runAnimation duration]
              mSkipAnim := false },
           { m0 with
              mPosition :=
                ⟨m0.mPosition.x
                    + (a.runAnimation (c0.calls ++ [AnimCall.setSpeed speed]) duration).x,
                 m0.mPosition.y
                    + (a.runAnimation (c0.calls ++ [AnimCall.setSpeed speed]) duration).y,
                 m0.mPosition.z
                    + (a.runAnimation (c0.calls ++ [AnimCall.setSpeed speed]) duration).z⟩ })) := by
  refine ⟨?_, ?_, ?_, ?_⟩
  · intro c0 m0 speed h
    obtain ⟨_, _, f3, f4⟩ := updateLiving_frame _ _ _ _ _ _ _ h
    have hk : c0.mSkipAnim = true := f3
    refine ⟨?_, f4⟩
    unfold CharacterController.update
    rw [h]
    simp only [updateAnimation_skip duration speed c0 m0 hk]
  · intro hd
    have h := updateLiving_death w duration c.skipAnim m hd
    unfold CharacterController.update
    rw [h]
    simp only [updateAnimation_skip duration 0 c.skipAnim m rfl]
    rfl
  · intro c1 m1 h
    unfold CharacterController.update at h
    split at h
    · exact absurd h (by simp)
    · rename_i c0 m0 speed h0
      simp only [Except.ok.injEq] at h
      have f := updateLiving_frame _ _ _ _ _ _ _ h0
      have k := updateAnimation_fields duration speed c0 m0
      rw [h] at k
      exact ⟨k.2.2.2.2.2.2.2, k.2.2.2.2.2.1.trans f.2.1⟩
  · intro a c0 m0 speed hk ha h
    obtain ⟨_, f2, f3, _⟩ := updateLiving_frame _ _ _ _ _ _ _ h
    have hk0 : c0.mSkipAnim = false := f3.trans hk
    have ha0 : c0.mAnimation = some a := f2.trans ha
    unfold CharacterController.update
    rw [h]
    unfold CharacterController.updateAnimation
    simp [hk0, ha0]

/-- Skipping, an instance: an idle controller told to skip and then ticked with forward
intent starts to walk and moves by the manual displacement only, although its
collaborator reports the root motion (1, 2, 3) for every advance. -/
theorem skipAnim_of_returns_instance :
    (controllerIn (some animRootMotion) CharacterState.Idle WeaponState.None).skipAnim.update
        worldWalkForward (1 / 10) Movement.zero
      = .ok ({ controllerIn (some animRootMotion) CharacterState.WalkForward WeaponState.None with
              mLooping := true
              calls := [AnimCall.hasAnimation "walkforward",
                AnimCall.play "walkforward" Priority.Default "start" "stop" 0 sizeMax,
                AnimCall.showWeapons false] },
            ⟨⟨0, 3 / 10, 0⟩, ⟨0, 0, 0⟩⟩) :=
  ((skipAnim_of_returns worldWalkForward (1 / 10)
    (controllerIn (some animRootMotion) CharacterState.Idle WeaponState.None) Movement.zero).1
    _ _ _ walk_skip_eval).1

/-- Manual displacement, for an `update` that returns, of a controller not in a death state,
with intent `(x, y)` and speed `s > 0`, where `moving` is the moving flag of the
returned controller and `moved` is the root motion added by the last part of
`update`: if `|x| / 2 > |y|` the output X advances by `x * s * duration` exactly
when `moving` is false and the output Y by `y * s * duration`; otherwise, if `y`
is not zero, the output X advances by `x * s * duration` and the output Y by
`y * s * duration` exactly when `moving` is false; otherwise neither advances;
in each case `moved` is added on top. -/
theorem update_displacement_of_returns (w : World) (duration : ℚ) (c c1 : CharacterController)
    (m m1 : Movement) (hd : c.mCharState.isDeath = false) (hs : 0 < w.getSpeed c.mPtr)
    (h : c.update w duration m = .ok (c1, m1)) :
    (|(w.getMovementVector c.mPtr).x| / 2 > |(w.getMovementVector c.mPtr).y| →
        m1.mPosition.x = m.mPosition.x
          + (if c1.mMovingAnim then 0
             else (w.getMovementVector c.mPtr).x * w.getSpeed c.mPtr * duration)
          + (rootMotionAdded duration c c1).x
        ∧ m1.mPosition.y = m.mPosition.y
          + (w.getMovementVector c.mPtr).y * w.getSpeed c.mPtr * duration
          + (rootMotionAdded duration c c1).y)
    ∧ (¬ |(w.getMovementVector c.mPtr).x| / 2 > |(w.getMovementVector c.mPtr).y| →
        (w.getMovementVector c.mPtr).y ≠ 0 →
        m1.mPosition.x = m.mPosition.x
          + (w.getMovementVector c.mPtr).x * w.getSpeed c.mPtr * duration
          + (rootMotionAdded duration c c1).x
        ∧ m1.mPosition.y = m.mPosition.y
          + (if c1.mMovingAnim then 0
             else (w.getMovementVector c.mPtr).y * w.getSpeed c.mPtr * duration)
          + (rootMotionAdded duration c c1).y)
    ∧ (¬ |(w.getMovementVector c.mPtr).x| / 2 > |(w.getMovementVector c.mPtr).y| →
        (w.getMovementVector c.mPtr).y = 0 →
        m1.mPosition.x = m.mPosition.x + (rootMotionAdded duration c c1).x
        ∧ m1.mPosition.y = m.mPosition.y + (rootMotionAdded duration c c1).y) := by
  unfold CharacterController.update at h
  split at h
  · exact absurd h (by simp)
  · rename_i c0 m0 speed h0
    simp only [Except.ok.injEq] at h
    obtain ⟨_, f2, f3, _⟩ := updateLiving_frame _ _ _ _ _ _ _ h0
    obtain ⟨hsp, c2, m2, _, hp, hloc, hm⟩ := updateLiving_inv _ _ _ _ _ _ _ hd h0
    subst hsp
    have hpos := updateAnimation_position duration (w.getSpeed c.mPtr) c0 m0
    have hfld := (updateAnimation_fields duration (w.getSpeed c.mPtr) c0 m0).2.2.2.1
    rw [h] at hpos hfld
    simp only at hpos hfld
    rw [rootMotionAdded_congr duration c c0 c1 f2 f3, hm] at hpos
    obtain ⟨l1, l2, l3⟩ := updateLocomotion_position _ _ _ _ _ _ _ hs hloc
    rw [hp] at l1 l2 l3
    rw [← hfld] at l1 l2
    obtain ⟨j1, j2, _⟩ := updateJump_xy w duration c.mPtr m
    rw [j1, j2] at l1 l2 l3
    have habs : |(w.getMovementVector c.mPtr).x / 2| = |(w.getMovementVector c.mPtr).x| / 2 := by
      rw [abs_div, abs_two]
    rw [habs] at l1 l2 l3
    have hx : m1.mPosition.x = m2.mPosition.x + (rootMotionAdded duration c c1).x := by
      rw [hpos]
    have hy : m1.mPosition.y = m2.mPosition.y + (rootMotionAdded duration c c1).y := by
      rw [hpos]
    refine ⟨fun g => ?_, fun g1 g2 => ?_, fun g1 g2 => ?_⟩
    · obtain ⟨k1, k2⟩ := l1 g
      rw [hx, hy, k1, k2]
      constructor <;> simp only [mul_assoc]
    · obtain ⟨k1, k2⟩ := l2 g1 g2
      rw [hx, hy, k1, k2]
      constructor <;> simp only [mul_assoc]
    · obtain ⟨k1, k2⟩ := l3 g1 g2
      rw [hx, hy, k1, k2]
      exact ⟨rfl, rfl⟩

/-- Manual displacement, an instance: an idle entity without equipment, forward intent 1, speed 3,
tick 1/10, not swimming, sneaking or running, the clip not moving by itself and
reporting no root motion: the state becomes walk-forward and the output Y, zero
before, is 3/10 after. -/
theorem update_displacement_of_returns_instance :
    (controllerIn (some animAllClips) CharacterState.Idle WeaponState.None).update
        worldWalkForward (1 / 10) Movement.zero
      = .ok (walkedController, ⟨⟨0, 3 / 10, 0⟩, ⟨0, 0, 0⟩⟩)
    ∧ walkedController.mCharState = CharacterState.WalkForward
    ∧ (3 / 10 : ℚ) = 0 + (if walkedController.mMovingAnim then 0 else 1 * 3 * (1 / 10))
        + (rootMotionAdded (1 / 10)
            (controllerIn (some animAllClips) CharacterState.Idle WeaponState.None)
            walkedController).y :=
  ⟨walk_eval, rfl,
    ((update_displacement_of_returns worldWalkForward (1 / 10)
      (controllerIn (some animAllClips) CharacterState.Idle WeaponState.None) walkedController
      Movement.zero ⟨⟨0, 3 / 10, 0⟩, ⟨0, 0, 0⟩⟩ (by decide)
      (by norm_num [worldWalkForward]) walk_eval).2.1
      (by norm_num [worldWalkForward]) (by norm_num [worldWalkForward])).2⟩

theorem updateWeaponState_weapState (w : World) (c c1 : CharacterController)
    (h : c.updateWeaponState w = .ok c1) :
    c1.mWeapState = (if w.isNpc c.mPtr then deriveWeaponState w c.mPtr else c.mWeapState)
    ∧ c1.mLooping = c.mLooping := by
  unfold CharacterController.updateWeaponState at h
  split_ifs at h with hn
  · refine ⟨by rw [if_pos hn]; exact (setWeaponState_frame _ _ _ h).2.2, ?_⟩
    unfold CharacterController.setWeaponState at h
    split_ifs at h
    · simp only [Except.ok.injEq] at h
      subst h
      rfl
    · exact (forceStateUpdate_frame _ _ h).2.2.2
  · simp only [Except.ok.injEq] at h
    subst h
    exact ⟨by rw [if_neg hn], rfl⟩

theorem update_weapState (w : World) (duration : ℚ) (c c1 : CharacterController)
    (m m1 : Movement) (hd : c.mCharState.isDeath = false)
    (h : c.update w duration m = .ok (c1, m1)) :
    c1.mWeapState = (if w.isNpc c.mPtr then deriveWeaponState w c.mPtr else c.mWeapState) := by
  unfold CharacterController.update at h
  split at h
  · exact absurd h (by simp)
  · rename_i c0 m0 speed h0
    simp only [Except.ok.injEq] at h
    obtain ⟨_, c2, m2, hw, _, hloc, _⟩ := updateLiving_inv _ _ _ _ _ _ _ hd h0
    have k := (updateAnimation_fields duration speed c0 m0).2.1
    rw [h] at k
    have k2 := (updateLocomotion_frame _ _ _ _ _ _ _ hloc).2
    have k3 := (updateWeaponState_weapState _ _ _ hw).1
    obtain ⟨⟨f1, _, _, _⟩, _, f5, _⟩ := updateAthletics_frame w duration c
    rw [f1, f5] at k3
    exact k.trans (k2.trans k3)

/-- C11: for an `update` that returns, of a controller not in a death state: for
an NPC the weapon state afterwards is the one derived from the draw state and
the right-hand slot alone (`deriveWeaponState`), whatever it was before: none
when sheathed, spell when spell-ready, and when weapon-ready hand-to-hand for an
empty slot, one-hand for a lockpick, a probe or a one-handed short blade, long
blade, blunt weapon or axe, two-hand for a two-handed long blade, close blunt
weapon or axe, two-wide for a wide blunt weapon or a spear, bow, crossbow and
thrown for these three; for an entity that is no NPC the weapon state stays. -/
theorem update_equipment_derivation (w : World) (duration : ℚ) (c c1 : CharacterController)
    (m m1 : Movement) (hd : c.mCharState.isDeath = false)
    (h : c.update w duration m = .ok (c1, m1)) :
    (w.isNpc c.mPtr = false → c1.mWeapState = c.mWeapState)
    ∧ (w.isNpc c.mPtr = true →
        c1.mWeapState = deriveWeaponState w c.mPtr
        ∧ (w.getDrawState c.mPtr = DrawState.Nothing → c1.mWeapState = WeaponState.None)
        ∧ (w.getDrawState c.mPtr = DrawState.Spell → c1.mWeapState = WeaponState.Spell)
        ∧ (w.getDrawState c.mPtr = DrawState.Weapon →
            (w.getSlotCarriedRight c.mPtr = none → c1.mWeapState = WeaponState.HandToHand)
            ∧ (w.getSlotCarriedRight c.mPtr = some CarriedItem.Lockpick
                ∨ w.getSlotCarriedRight c.mPtr = some CarriedItem.Probe →
                c1.mWeapState = WeaponState.OneHand)
            ∧ (∀ t, w.getSlotCarriedRight c.mPtr = some (CarriedItem.Weapon (some t)) →
                (t = WeaponType.ShortBladeOneHand ∨ t = WeaponType.LongBladeOneHand
                  ∨ t = WeaponType.BluntOneHand ∨ t = WeaponType.AxeOneHand →
                  c1.mWeapState = WeaponState.OneHand)
                ∧ (t = WeaponType.LongBladeTwoHand ∨ t = WeaponType.BluntTwoClose
                  ∨ t = WeaponType.AxeTwoHand → c1.mWeapState = WeaponState.TwoHand)
                ∧ (t = WeaponType.BluntTwoWide ∨ t = WeaponType.SpearTwoWide →
                  c1.mWeapState = WeaponState.TwoWide)
                ∧ (t = WeaponType.MarksmanBow → c1.mWeapState = WeaponState.BowAndArrow)
                ∧ (t = WeaponType.MarksmanCrossbow → c1.mWeapState = WeaponState.Crossbow)
                ∧ (t = WeaponType.MarksmanThrown →
                  c1.mWeapState = WeaponState.ThowWeapon)))) := by
  have hw := update_weapState w duration c c1 m m1 hd h
  refine ⟨fun hn => by simpa [hn] using hw, fun hn => ?_⟩
  have hw2 : c1.mWeapState = deriveWeaponState w c.mPtr := by simpa [hn] using hw
  rw [hw2]
  refine ⟨rfl, ?_, ?_, ?_⟩
  · intro hs
    simp [deriveWeaponState, hs]
  · intro hs
    simp [deriveWeaponState, hs]
  · intro hs
    refine ⟨?_, ?_, ?_⟩
    · intro h0
      simp [deriveWeaponState, hs, h0]
    · rintro (h0 | h0) <;> simp [deriveWeaponState, hs, h0]
    · intro t h0
      refine ⟨?_, ?_, ?_, ?_, ?_, ?_⟩
      · rintro (rfl | rfl | rfl | rfl) <;> simp [deriveWeaponState, hs, h0]
      · rintro (rfl | rfl | rfl) <;> simp [deriveWeaponState, hs, h0]
      · rintro (rfl | rfl) <;> simp [deriveWeaponState, hs, h0]
      · rintro rfl
        simp [deriveWeaponState, hs, h0]
      · rintro rfl
        simp [deriveWeaponState, hs, h0]
      · rintro rfl
        simp [deriveWeaponState, hs, h0]

/-- C17: in a death state `update` returns; it leaves every field of the
controller but the skip flag, which it clears, and issues `setSpeed 0` and
`runAnimation duration` to a non-null collaborator when the skip flag is clear,
and no call otherwise; no skill progress is recorded; the output rotation is
untouched; and the output position changes by the root motion answered to that
`runAnimation`, or not at all when no call is made. -/
theorem update_in_death (w : World) (duration : ℚ) (c : CharacterController) (m : Movement)
    (hd : c.mCharState.isDeath = true) :
    (c.mAnimation = none ∨ c.mSkipAnim = true →
        c.update w duration m = .ok ({ c with mSkipAnim := false }, m))
    ∧ (∀ a, c.mAnimation = some a → c.mSkipAnim = false →
        c.update w duration m = .ok
          ({ c with
              calls := c.calls ++ [AnimCall.setSpeed 0, AnimCall.runAnimation duration]
              mSkipAnim := false },
           { m with
              mPosition :=
                ⟨m.mPosition.x + (a.runAnimation (c.calls ++ [AnimCall.setSpeed 0]) duration).x,
                 m.mPosition.y + (a.runAnimation (c.calls ++ [AnimCall.setSpeed 0]) duration).y,
                 m.mPosition.z
                    + (a.runAnimation (c.calls ++ [AnimCall.setSpeed 0]) duration).z⟩ })) := by
  have h := updateLiving_death w duration c m hd
  unfold CharacterController.update
  rw [h]
  refine ⟨?_, ?_⟩
  · rintro (h0 | h0)
    · unfold CharacterController.updateAnimation
      simp [h0]
    · simp only [updateAnimation_skip duration 0 c m h0]
  · intro a ha hk
    unfold CharacterController.updateAnimation
    simp [ha, hk]

theorem twoHand_eval :
    (controllerIn (some animAllClips) CharacterState.Idle WeaponState.None).update
        worldTwoHandDrawn (1 / 10) Movement.zero
      = .ok (twoHandController, Movement.zero) := by
  have hg : CharacterController.getCurrentGroup animAllClips
      (controllerIn (some animAllClips) CharacterState.Idle WeaponState.TwoHand) ""
      = .ok ("idle2c",
          { controllerIn (some animAllClips) CharacterState.Idle WeaponState.TwoHand with
            calls := [AnimCall.hasAnimation "idle2c"] }) := rfl
  simp only [controllerIn] at hg
  simp [CharacterController.update, CharacterController.updateLiving,
    CharacterController.updateWeaponState, CharacterController.updateAthletics,
    CharacterController.updateLocomotion, CharacterController.updateIdle,
    CharacterController.updateJump, CharacterController.setState,
    CharacterController.setWeaponState, deriveWeaponState,
    CharacterController.forceStateUpdate, CharacterController.updateAnimation,
    worldTwoHandDrawn, controllerIn, CharacterState.isDeath, CharacterState.toNat,
    Movement.zero, hg, twoHandController]
  norm_num [animAllClips]

theorem jump_eval :
    (controllerIn (some animAllClips) CharacterState.Idle WeaponState.None).update
        worldJumpForward 1 Movement.zero
      = .ok (jumpedController, ⟨⟨0, 3, 707 / 1000⟩, ⟨0, 0, 0⟩⟩) := by
  have hg : CharacterController.getCurrentGroup animAllClips
      { controllerIn (some animAllClips) CharacterState.WalkForward WeaponState.None with
        mLooping := true } ""
      = .ok ("walkforward",
          { controllerIn (some animAllClips) CharacterState.WalkForward WeaponState.None with
            mLooping := true, calls := [AnimCall.hasAnimation "walkforward"] }) := rfl
  simp only [controllerIn] at hg
  simp [CharacterController.update, CharacterController.updateLiving,
    CharacterController.updateWeaponState, CharacterController.updateAthletics,
    CharacterController.updateLocomotion, CharacterController.updateForward,
    CharacterController.updateJump, CharacterController.setState,
    CharacterController.forceStateUpdate, CharacterController.updateAnimation,
    worldJumpForward, controllerIn, CharacterState.isDeath, CharacterState.toNat,
    Movement.zero, hg, jumpedController]
  norm_num [animAllClips]

theorem updateLocomotion_z (w : World) (duration speed : ℚ) (c c1 : CharacterController)
    (m m1 : Movement) (h : c.updateLocomotion w duration speed m = .ok (c1, m1)) :
    m1.mPosition.z = m.mPosition.z ∧ m1.mRotation = m.mRotation := by
  unfold CharacterController.updateLocomotion at h
  simp only at h
  split_ifs at h
  · exact (updateSideways_position _ _ _ _ _ _ _ h).2.2
  · exact (updateForward_position _ _ _ _ _ _ _ h).2.2
  · split at h
    · exact absurd h (by simp)
    · simp only [Except.ok.injEq, Prod.mk.injEq] at h
      obtain ⟨_, rfl⟩ := h
      exact ⟨rfl, rfl⟩
  · split at h
    · exact absurd h (by simp)
    · simp only [Except.ok.injEq, Prod.mk.injEq] at h
      obtain ⟨_, rfl⟩ := h
      exact ⟨rfl, rfl⟩
  · simp only [Except.ok.injEq, Prod.mk.injEq] at h
    obtain ⟨_, rfl⟩ := h
    exact ⟨rfl, rfl⟩

theorem updateJump_z (w : World) (duration : ℚ) (ptr : Ptr) (m : Movement) :
    (CharacterController.updateJump w duration ptr m).mPosition.z
      = m.mPosition.z
        + (if w.isOnGround ptr = true ∧ (w.getMovementVector ptr).z > 0 then
            (if (w.getMovementVector ptr).x = 0 ∧ (w.getMovementVector ptr).y = 0 then
              w.getJump ptr * duration
             else 707 / 1000 * w.getJump ptr * duration)
           else 0) := by
  unfold CharacterController.updateJump
  simp only
  split_ifs
  · rfl
  · show m.mPosition.z + w.getJump ptr * (707 / 1000) * duration
      = m.mPosition.z + 707 / 1000 * w.getJump ptr * duration
    ring
  · show m.mPosition.z = m.mPosition.z + 0
    ring

/-- C11 (witness): an idle NPC without equipment whose draw state is
weapon-ready with a two-handed long blade in the right hand has the two-hand
weapon state after `update` (and the group played is "idle2c"). -/
theorem update_equipment_derivation_witness :
    (controllerIn (some animAllClips) CharacterState.Idle WeaponState.None).update
        worldTwoHandDrawn (1 / 10) Movement.zero = .ok (twoHandController, Movement.zero)
    ∧ twoHandController.mWeapState = WeaponState.TwoHand :=
  ⟨twoHand_eval,
    ((((update_equipment_derivation worldTwoHandDrawn (1 / 10)
      (controllerIn (some animAllClips) CharacterState.Idle WeaponState.None) twoHandController
      Movement.zero Movement.zero (by decide) twoHand_eval).2 rfl).2.2.2 rfl).2.2
      WeaponType.LongBladeTwoHand rfl).2.1 (Or.inl rfl)⟩

/-- C17 (witness): a dead controller whose collaborator reports the root motion
(1, 2, 3): `update` issues `setSpeed 0` and `runAnimation 1`, and the output
position advances by (1, 2, 3). -/
theorem update_in_death_witness :
    (controllerIn (some animRootMotion) CharacterState.Death3 WeaponState.OneHand).update
        worldWalkForward 1 Movement.zero
      = .ok ({ controllerIn (some animRootMotion) CharacterState.Death3 WeaponState.OneHand with
              calls := (controllerIn (some animRootMotion) CharacterState.Death3
                  WeaponState.OneHand).calls
                ++ [AnimCall.setSpeed 0, AnimCall.runAnimation 1]
              mSkipAnim := false },
            { Movement.zero with
              mPosition :=
                ⟨Movement.zero.mPosition.x + (animRootMotion.runAnimation
                    ((controllerIn (some animRootMotion) CharacterState.Death3
                      WeaponState.OneHand).calls ++ [AnimCall.setSpeed 0]) 1).x,
                 Movement.zero.mPosition.y + (animRootMotion.runAnimation
                    ((controllerIn (some animRootMotion) CharacterState.Death3
                      WeaponState.OneHand).calls ++ [AnimCall.setSpeed 0]) 1).y,
                 Movement.zero.mPosition.z + (animRootMotion.runAnimation
                    ((controllerIn (some animRootMotion) CharacterState.Death3
                      WeaponState.OneHand).calls ++ [AnimCall.setSpeed 0]) 1).z⟩ }) :=
  (update_in_death worldWalkForward 1
    (controllerIn (some animRootMotion) CharacterState.Death3 WeaponState.OneHand)
    Movement.zero (by decide)).2 animRootMotion rfl rfl

/-- C18 (counterexample): on the ground, with jump intent 1, jump height 1 and a
tick of 1, forward intent 1 and no sideways intent (x = 0), `update` adds 707/1000
to the output Z, not the full 1. -/
theorem jump_with_forward_intent_is_reduced :
    (worldJumpForward.getMovementVector 0).x = 0
    ∧ (controllerIn (some animAllClips) CharacterState.Idle WeaponState.None).update
        worldJumpForward 1 Movement.zero
      = .ok (jumpedController, ⟨⟨0, 3, 707 / 1000⟩, ⟨0, 0, 0⟩⟩)
    ∧ (707 / 1000 : ℚ) ≠ worldJumpForward.getJump 0 * 1 := by
  refine ⟨rfl, jump_eval, ?_⟩
  norm_num [worldJumpForward]

/-- What an `update` that returns, of a controller not in a death state, adds to
the output Z: the thrust of the jump block and the root motion of the last
part. -/
theorem update_thrust_of_returns (w : World) (duration : ℚ) (c c1 : CharacterController)
    (m m1 : Movement) (hd : c.mCharState.isDeath = false)
    (h : c.update w duration m = .ok (c1, m1)) :
    m1.mPosition.z = m.mPosition.z
      + (if w.isOnGround c.mPtr = true ∧ (w.getMovementVector c.mPtr).z > 0 then
          (if (w.getMovementVector c.mPtr).x = 0 ∧ (w.getMovementVector c.mPtr).y = 0 then
            w.getJump c.mPtr * duration
           else 707 / 1000 * w.getJump c.mPtr * duration)
         else 0)
      + (rootMotionAdded duration c c1).z := by
  unfold CharacterController.update at h
  split at h
  · exact absurd h (by simp)
  · rename_i c0 m0 speed h0
    simp only [Except.ok.injEq] at h
    obtain ⟨_, f2, f3, _⟩ := updateLiving_frame _ _ _ _ _ _ _ h0
    obtain ⟨_, c2, m2, _, _, hloc, hm⟩ := updateLiving_inv _ _ _ _ _ _ _ hd h0
    have hpos := updateAnimation_position duration speed c0 m0
    rw [h] at hpos
    simp only at hpos
    rw [rootMotionAdded_congr duration c c0 c1 f2 f3, hm] at hpos
    rw [hpos, (updateLocomotion_z _ _ _ _ _ _ _ hloc).1, updateJump_z]

theorem forceStateUpdate_cases (c c1 : CharacterController)
    (h : c.forceStateUpdate = .ok c1) :
    (c.mAnimation = none ∧ c1 = c) ∨ (c.mAnimation ≠ none ∧ c1.mAnimQueue = []) := by
  unfold CharacterController.forceStateUpdate at h
  cases ha : c.mAnimation with
  | none =>
    simp only [ha, Except.ok.injEq] at h
    exact Or.inl ⟨rfl, h.symm⟩
  | some a =>
    simp only [ha] at h
    cases hg : CharacterController.getCurrentGroup a { c with mAnimQueue := [] } "" with
    | error e =>
      rw [ha] at hg
      simp [hg] at h
    | ok p =>
      obtain ⟨g, c2⟩ := p
      rw [ha] at hg
      simp only [hg, Except.ok.injEq] at h
      subst h
      exact Or.inr ⟨by simp, (getCurrentGroup_frame a _ _ _ _ hg).2.2.2.2.1⟩

theorem setState_looping (state : CharacterState) (c c1 : CharacterController)
    (h : c.setState state true = .ok c1) :
    c1.mCharState = state ∧ (c1.mCharState ≠ c.mCharState → c1.mLooping = true) := by
  refine ⟨(setState_frame _ _ _ _ h).2.1, ?_⟩
  unfold CharacterController.setState at h
  split_ifs at h with hs
  · simp only [Except.ok.injEq] at h
    subst h
    intro hc
    exact absurd rfl hc
  · intro _
    exact (forceStateUpdate_frame _ _ h).2.2.2

theorem forceStateUpdate_queue (c c1 : CharacterController)
    (h : c.forceStateUpdate = .ok c1) (hq : c.mAnimQueue = []) : c1.mAnimQueue = [] := by
  rcases forceStateUpdate_cases c c1 h with ⟨_, rfl⟩ | ⟨_, h1⟩
  · exact hq
  · exact h1

theorem updateWeaponState_queue (w : World) (c c1 : CharacterController)
    (h : c.updateWeaponState w = .ok c1) (hq : c.mAnimQueue = []) : c1.mAnimQueue = [] := by
  unfold CharacterController.updateWeaponState CharacterController.setWeaponState at h
  split_ifs at h
  · simp only [Except.ok.injEq] at h
    subst h
    exact hq
  · exact forceStateUpdate_queue _ _ h hq
  · simp only [Except.ok.injEq] at h
    subst h
    exact hq

theorem updateSideways_state (w : World) (duration speed : ℚ) (c c1 : CharacterController)
    (m m1 : Movement) (hx : (w.getMovementVector c.mPtr).x ≠ 0)
    (h : c.updateSideways w duration speed m = .ok (c1, m1)) :
    c1.mCharState
        = (if (w.getMovementVector c.mPtr).x > 0 then
            variantSpec (familySpec (w.isSwimming c.mPtr) (w.getStanceSneak c.mPtr)
              (w.getStanceRun c.mPtr)) Direction.Right
           else
            variantSpec (familySpec (w.isSwimming c.mPtr) (w.getStanceSneak c.mPtr)
              (w.getStanceRun c.mPtr)) Direction.Left)
    ∧ (c1.mCharState ≠ c.mCharState → c1.mLooping = true) := by
  unfold CharacterController.updateSideways at h
  simp only at h
  split at h
  · exact absurd h (by simp)
  · rename_i c2 hr
    simp only [Except.ok.injEq, Prod.mk.injEq] at h
    obtain ⟨rfl, _⟩ := h
    by_cases h1 : (w.getMovementVector c.mPtr).x > 0
    · rw [if_pos h1] at hr
      obtain ⟨k1, k2⟩ := setState_looping _ _ _ hr
      refine ⟨?_, k2⟩
      rw [k1, if_pos h1]
      cases w.isSwimming c.mPtr <;> cases w.getStanceSneak c.mPtr <;>
        cases w.getStanceRun c.mPtr <;> rfl
    · have h2 : (w.getMovementVector c.mPtr).x < 0 := lt_of_le_of_ne (not_lt.mp h1) hx
      rw [if_neg h1, if_pos h2] at hr
      obtain ⟨k1, k2⟩ := setState_looping _ _ _ hr
      refine ⟨?_, k2⟩
      rw [k1, if_neg h1]
      cases w.isSwimming c.mPtr <;> cases w.getStanceSneak c.mPtr <;>
        cases w.getStanceRun c.mPtr <;> rfl

theorem updateForward_state (w : World) (duration speed : ℚ) (c c1 : CharacterController)
    (m m1 : Movement) (hy : (w.getMovementVector c.mPtr).y ≠ 0)
    (h : c.updateForward w duration speed m = .ok (c1, m1)) :
    c1.mCharState
        = (if (w.getMovementVector c.mPtr).y > 0 then
            variantSpec (familySpec (w.isSwimming c.mPtr) (w.getStanceSneak c.mPtr)
              (w.getStanceRun c.mPtr)) Direction.Forward
           else
            variantSpec (familySpec (w.isSwimming c.mPtr) (w.getStanceSneak c.mPtr)
              (w.getStanceRun c.mPtr)) Direction.Back)
    ∧ (c1.mCharState ≠ c.mCharState → c1.mLooping = true) := by
  unfold CharacterController.updateForward at h
  simp only at h
  split at h
  · exact absurd h (by simp)
  · rename_i c2 hr
    simp only [Except.ok.injEq, Prod.mk.injEq] at h
    obtain ⟨rfl, _⟩ := h
    by_cases h1 : (w.getMovementVector c.mPtr).y > 0
    · rw [if_pos h1] at hr
      obtain ⟨k1, k2⟩ := setState_looping _ _ _ hr
      refine ⟨?_, k2⟩
      rw [k1, if_pos h1]
      cases w.isSwimming c.mPtr <;> cases w.getStanceSneak c.mPtr <;>
        cases w.getStanceRun c.mPtr <;> rfl
    · have h2 : (w.getMovementVector c.mPtr).y < 0 := lt_of_le_of_ne (not_lt.mp h1) hy
      rw [if_neg h1, if_pos h2] at hr
      obtain ⟨k1, k2⟩ := setState_looping _ _ _ hr
      refine ⟨?_, k2⟩
      rw [k1, if_neg h1]
      cases w.isSwimming c.mPtr <;> cases w.getStanceSneak c.mPtr <;>
        cases w.getStanceRun c.mPtr <;> rfl

theorem updateTurn_state (w : World) (c c1 : CharacterController)
    (hr : (w.getRotationVector c.mPtr).z ≠ 0) (h : c.updateTurn w = .ok c1) :
    c1.mCharState
        = (if (w.getRotationVector c.mPtr).z > 0 then CharacterState.TurnRight
           else CharacterState.TurnLeft)
    ∧ (c1.mCharState ≠ c.mCharState → c1.mLooping = true) := by
  unfold CharacterController.updateTurn at h
  simp only at h
  by_cases h1 : (w.getRotationVector c.mPtr).z > 0
  · rw [if_pos h1] at h
    rw [if_pos h1]
    exact setState_looping _ _ _ h
  · have h2 : (w.getRotationVector c.mPtr).z < 0 := lt_of_le_of_ne (not_lt.mp h1) hr
    rw [if_neg h1, if_pos h2] at h
    rw [if_neg h1]
    exact setState_looping _ _ _ h

theorem updateIdle_state (w : World) (c c1 : CharacterController)
    (hq : c.mAnimQueue = []) (h : c.updateIdle w = .ok c1) :
    c1.mCharState
        = (if w.isSwimming c.mPtr then CharacterState.IdleSwim
           else if w.getStanceSneak c.mPtr then CharacterState.IdleSneak
           else CharacterState.Idle)
    ∧ (c1.mCharState ≠ c.mCharState → c1.mLooping = true) := by
  unfold CharacterController.updateIdle at h
  simp only [hq] at h
  exact setState_looping _ _ _ h

theorem updateLocomotion_state (w : World) (duration speed : ℚ) (c c1 : CharacterController)
    (m m1 : Movement)
    (hq : ¬ (|(w.getMovementVector c.mPtr).x| / 2 > |(w.getMovementVector c.mPtr).y|
          ∧ speed > 0) →
        ¬ ((w.getMovementVector c.mPtr).y ≠ 0 ∧ speed > 0) →
        ¬ ((w.getRotationVector c.mPtr).z ≠ 0 ∧ w.isSwimming c.mPtr = false
          ∧ w.getStanceSneak c.mPtr = false) →
        c.mCharState = CharacterState.SpecialIdle ∨ c.mAnimQueue = [])
    (h : c.updateLocomotion w duration speed m = .ok (c1, m1)) :
    c1.mCharState
        = locomotionSpec c.mCharState (w.getMovementVector c.mPtr).x
            (w.getMovementVector c.mPtr).y (w.getRotationVector c.mPtr).z speed
            (w.isSwimming c.mPtr) (w.getStanceSneak c.mPtr) (w.getStanceRun c.mPtr)
    ∧ (c1.mCharState ≠ c.mCharState → c1.mLooping = true) := by
  have habs : |(w.getMovementVector c.mPtr).x / 2| = |(w.getMovementVector c.mPtr).x| / 2 := by
    rw [abs_div, abs_two]
  unfold CharacterController.updateLocomotion at h
  unfold locomotionSpec
  simp only [habs] at h
  by_cases h1 : |(w.getMovementVector c.mPtr).x| / 2 > |(w.getMovementVector c.mPtr).y|
      ∧ speed > 0
  · rw [if_pos h1] at h
    rw [if_pos h1]
    have hx : (w.getMovementVector c.mPtr).x ≠ 0 := by
      intro h0
      have := h1.1
      rw [h0] at this
      simp at this
      exact absurd this (not_lt.mpr (abs_nonneg _))
    exact updateSideways_state _ _ _ _ _ _ _ hx h
  · rw [if_neg h1] at h
    rw [if_neg h1]
    by_cases h2 : (w.getMovementVector c.mPtr).y ≠ 0 ∧ speed > 0
    · rw [if_pos h2] at h
      rw [if_pos h2]
      exact updateForward_state _ _ _ _ _ _ _ h2.1 h
    · rw [if_neg h2] at h
      rw [if_neg h2]
      by_cases h3 : (w.getRotationVector c.mPtr).z ≠ 0 ∧ w.isSwimming c.mPtr = false
          ∧ w.getStanceSneak c.mPtr = false
      · rw [if_pos h3] at h
        rw [if_pos h3]
        split at h
        · exact absurd h (by simp)
        · rename_i c2 hc
          simp only [Except.ok.injEq, Prod.mk.injEq] at h
          obtain ⟨rfl, _⟩ := h
          exact updateTurn_state _ _ _ h3.1 hc
      · rw [if_neg h3] at h
        rw [if_neg h3]
        by_cases h4 : c.mCharState = CharacterState.SpecialIdle
        · rw [if_neg (not_not.mpr h4)] at h
          rw [if_pos h4]
          simp only [Except.ok.injEq, Prod.mk.injEq] at h
          obtain ⟨rfl, _⟩ := h
          exact ⟨rfl, fun hc => absurd rfl hc⟩
        · rw [if_pos h4] at h
          rw [if_neg h4]
          have hq2 : c.mAnimQueue = [] := (hq h1 h2 h3).resolve_left h4
          split at h
          · exact absurd h (by simp)
          · rename_i c2 hc
            simp only [Except.ok.injEq, Prod.mk.injEq] at h
            obtain ⟨rfl, _⟩ := h
            exact updateIdle_state _ _ _ hq2 hc

/-- Locomotion rules, for an `update` that returns, of a controller not in a death state, the
locomotion state afterwards is the one the ordered rule list `locomotionSpec`
gives for the state before, the intent, the yaw intent, the speed and the three
flags, the queue being empty where rule (d) applies to a state other than
special-idle (`hq`); and if the state has changed, the looping flag is true. -/
theorem update_locomotion_of_returns (w : World) (duration : ℚ) (c c1 : CharacterController)
    (m m1 : Movement) (hd : c.mCharState.isDeath = false)
    (hq : ¬ (|(w.getMovementVector c.mPtr).x| / 2 > |(w.getMovementVector c.mPtr).y|
          ∧ w.getSpeed c.mPtr > 0) →
        ¬ ((w.getMovementVector c.mPtr).y ≠ 0 ∧ w.getSpeed c.mPtr > 0) →
        ¬ ((w.getRotationVector c.mPtr).z ≠ 0 ∧ w.isSwimming c.mPtr = false
          ∧ w.getStanceSneak c.mPtr = false) →
        c.mCharState = CharacterState.SpecialIdle ∨ c.mAnimQueue = [])
    (h : c.update w duration m = .ok (c1, m1)) :
    c1.mCharState
        = locomotionSpec c.mCharState (w.getMovementVector c.mPtr).x
            (w.getMovementVector c.mPtr).y (w.getRotationVector c.mPtr).z (w.getSpeed c.mPtr)
            (w.isSwimming c.mPtr) (w.getStanceSneak c.mPtr) (w.getStanceRun c.mPtr)
    ∧ (c1.mCharState ≠ c.mCharState → c1.mLooping = true) := by
  unfold CharacterController.update at h
  split at h
  · exact absurd h (by simp)
  · rename_i c0 m0 speed h0
    simp only [Except.ok.injEq] at h
    obtain ⟨hsp, c2, m2, hw, hp, hloc, _⟩ := updateLiving_inv _ _ _ _ _ _ _ hd h0
    subst hsp
    obtain ⟨_, a2, _, a4⟩ := updateAthletics_frame w duration c
    have hs2 : c2.mCharState = c.mCharState := (updateWeaponState_frame _ _ _ hw).2.trans a2
    have hq2 : ¬ (|(w.getMovementVector c2.mPtr).x| / 2 > |(w.getMovementVector c2.mPtr).y|
          ∧ w.getSpeed c.mPtr > 0) →
        ¬ ((w.getMovementVector c2.mPtr).y ≠ 0 ∧ w.getSpeed c.mPtr > 0) →
        ¬ ((w.getRotationVector c2.mPtr).z ≠ 0 ∧ w.isSwimming c2.mPtr = false
          ∧ w.getStanceSneak c2.mPtr = false) →
        c2.mCharState = CharacterState.SpecialIdle ∨ c2.mAnimQueue = [] := by
      rw [hp]
      intro g1 g2 g3
      rcases hq g1 g2 g3 with hq | hq
      · exact Or.inl (hs2.trans hq)
      · refine Or.inr (updateWeaponState_queue _ _ _ hw ?_)
        unfold CharacterController.updateAthletics
        simp only
        split_ifs <;> exact hq
    obtain ⟨k1, k2⟩ := updateLocomotion_state _ _ _ _ _ _ _ hq2 hloc
    rw [hp, hs2] at k1
    rw [hs2] at k2
    have f := updateAnimation_fields duration (w.getSpeed c.mPtr) c0 m0
    rw [h] at f
    simp only at f
    rw [f.1, f.2.2.1]
    exact ⟨k1, k2⟩

/-- Locomotion rules, an instance: the idle entity of `worldWalkForward` (forward intent 1,
speed 3, no flag set): rule (b) gives walk-forward, and the looping flag is
true. -/
theorem update_locomotion_of_returns_instance :
    walkedController.mCharState = CharacterState.WalkForward
    ∧ (walkedController.mCharState
        = locomotionSpec CharacterState.Idle 0 1 0 3 false false false
      ∧ (walkedController.mCharState ≠ CharacterState.Idle →
          walkedController.mLooping = true)) :=
  ⟨rfl, update_locomotion_of_returns worldWalkForward (1 / 10)
    (controllerIn (some animAllClips) CharacterState.Idle WeaponState.None) walkedController
    Movement.zero ⟨⟨0, 3 / 10, 0⟩, ⟨0, 0, 0⟩⟩ (by decide) (fun _ _ _ => Or.inr rfl) walk_eval⟩

theorem getCurrentGroup_shape (a : Animation) (c c1 : CharacterController) (g g1 : String)
    (h : c.getCurrentGroup a g = .ok (g1, c1)) :
    ∃ queries, c1 = { c with calls := c.calls ++ queries }
      ∧ ∀ e ∈ queries, ∃ n, e = AnimCall.hasAnimation n := by
  unfold CharacterController.getCurrentGroup at h
  simp only at h
  split_ifs at h <;> simp only [Except.ok.injEq, Prod.mk.injEq] at h <;>
    obtain ⟨_, rfl⟩ := h
  all_goals first
    | exact ⟨[AnimCall.hasAnimation _], rfl, fun e he => ⟨_, List.mem_singleton.mp he⟩⟩
    | (refine ⟨[AnimCall.hasAnimation _, AnimCall.hasAnimation _],
         by rw [List.append_assoc]; rfl, ?_⟩
       intro e he
       simp only [List.mem_cons, List.mem_singleton, List.not_mem_nil, or_false] at he
       rcases he with rfl | rfl <;> exact ⟨_, rfl⟩)

theorem forceStateUpdate_of_group (c c2 : CharacterController) (a : Animation) (g : String)
    (ha : c.mAnimation = some a)
    (hg : CharacterController.getCurrentGroup a { c with mAnimQueue := [] } "" = .ok (g, c2)) :
    c.forceStateUpdate = .ok
      { c with
        mAnimQueue := []
        mMovingAnim := a.play c2.calls g Priority.Default "start" "stop" 0
          (if c.mLooping then sizeMax else 0)
        calls := c2.calls ++
          [AnimCall.play g Priority.Default "start" "stop" 0 (if c.mLooping then sizeMax else 0),
           AnimCall.showWeapons (c.mWeapState != WeaponState.None
             && c.mWeapState != WeaponState.HandToHand && c.mWeapState != WeaponState.Spell)] } := by
  obtain ⟨qs, rfl, _⟩ := getCurrentGroup_shape a _ _ _ _ hg
  unfold CharacterController.forceStateUpdate
  simp only [ha]
  rw [ha] at hg
  simp [hg]

theorem create_of_group (w : World) (ptr : Ptr) (a : Animation) (state : CharacterState)
    (loop : Bool) (g : String) (c2 : CharacterController)
    (hg : (createdBeforePlay w ptr a state).getCurrentGroup a "" = .ok (g, c2)) :
    CharacterController.create w ptr (some a) state loop = .ok
      { c2 with
        mMovingAnim := a.play c2.calls g Priority.Default "start" "stop" 1
          (if loop then sizeMax else 0)
        calls := c2.calls ++
          [AnimCall.play g Priority.Default "start" "stop" 1 (if loop then sizeMax else 0)] } := by
  unfold createdBeforePlay at hg
  unfold CharacterController.create
  simp only [List.nil_append]
  rw [hg]

theorem getCurrentGroup_ok (a : Animation) (c : CharacterController) (g : String)
    (hne : c.mCharState ≠ CharacterState.SpecialIdle) :
    ∃ g1 c1, c.getCurrentGroup a g = .ok (g1, c1) := by
  unfold CharacterController.getCurrentGroup
  simp only [findStateName_ne_empty c.mCharState hne]
  simp only [Bool.false_eq_true, if_false]
  split_ifs <;> exact ⟨_, _, rfl⟩

/-- C15 (counterexample): the forced refresh of an idle controller whose
collaborator has every clip issues its play request for "idle" with 0, not 1, as
the fifth argument. -/
theorem forceStateUpdate_fifth_argument_zero :
    (controllerIn (some animAllClips) CharacterState.Idle WeaponState.None).forceStateUpdate
      = .ok { controllerIn (some animAllClips) CharacterState.Idle WeaponState.None with
          calls := [AnimCall.hasAnimation "idle",
            AnimCall.play "idle" Priority.Default "start" "stop" 0 0,
            AnimCall.showWeapons false] }
    ∧ (0 : ℚ) ≠ 1 :=
  ⟨rfl, by norm_num⟩

/-- C15 (amended): for a controller with a collaborator `a` whose state has a
table name, the resolver returns a group `g` after has-clip queries only, and
`forceStateUpdate` returns the controller with the queue empty, having issued
after those queries exactly one play request, for `g`, from "start" to "stop",
with 0 as its fifth argument and `sizeMax` repeats if the looping flag is set and
0 otherwise, followed by the show-weapons call; the moving flag is the answer to
the play request; no other field changes. -/
theorem forceStateUpdate_play_request (c : CharacterController) (a : Animation)
    (base : String) (ha : c.mAnimation = some a)
    (hbase : sStateList.lookup c.mCharState = some base) :
    ∃ g c2 queries,
      CharacterController.getCurrentGroup a { c with mAnimQueue := [] } "" = .ok (g, c2)
      ∧ c2.calls = c.calls ++ queries
      ∧ (∀ e ∈ queries, ∃ n, e = AnimCall.hasAnimation n)
      ∧ c.forceStateUpdate = .ok
          { c with
            mAnimQueue := []
            mMovingAnim := a.play c2.calls g Priority.Default "start" "stop" 0
              (if c.mLooping then sizeMax else 0)
            calls := c2.calls ++
              [AnimCall.play g Priority.Default "start" "stop" 0
                (if c.mLooping then sizeMax else 0),
               AnimCall.showWeapons (c.mWeapState != WeaponState.None
                 && c.mWeapState != WeaponState.HandToHand
                 && c.mWeapState != WeaponState.Spell)] } := by
  have hne := (lookup_some_facts c.mCharState base hbase).1
  obtain ⟨g, c2, hg⟩ := getCurrentGroup_ok a { c with mAnimQueue := [] } "" hne
  obtain ⟨qs, hq, hall⟩ := getCurrentGroup_shape a _ _ _ _ hg
  refine ⟨g, c2, qs, hg, ?_, hall, forceStateUpdate_of_group c c2 a g ha hg⟩
  rw [hq]

/-- C15 (witness): a controller walking forward with a one-handed weapon and a
collaborator that has every clip. -/
theorem forceStateUpdate_play_request_witness :
    ∃ g c2 queries,
      CharacterController.getCurrentGroup animAllClips
        { controllerIn (some animAllClips) CharacterState.WalkForward WeaponState.OneHand with
          mAnimQueue := [] } "" = .ok (g, c2)
      ∧ c2.calls = (controllerIn (some animAllClips) CharacterState.WalkForward
          WeaponState.OneHand).calls ++ queries
      ∧ (∀ e ∈ queries, ∃ n, e = AnimCall.hasAnimation n)
      ∧ (controllerIn (some animAllClips) CharacterState.WalkForward
          WeaponState.OneHand).forceStateUpdate = .ok
          { controllerIn (some animAllClips) CharacterState.WalkForward WeaponState.OneHand with
            mAnimQueue := []
            mMovingAnim := animAllClips.play c2.calls g Priority.Default "start" "stop" 0
              (if (controllerIn (some animAllClips) CharacterState.WalkForward
                WeaponState.OneHand).mLooping then sizeMax else 0)
            calls := c2.calls ++
              [AnimCall.play g Priority.Default "start" "stop" 0
                (if (controllerIn (some animAllClips) CharacterState.WalkForward
                  WeaponState.OneHand).mLooping then sizeMax else 0),
               AnimCall.showWeapons ((controllerIn (some animAllClips) CharacterState.WalkForward
                  WeaponState.OneHand).mWeapState != WeaponState.None
                 && (controllerIn (some animAllClips) CharacterState.WalkForward
                  WeaponState.OneHand).mWeapState != WeaponState.HandToHand
                 && (controllerIn (some animAllClips) CharacterState.WalkForward
                  WeaponState.OneHand).mWeapState != WeaponState.Spell)] } :=
  forceStateUpdate_play_request
    (controllerIn (some animAllClips) CharacterState.WalkForward WeaponState.OneHand)
    animAllClips "walkforward" rfl rfl

/-- C16 (counterexample): with a collaborator that has no clip the resolver
returns the empty name for the idle state, and the forced refresh and the
constructor each issue a play request all the same, for the empty name. -/
theorem play_request_for_empty_group :
    Except.map Prod.fst
        ((controllerIn (some animNoClips) CharacterState.Idle WeaponState.None).getCurrentGroup
          animNoClips "") = .ok ""
    ∧ (controllerIn (some animNoClips) CharacterState.Idle WeaponState.None).forceStateUpdate
      = .ok { controllerIn (some animNoClips) CharacterState.Idle WeaponState.None with
          calls := [AnimCall.hasAnimation "idle",
            AnimCall.play "" Priority.Default "start" "stop" 0 0,
            AnimCall.showWeapons false] }
    ∧ CharacterController.create worldBareHands 0 (some animNoClips) CharacterState.Idle false
      = .ok { controllerIn (some animNoClips) CharacterState.Idle WeaponState.None with
          calls := [AnimCall.setAccumulation ⟨1, 1, 0⟩, AnimCall.hasAnimation "idle",
            AnimCall.play "" Priority.Default "start" "stop" 1 0] } :=
  ⟨rfl, rfl, rfl⟩

/-- C16 (amended): when the resolver returns the empty name, the forced refresh
and the constructor go on as for any other name: each issues its one play request,
for the empty name, and records the answer as the moving flag. -/
theorem play_request_when_group_empty (a : Animation) :
    (∀ c c2 : CharacterController, c.mAnimation = some a →
        CharacterController.getCurrentGroup a { c with mAnimQueue := [] } "" = .ok ("", c2) →
        c.forceStateUpdate = .ok
          { c with
            mAnimQueue := []
            mMovingAnim := a.play c2.calls "" Priority.Default "start" "stop" 0
              (if c.mLooping then sizeMax else 0)
            calls := c2.calls ++
              [AnimCall.play "" Priority.Default "start" "stop" 0
                (if c.mLooping then sizeMax else 0),
               AnimCall.showWeapons (c.mWeapState != WeaponState.None
                 && c.mWeapState != WeaponState.HandToHand
                 && c.mWeapState != WeaponState.Spell)] })
    ∧ (∀ (w : World) (ptr : Ptr) (state : CharacterState) (loop : Bool)
        (c2 : CharacterController),
        (createdBeforePlay w ptr a state).getCurrentGroup a "" = .ok ("", c2) →
        CharacterController.create w ptr (some a) state loop = .ok
          { c2 with
            mMovingAnim := a.play c2.calls "" Priority.Default "start" "stop" 1
              (if loop then sizeMax else 0)
            calls := c2.calls ++
              [AnimCall.play "" Priority.Default "start" "stop" 1
                (if loop then sizeMax else 0)] }) :=
  ⟨fun c c2 ha hg => forceStateUpdate_of_group c c2 a "" ha hg,
   fun w ptr state loop c2 hg => create_of_group w ptr a state loop "" c2 hg⟩

/-- C16 (witness): the forced refresh of the idle controller whose collaborator
has no clip. -/
theorem play_request_when_group_empty_witness :
    (controllerIn (some animNoClips) CharacterState.Idle WeaponState.None).forceStateUpdate
      = .ok { controllerIn (some animNoClips) CharacterState.Idle WeaponState.None with
          mAnimQueue := []
          mMovingAnim := animNoClips.play [AnimCall.hasAnimation "idle"] ""
            Priority.Default "start" "stop" 0 0
          calls := [AnimCall.hasAnimation "idle"] ++
            [AnimCall.play "" Priority.Default "start" "stop" 0 0,
             AnimCall.showWeapons false] } :=
  (play_request_when_group_empty animNoClips).1
    (controllerIn (some animNoClips) CharacterState.Idle WeaponState.None)
    { controllerIn (some animNoClips) CharacterState.Idle WeaponState.None with
      calls := [AnimCall.hasAnimation "idle"] } rfl rfl

theorem constructedLooping_update_eval :
    constructedLooping.update worldBareHands (1 / 10) Movement.zero
      = .ok (constructedThenDrawn, Movement.zero) := by
  have hg : CharacterController.getCurrentGroup animAllClips
      { constructedLooping with mWeapState := WeaponState.HandToHand } ""
      = .ok ("idlehh",
          { constructedLooping with
            mWeapState := WeaponState.HandToHand
            calls := constructedLooping.calls ++ [AnimCall.hasAnimation "idlehh"] }) := rfl
  simp only [constructedLooping, controllerIn, List.cons_append, List.nil_append] at hg
  simp [CharacterController.update, CharacterController.updateLiving,
    CharacterController.updateWeaponState, CharacterController.updateAthletics,
    CharacterController.updateLocomotion, CharacterController.updateIdle,
    CharacterController.updateJump, CharacterController.setState,
    CharacterController.setWeaponState, deriveWeaponState,
    CharacterController.forceStateUpdate, CharacterController.updateAnimation,
    worldBareHands, controllerIn, CharacterState.isDeath, CharacterState.toNat,
    Movement.zero, hg, constructedLooping, constructedThenDrawn]
  norm_num [animAllClips]

/-- C19 (failing input): the constructor called with `loop = true` issues its
play request with `sizeMax` repeats but records the looping flag as false, and
the `update` that follows, deriving the hand-to-hand weapon state, replays with 0
repeats. -/
theorem constructor_drops_loop :
    CharacterController.create worldBareHands 0 (some animAllClips) CharacterState.Idle true
      = .ok constructedLooping
    ∧ constructedLooping.mLooping = false
    ∧ constructedLooping.calls
      = [AnimCall.setAccumulation ⟨1, 1, 0⟩, AnimCall.hasAnimation "idle",
          AnimCall.play "idle" Priority.Default "start" "stop" 1 sizeMax]
    ∧ constructedLooping.update worldBareHands (1 / 10) Movement.zero
      = .ok (constructedThenDrawn, Movement.zero)
    ∧ constructedThenDrawn.calls
      = constructedLooping.calls ++ [AnimCall.hasAnimation "idlehh",
          AnimCall.play "idlehh" Priority.Default "start" "stop" 0 0,
          AnimCall.showWeapons false, AnimCall.setSpeed 0, AnimCall.runAnimation (1 / 10)] :=
  ⟨rfl, rfl, rfl, constructedLooping_update_eval, rfl⟩

theorem queueInv_of_nil (c : CharacterController) (h : c.mAnimQueue = []) : QueueInv c :=
  ⟨by rw [h]; simp, fun _ => h⟩

theorem queueInv_congr (c c1 : CharacterController) (h1 : c1.mAnimQueue = c.mAnimQueue)
    (h2 : c1.mCharState = c.mCharState) (h3 : c1.mAnimation = c.mAnimation)
    (h : QueueInv c) : QueueInv c1 := by
  unfold QueueInv
  rw [h1, h2, h3]
  exact h

theorem setState_queueInv (state : CharacterState) (loop : Bool) (c c1 : CharacterController)
    (hI : QueueInv c) (h : c.setState state loop = .ok c1) : QueueInv c1 := by
  unfold CharacterController.setState at h
  split_ifs at h
  · simp only [Except.ok.injEq] at h
    subst h
    exact hI
  · rcases forceStateUpdate_cases _ _ h with ⟨hn, rfl⟩ | ⟨_, hq⟩
    · exact queueInv_of_nil _ (hI.2 (Or.inr hn))
    · exact queueInv_of_nil _ hq

theorem setWeaponState_queueInv (state : WeaponState) (c c1 : CharacterController)
    (hI : QueueInv c) (h : c.setWeaponState state = .ok c1) : QueueInv c1 := by
  unfold CharacterController.setWeaponState at h
  split_ifs at h
  · simp only [Except.ok.injEq] at h
    subst h
    exact hI
  · rcases forceStateUpdate_cases _ _ h with ⟨_, rfl⟩ | ⟨_, hq⟩
    · exact queueInv_congr c _ rfl rfl rfl hI
    · exact queueInv_of_nil _ hq

theorem updateSideways_queueInv (w : World) (duration speed : ℚ) (c c1 : CharacterController)
    (m m1 : Movement) (hI : QueueInv c)
    (h : c.updateSideways w duration speed m = .ok (c1, m1)) : QueueInv c1 := by
  unfold CharacterController.updateSideways at h
  simp only at h
  split at h
  · exact absurd h (by simp)
  · rename_i c2 hr
    simp only [Except.ok.injEq, Prod.mk.injEq] at h
    obtain ⟨rfl, _⟩ := h
    split_ifs at hr <;>
    first
      | (simp only [Except.ok.injEq] at hr; subst hr; exact hI)
      | exact setState_queueInv _ _ _ _ hI hr

theorem updateForward_queueInv (w : World) (duration speed : ℚ) (c c1 : CharacterController)
    (m m1 : Movement) (hI : QueueInv c)
    (h : c.updateForward w duration speed m = .ok (c1, m1)) : QueueInv c1 := by
  unfold CharacterController.updateForward at h
  simp only at h
  split at h
  · exact absurd h (by simp)
  · rename_i c2 hr
    simp only [Except.ok.injEq, Prod.mk.injEq] at h
    obtain ⟨rfl, _⟩ := h
    split_ifs at hr <;>
    first
      | (simp only [Except.ok.injEq] at hr; subst hr; exact hI)
      | exact setState_queueInv _ _ _ _ hI hr

theorem updateTurn_queueInv (w : World) (c c1 : CharacterController) (hI : QueueInv c)
    (h : c.updateTurn w = .ok c1) : QueueInv c1 := by
  unfold CharacterController.updateTurn at h
  simp only at h
  split_ifs at h <;>
  first
    | (simp only [Except.ok.injEq] at h; subst h; exact hI)
    | exact setState_queueInv _ _ _ _ hI h

theorem updateIdle_queueInv (w : World) (c c1 : CharacterController) (hI : QueueInv c)
    (h : c.updateIdle w = .ok c1) : QueueInv c1 := by
  unfold CharacterController.updateIdle at h
  simp only at h
  split at h
  · exact setState_queueInv _ _ _ _ hI h
  · rename_i front rest hq
    split at h
    · exact absurd h (by simp)
    · simp only [Except.ok.injEq] at h
      subst h
      apply queueInv_of_nil
      show rest = []
      have hl := hI.1
      rw [hq] at hl
      simp only [List.length_cons] at hl
      exact List.length_eq_zero.mp (by omega)

theorem updateAthletics_queueInv (w : World) (duration : ℚ) (c : CharacterController)
    (hI : QueueInv c) : QueueInv (c.updateAthletics w duration) := by
  unfold CharacterController.updateAthletics
  simp only
  split_ifs <;> exact queueInv_congr c _ rfl rfl rfl hI

theorem updateWeaponState_queueInv (w : World) (c c1 : CharacterController) (hI : QueueInv c)
    (h : c.updateWeaponState w = .ok c1) : QueueInv c1 := by
  unfold CharacterController.updateWeaponState at h
  split_ifs at h
  · exact setWeaponState_queueInv _ _ _ hI h
  · simp only [Except.ok.injEq] at h
    subst h
    exact hI

theorem updateLocomotion_queueInv (w : World) (duration speed : ℚ) (c c1 : CharacterController)
    (m m1 : Movement) (hI : QueueInv c)
    (h : c.updateLocomotion w duration speed m = .ok (c1, m1)) : QueueInv c1 := by
  unfold CharacterController.updateLocomotion at h
  simp only at h
  split_ifs at h
  · exact updateSideways_queueInv _ _ _ _ _ _ _ hI h
  · exact updateForward_queueInv _ _ _ _ _ _ _ hI h
  · split at h
    · exact absurd h (by simp)
    · rename_i c2 hc
      simp only [Except.ok.injEq, Prod.mk.injEq] at h
      obtain ⟨rfl, _⟩ := h
      exact updateTurn_queueInv _ _ _ hI hc
  · split at h
    · exact absurd h (by simp)
    · rename_i c2 hc
      simp only [Except.ok.injEq, Prod.mk.injEq] at h
      obtain ⟨rfl, _⟩ := h
      exact updateIdle_queueInv _ _ _ hI hc
  · simp only [Except.ok.injEq, Prod.mk.injEq] at h
    obtain ⟨rfl, _⟩ := h
    exact hI

theorem update_queueInv (w : World) (duration : ℚ) (c c1 : CharacterController)
    (m m1 : Movement) (hI : QueueInv c) (h : c.update w duration m = .ok (c1, m1)) :
    QueueInv c1 := by
  unfold CharacterController.update at h
  split at h
  · exact absurd h (by simp)
  · rename_i c0 m0 speed h0
    simp only [Except.ok.injEq] at h
    have f := updateAnimation_fields duration speed c0 m0
    rw [h] at f
    simp only at f
    refine queueInv_congr c0 c1 f.2.2.2.2.1 f.1 f.2.2.2.2.2.1 ?_
    unfold CharacterController.updateLiving at h0
    split_ifs at h0
    · simp only [Except.ok.injEq, Prod.mk.injEq] at h0
      obtain ⟨rfl, _, _⟩ := h0
      exact hI
    · simp only at h0
      split at h0
      · exact absurd h0 (by simp)
      · rename_i c2 hc2
        split at h0
        · exact absurd h0 (by simp)
        · rename_i c3 m3 hc3
          simp only [Except.ok.injEq, Prod.mk.injEq] at h0
          obtain ⟨rfl, _, _⟩ := h0
          exact updateLocomotion_queueInv _ _ _ _ _ _ _
            (updateWeaponState_queueInv _ _ _ (updateAthletics_queueInv w duration c hI) hc2) hc3

theorem playGroup_append (c : CharacterController) (a : Animation) (groupname : String)
    (mode count : Int) (ha : c.mAnimation = some a)
    (hclip : a.hasAnimation c.calls groupname = true)
    (hm : mode = 0) (hs : c.mCharState = CharacterState.SpecialIdle) :
    c.playGroup groupname mode count
      = { c with
          mAnimQueue := [(groupname, (max count 1 - 1).toNat)]
          calls := c.calls ++ [AnimCall.hasAnimation groupname] } := by
  unfold CharacterController.playGroup
  simp [ha, hclip, hs, hm]

theorem playGroup_missing (c : CharacterController) (a : Animation) (groupname : String)
    (mode count : Int) (ha : c.mAnimation = some a)
    (hclip : a.hasAnimation c.calls groupname = false) :
    c.playGroup groupname mode count
      = { c with calls := c.calls ++ [AnimCall.hasAnimation groupname] } := by
  unfold CharacterController.playGroup
  simp [ha, hclip]

theorem playGroup_queueInv (groupname : String) (mode count : Int) (c : CharacterController)
    (hI : QueueInv c) : QueueInv (c.playGroup groupname mode count) := by
  cases ha : c.mAnimation with
  | none =>
    have h : c.playGroup groupname mode count = c := by
      unfold CharacterController.playGroup
      simp [ha]
    rw [h]
    exact hI
  | some a =>
    cases h1 : a.hasAnimation c.calls groupname with
    | false =>
      rw [playGroup_missing c a groupname mode count ha h1]
      exact queueInv_congr c _ rfl rfl rfl hI
    | true =>
      by_cases h2 : mode ≠ 0 ∨ c.mCharState ≠ CharacterState.SpecialIdle
      · rw [playGroup_available c a groupname mode count ha h1 h2]
        exact queueInv_of_nil _ rfl
      · simp only [ne_eq, not_or, not_not] at h2
        rw [playGroup_append c a groupname mode count ha h1 h2.1 h2.2]
        refine ⟨by simp, ?_⟩
        intro hc
        rcases hc with hc | hc
        · exact absurd h2.2 hc
        · exact absurd (ha.symm.trans hc) (by simp)

theorem step_queueInv (c c1 : CharacterController) (op : Op) (hI : QueueInv c)
    (h : step c op = .ok c1) : QueueInv c1 := by
  cases op with
  | update w duration movement =>
    simp only [step] at h
    split at h
    · exact absurd h (by simp)
    · rename_i r hr
      simp only [Except.ok.injEq] at h
      subst h
      exact update_queueInv w duration c r.1 movement r.2 hI hr
  | playGroup g mode count =>
    simp only [step, Except.ok.injEq] at h
    subst h
    exact playGroup_queueInv _ _ _ _ hI
  | skipAnim =>
    simp only [step, Except.ok.injEq] at h
    subst h
    exact queueInv_congr c _ rfl rfl rfl hI
  | updatePtr ptr =>
    simp only [step, Except.ok.injEq] at h
    subst h
    exact queueInv_congr c _ rfl rfl rfl hI
  | setState s l => exact setState_queueInv _ _ _ _ hI h
  | setWeaponState s => exact setWeaponState_queueInv _ _ _ hI h

theorem run_queueInv (ops : List Op) (c c1 : CharacterController) (hI : QueueInv c)
    (h : run c ops = .ok c1) : QueueInv c1 := by
  induction ops generalizing c with
  | nil =>
    simp only [run, Except.ok.injEq] at h
    subst h
    exact hI
  | cons op ops ih =>
    simp only [run] at h
    split at h
    · exact absurd h (by simp)
    · rename_i c2 hc2
      exact ih c2 (step_queueInv c c2 op hI hc2) h

theorem create_queue (w : World) (ptr : Ptr) (anim : Option Animation)
    (state : CharacterState) (loop : Bool) (c : CharacterController)
    (h : CharacterController.create w ptr anim state loop = .ok c) : c.mAnimQueue = [] := by
  unfold CharacterController.create at h
  cases anim with
  | none =>
    simp only [Except.ok.injEq] at h
    subst h
    rfl
  | some a =>
    simp only at h
    split at h
    · exact absurd h (by simp)
    · rename_i g c2 hg
      simp only [Except.ok.injEq] at h
      subst h
      exact (getCurrentGroup_frame a _ _ _ _ hg).2.2.2.2.1

/-- C20: a controller reached from the constructor through calls that return
(update, playGroup, skipAnim, updatePtr, setState, setWeaponState) has at most
one queue entry, and an empty queue whenever its state is not special-idle or its
collaborator is null; and in an `update` of it, the controller that reaches the
idle case (after the athletics and equipment blocks) has an empty queue whenever
its state is not special-idle, so that the idle case does not take the
dequeue-and-play branch. -/
theorem queue_invariant_reachable (w0 : World) (ptr : Ptr) (anim : Option Animation)
    (state : CharacterState) (loop : Bool) (c0 c : CharacterController) (ops : List Op)
    (hc : CharacterController.create w0 ptr anim state loop = .ok c0)
    (hr : run c0 ops = .ok c) :
    c.mAnimQueue.length ≤ 1
    ∧ (c.mCharState ≠ CharacterState.SpecialIdle ∨ c.mAnimation = none → c.mAnimQueue = [])
    ∧ (∀ (w : World) (duration : ℚ) (c2 : CharacterController),
        (c.updateAthletics w duration).updateWeaponState w = .ok c2 →
        c2.mCharState ≠ CharacterState.SpecialIdle → c2.mAnimQueue = []) := by
  have hI : QueueInv c :=
    run_queueInv ops c0 c (queueInv_of_nil c0 (create_queue w0 ptr anim state loop c0 hc)) hr
  refine ⟨hI.1, hI.2, ?_⟩
  intro w duration c2 h2 hs
  exact (updateWeaponState_queueInv w _ c2 (updateAthletics_queueInv w duration c hI) h2).2
    (Or.inl hs)

/-- C20 (witness): constructed idle, then `playGroup "idle" 1 1`,
`playGroup "a" 0 1` and `skipAnim`: the queue holds the one entry ("a", 0) in the
special-idle state. -/
theorem queue_invariant_reachable_witness :
    (((constructedLooping.playGroup "idle" 1 1).playGroup "a" 0 1).skipAnim).mAnimQueue.length ≤ 1
    ∧ ((((constructedLooping.playGroup "idle" 1 1).playGroup "a" 0 1).skipAnim).mCharState
          ≠ CharacterState.SpecialIdle
        ∨ (((constructedLooping.playGroup "idle" 1 1).playGroup "a" 0 1).skipAnim).mAnimation
          = none →
        (((constructedLooping.playGroup "idle" 1 1).playGroup "a" 0 1).skipAnim).mAnimQueue = [])
    ∧ (∀ (w : World) (duration : ℚ) (c2 : CharacterController),
        ((((constructedLooping.playGroup "idle" 1 1).playGroup "a" 0 1).skipAnim).updateAthletics
          w duration).updateWeaponState w = .ok c2 →
        c2.mCharState ≠ CharacterState.SpecialIdle → c2.mAnimQueue = []) :=
  queue_invariant_reachable worldBareHands 0 (some animAllClips) CharacterState.Idle true
    constructedLooping (((constructedLooping.playGroup "idle" 1 1).playGroup "a" 0 1).skipAnim)
    [Op.playGroup "idle" 1 1, Op.playGroup "a" 0 1, Op.skipAnim] rfl rfl

theorem forceStateUpdate_none (c : CharacterController) (h : c.mAnimation = none) :
    c.forceStateUpdate = .ok c := by
  unfold CharacterController.forceStateUpdate
  simp [h]

theorem setState_nullInv (state : CharacterState) (loop : Bool) (c : CharacterController)
    (hN : NullInv c) : ∃ c1, c.setState state loop = .ok c1 ∧ NullInv c1 := by
  unfold CharacterController.setState
  split_ifs
  · exact ⟨c, rfl, hN⟩
  · exact ⟨_, forceStateUpdate_none _ hN.1, hN⟩

theorem setWeaponState_nullInv (state : WeaponState) (c : CharacterController)
    (hN : NullInv c) : ∃ c1, c.setWeaponState state = .ok c1 ∧ NullInv c1 := by
  unfold CharacterController.setWeaponState
  split_ifs
  · exact ⟨c, rfl, hN⟩
  · exact ⟨_, forceStateUpdate_none _ hN.1, hN⟩

theorem updateSideways_nullInv (w : World) (duration speed : ℚ) (c : CharacterController)
    (m : Movement) (hN : NullInv c) :
    ∃ c1 m1, c.updateSideways w duration speed m = .ok (c1, m1) ∧ NullInv c1 := by
  unfold CharacterController.updateSideways
  simp only
  split
  · rename_i e hr
    exfalso
    split_ifs at hr <;>
    first
      | exact absurd hr (by simp)
      | (obtain ⟨c2, h2, _⟩ := setState_nullInv _ true c hN
         rw [h2] at hr
         exact absurd hr (by simp))
  · rename_i c2 hr
    refine ⟨_, _, rfl, ?_⟩
    split_ifs at hr <;>
    first
      | (simp only [Except.ok.injEq] at hr; subst hr; exact hN)
      | (obtain ⟨c3, h3, hN3⟩ := setState_nullInv _ true c hN
         rw [h3] at hr
         simp only [Except.ok.injEq] at hr
         subst hr
         exact hN3)

theorem updateForward_nullInv (w : World) (duration speed : ℚ) (c : CharacterController)
    (m : Movement) (hN : NullInv c) :
    ∃ c1 m1, c.updateForward w duration speed m = .ok (c1, m1) ∧ NullInv c1 := by
  unfold CharacterController.updateForward
  simp only
  split
  · rename_i e hr
    exfalso
    split_ifs at hr <;>
    first
      | exact absurd hr (by simp)
      | (obtain ⟨c2, h2, _⟩ := setState_nullInv _ true c hN
         rw [h2] at hr
         exact absurd hr (by simp))
  · rename_i c2 hr
    refine ⟨_, _, rfl, ?_⟩
    split_ifs at hr <;>
    first
      | (simp only [Except.ok.injEq] at hr; subst hr; exact hN)
      | (obtain ⟨c3, h3, hN3⟩ := setState_nullInv _ true c hN
         rw [h3] at hr
         simp only [Except.ok.injEq] at hr
         subst hr
         exact hN3)

theorem updateTurn_nullInv (w : World) (c : CharacterController) (hN : NullInv c) :
    ∃ c1, c.updateTurn w = .ok c1 ∧ NullInv c1 := by
  unfold CharacterController.updateTurn
  simp only
  split_ifs
  · exact setState_nullInv _ _ c hN
  · exact setState_nullInv _ _ c hN
  · exact ⟨c, rfl, hN⟩

theorem updateIdle_nullInv (w : World) (c : CharacterController) (hN : NullInv c) :
    ∃ c1, c.updateIdle w = .ok c1 ∧ NullInv c1 := by
  unfold CharacterController.updateIdle
  simp only [hN.2.1]
  exact setState_nullInv _ _ c hN

theorem updateWeaponState_nullInv (w : World) (c : CharacterController) (hN : NullInv c) :
    ∃ c1, c.updateWeaponState w = .ok c1 ∧ NullInv c1 := by
  unfold CharacterController.updateWeaponState
  split_ifs
  · exact setWeaponState_nullInv _ c hN
  · exact ⟨c, rfl, hN⟩

theorem updateAthletics_nullInv (w : World) (duration : ℚ) (c : CharacterController)
    (hN : NullInv c) : NullInv (c.updateAthletics w duration) := by
  unfold CharacterController.updateAthletics
  simp only
  split_ifs <;> exact hN

theorem updateLocomotion_nullInv (w : World) (duration speed : ℚ) (c : CharacterController)
    (m : Movement) (hN : NullInv c) :
    ∃ c1 m1, c.updateLocomotion w duration speed m = .ok (c1, m1) ∧ NullInv c1 := by
  unfold CharacterController.updateLocomotion
  simp only
  split_ifs
  · exact updateSideways_nullInv _ _ _ _ _ hN
  · exact updateForward_nullInv _ _ _ _ _ hN
  · obtain ⟨c1, h1, hN1⟩ := updateTurn_nullInv w c hN
    rw [h1]
    exact ⟨_, _, rfl, hN1⟩
  · obtain ⟨c1, h1, hN1⟩ := updateIdle_nullInv w c hN
    rw [h1]
    exact ⟨_, _, rfl, hN1⟩
  · exact ⟨_, _, rfl, hN⟩

theorem updateLiving_nullInv (w : World) (duration : ℚ) (c : CharacterController)
    (m : Movement) (hN : NullInv c) :
    ∃ c1 m1 speed, c.updateLiving w duration m = .ok (c1, m1, speed) ∧ NullInv c1 := by
  unfold CharacterController.updateLiving
  split_ifs
  · exact ⟨_, _, _, rfl, hN⟩
  · simp only
    obtain ⟨c2, h2, hN2⟩ := updateWeaponState_nullInv w _ (updateAthletics_nullInv w duration c hN)
    rw [h2]
    simp only
    obtain ⟨c3, m3, h3, hN3⟩ := updateLocomotion_nullInv w duration (w.getSpeed c.mPtr) c2
      (CharacterController.updateJump w duration c2.mPtr m) hN2
    rw [h3]
    exact ⟨_, _, _, rfl, hN3⟩

theorem updateAnimation_none (duration speed : ℚ) (c : CharacterController) (m : Movement)
    (h : c.mAnimation = none) :
    c.updateAnimation duration speed m = ({ c with mSkipAnim := false }, m) := by
  unfold CharacterController.updateAnimation
  simp [h]

theorem update_nullInv (w : World) (duration : ℚ) (c : CharacterController)
    (m : Movement) (hN : NullInv c) :
    ∃ c1 m1, c.update w duration m = .ok (c1, m1) ∧ NullInv c1 := by
  obtain ⟨c0, m0, speed, h0, hN0⟩ := updateLiving_nullInv w duration c m hN
  unfold CharacterController.update
  rw [h0]
  simp only [updateAnimation_none duration speed c0 m0 hN0.1]
  exact ⟨_, _, rfl, hN0⟩

theorem step_nullInv (c : CharacterController) (op : Op) (hN : NullInv c) :
    ∃ c1, step c op = .ok c1 ∧ NullInv c1 := by
  cases op with
  | update w duration movement =>
    obtain ⟨c1, m1, h1, hN1⟩ := update_nullInv w duration c movement hN
    simp only [step, h1]
    exact ⟨_, rfl, hN1⟩
  | playGroup g mode count =>
    refine ⟨_, rfl, ?_⟩
    have h : c.playGroup g mode count = c := by
      unfold CharacterController.playGroup
      simp [hN.1]
    rw [h]
    exact hN
  | skipAnim => exact ⟨_, rfl, hN⟩
  | updatePtr ptr => exact ⟨_, rfl, hN⟩
  | setState s l => exact setState_nullInv s l c hN
  | setWeaponState s => exact setWeaponState_nullInv s c hN

theorem run_nullInv (ops : List Op) (c : CharacterController) (hN : NullInv c) :
    ∃ c1, run c ops = .ok c1 ∧ NullInv c1 := by
  induction ops generalizing c with
  | nil => exact ⟨c, rfl, hN⟩
  | cons op ops ih =>
    obtain ⟨c1, h1, hN1⟩ := step_nullInv c op hN
    obtain ⟨c2, h2, hN2⟩ := ih c1 hN1
    refine ⟨c2, ?_, hN2⟩
    simp [run, h1, h2]

/-- C13: the constructor given a null collaborator returns, and every finite
sequence of update, playGroup, skipAnim, updatePtr, setState and setWeaponState
calls on the controller it returns completes without raising (the error of the
unguarded dequeue-and-play branch included) and ends with the collaborator null,
the queue empty and no call issued to a collaborator. -/
theorem null_collaborator_safe (w : World) (ptr : Ptr) (state : CharacterState) (loop : Bool)
    (ops : List Op) :
    ∃ c0 c, CharacterController.create w ptr none state loop = .ok c0
      ∧ run c0 ops = .ok c
      ∧ c.mAnimation = none ∧ c.mAnimQueue = [] ∧ c.calls = [] := by
  have hN0 : NullInv
      { mPtr := ptr, mAnimation := none, mAnimQueue := [], mCharState := state,
        mWeapState := WeaponState.None, mLooping := false, mSkipAnim := false,
        mMovingAnim := false, mSecondsOfRunning := 0, mSecondsOfSwimming := 0,
        calls := [], skillCalls := [] } := ⟨rfl, rfl, rfl⟩
  obtain ⟨c, hr, hN⟩ := run_nullInv ops _ hN0
  exact ⟨_, c, rfl, hr, hN⟩

theorem athleticsLoop_le (s : ℚ) (n : Nat) (h : s ≤ 1) : athleticsLoop s n = (s, n) := by
  rw [athleticsLoop]
  simp [not_lt.mpr h]

theorem athleticsLoop_gt (s : ℚ) (n : Nat) (h : 1 < s) :
    athleticsLoop s n = athleticsLoop (s - 1) (n + 1) := by
  rw [athleticsLoop]
  simp [h]

theorem athleticsLoop_spec (s : ℚ) (n : Nat) :
    ∃ k : Nat, athleticsLoop s n = (s - k, n + k) ∧ s - k ≤ 1
      ∧ (s ≤ 1 → k = 0) ∧ (1 < s → 0 < s - k) := by
  induction s, n using athleticsLoop.induct with
  | case1 s n h ih =>
    obtain ⟨k, h1, h2, h3, h4⟩ := ih
    refine ⟨k + 1, ?_, ?_, ?_, ?_⟩
    · rw [athleticsLoop_gt s n h, h1]
      simp only [Prod.mk.injEq]
      constructor
      · push_cast
        ring
      · omega
    · push_cast
      linarith
    · intro hle
      exact absurd h (not_lt.mpr hle)
    · intro _
      push_cast
      by_cases hc : s - 1 ≤ 1
      · have hk := h3 hc
        subst hk
        simp only [Nat.cast_zero]
        linarith
      · have := h4 (not_le.mp hc)
        linarith
  | case2 s n h =>
    refine ⟨0, ?_, ?_, ?_, ?_⟩
    · rw [athleticsLoop_le s n (not_lt.mp h)]
      simp
    · simpa using not_lt.mp h
    · intro _
      rfl
    · intro hc
      exact absurd hc h

theorem counters_refl (c : CharacterController) : Counters c c := ⟨rfl, rfl, rfl⟩

theorem counters_trans {c1 c2 c3 : CharacterController} (h1 : Counters c1 c2)
    (h2 : Counters c2 c3) : Counters c1 c3 :=
  ⟨h2.1.trans h1.1, h2.2.1.trans h1.2.1, h2.2.2.trans h1.2.2⟩

theorem forceStateUpdate_counters (c c1 : CharacterController)
    (h : c.forceStateUpdate = .ok c1) : Counters c c1 := by
  cases ha : c.mAnimation with
  | none =>
    rw [forceStateUpdate_none c ha] at h
    simp only [Except.ok.injEq] at h
    subst h
    exact counters_refl _
  | some a =>
    cases hg : CharacterController.getCurrentGroup a { c with mAnimQueue := [] } "" with
    | error e =>
      unfold CharacterController.forceStateUpdate at h
      simp only [ha] at h
      rw [ha] at hg
      simp [hg] at h
    | ok p =>
      obtain ⟨g, c2⟩ := p
      rw [forceStateUpdate_of_group c c2 a g ha hg] at h
      simp only [Except.ok.injEq] at h
      subst h
      exact ⟨rfl, rfl, rfl⟩

theorem setState_counters (state : CharacterState) (loop : Bool) (c c1 : CharacterController)
    (h : c.setState state loop = .ok c1) : Counters c c1 := by
  unfold CharacterController.setState at h
  split_ifs at h
  · simp only [Except.ok.injEq] at h
    subst h
    exact counters_refl _
  · have k := forceStateUpdate_counters _ _ h
    exact ⟨k.1, k.2.1, k.2.2⟩

theorem setWeaponState_counters (state : WeaponState) (c c1 : CharacterController)
    (h : c.setWeaponState state = .ok c1) : Counters c c1 := by
  unfold CharacterController.setWeaponState at h
  split_ifs at h
  · simp only [Except.ok.injEq] at h
    subst h
    exact counters_refl _
  · have k := forceStateUpdate_counters _ _ h
    exact ⟨k.1, k.2.1, k.2.2⟩

theorem updateSideways_counters (w : World) (duration speed : ℚ) (c c1 : CharacterController)
    (m m1 : Movement) (hd : c.mCharState.isDeath = false)
    (h : c.updateSideways w duration speed m = .ok (c1, m1)) :
    Counters c c1 ∧ c1.mCharState.isDeath = false := by
  unfold CharacterController.updateSideways at h
  simp only at h
  split at h
  · exact absurd h (by simp)
  · rename_i c2 hr
    simp only [Except.ok.injEq, Prod.mk.injEq] at h
    obtain ⟨rfl, _⟩ := h
    split_ifs at hr <;>
    first
      | (simp only [Except.ok.injEq] at hr; subst hr; exact ⟨counters_refl _, hd⟩)
      | exact ⟨setState_counters _ _ _ _ hr, by rw [(setState_frame _ _ _ _ hr).2.1]; rfl⟩

theorem updateForward_counters (w : World) (duration speed : ℚ) (c c1 : CharacterController)
    (m m1 : Movement) (hd : c.mCharState.isDeath = false)
    (h : c.updateForward w duration speed m = .ok (c1, m1)) :
    Counters c c1 ∧ c1.mCharState.isDeath = false := by
  unfold CharacterController.updateForward at h
  simp only at h
  split at h
  · exact absurd h (by simp)
  · rename_i c2 hr
    simp only [Except.ok.injEq, Prod.mk.injEq] at h
    obtain ⟨rfl, _⟩ := h
    split_ifs at hr <;>
    first
      | (simp only [Except.ok.injEq] at hr; subst hr; exact ⟨counters_refl _, hd⟩)
      | exact ⟨setState_counters _ _ _ _ hr, by rw [(setState_frame _ _ _ _ hr).2.1]; rfl⟩

theorem updateTurn_counters (w : World) (c c1 : CharacterController)
    (hd : c.mCharState.isDeath = false) (h : c.updateTurn w = .ok c1) :
    Counters c c1 ∧ c1.mCharState.isDeath = false := by
  unfold CharacterController.updateTurn at h
  simp only at h
  split_ifs at h <;>
  first
    | (simp only [Except.ok.injEq] at h; subst h; exact ⟨counters_refl _, hd⟩)
    | exact ⟨setState_counters _ _ _ _ h, by rw [(setState_frame _ _ _ _ h).2.1]; rfl⟩

theorem updateIdle_counters (w : World) (c c1 : CharacterController)
    (hd : c.mCharState.isDeath = false) (h : c.updateIdle w = .ok c1) :
    Counters c c1 ∧ c1.mCharState.isDeath = false := by
  unfold CharacterController.updateIdle at h
  simp only at h
  split at h
  · split_ifs at h <;>
      exact ⟨setState_counters _ _ _ _ h, by rw [(setState_frame _ _ _ _ h).2.1]; rfl⟩
  · split at h
    · exact absurd h (by simp)
    · simp only [Except.ok.injEq] at h
      subst h
      exact ⟨⟨rfl, rfl, rfl⟩, hd⟩

theorem updateWeaponState_counters (w : World) (c c1 : CharacterController)
    (h : c.updateWeaponState w = .ok c1) : Counters c c1 := by
  unfold CharacterController.updateWeaponState at h
  split_ifs at h
  · exact setWeaponState_counters _ _ _ h
  · simp only [Except.ok.injEq] at h
    subst h
    exact counters_refl _

theorem updateLocomotion_counters (w : World) (duration speed : ℚ) (c c1 : CharacterController)
    (m m1 : Movement) (hd : c.mCharState.isDeath = false)
    (h : c.updateLocomotion w duration speed m = .ok (c1, m1)) :
    Counters c c1 ∧ c1.mCharState.isDeath = false := by
  unfold CharacterController.updateLocomotion at h
  simp only at h
  split_ifs at h
  · exact updateSideways_counters _ _ _ _ _ _ _ hd h
  · exact updateForward_counters _ _ _ _ _ _ _ hd h
  · split at h
    · exact absurd h (by simp)
    · rename_i c2 hc
      simp only [Except.ok.injEq, Prod.mk.injEq] at h
      obtain ⟨rfl, _⟩ := h
      exact updateTurn_counters _ _ _ hd hc
  · split at h
    · exact absurd h (by simp)
    · rename_i c2 hc
      simp only [Except.ok.injEq, Prod.mk.injEq] at h
      obtain ⟨rfl, _⟩ := h
      exact updateIdle_counters _ _ _ hd hc
  · simp only [Except.ok.injEq, Prod.mk.injEq] at h
    obtain ⟨rfl, _⟩ := h
    exact ⟨counters_refl _, hd⟩

theorem updateAnimation_counters (duration speed : ℚ) (c : CharacterController)
    (m : Movement) : Counters c (c.updateAnimation duration speed m).1 := by
  unfold CharacterController.updateAnimation
  cases c.mAnimation with
  | none => exact ⟨rfl, rfl, rfl⟩
  | some a => cases c.mSkipAnim <;> exact ⟨rfl, rfl, rfl⟩

theorem update_counters (w : World) (duration : ℚ) (c c1 : CharacterController)
    (m m1 : Movement) (hd : c.mCharState.isDeath = false)
    (h : c.update w duration m = .ok (c1, m1)) :
    Counters (c.updateAthletics w duration) c1 ∧ c1.mCharState.isDeath = false
      ∧ c1.mPtr = c.mPtr := by
  unfold CharacterController.update at h
  split at h
  · exact absurd h (by simp)
  · rename_i c0 m0 speed h0
    simp only [Except.ok.injEq] at h
    have hp0 := (updateLiving_frame _ _ _ _ _ _ _ h0).1
    obtain ⟨_, c2, m2, hw, _, hloc, _⟩ := updateLiving_inv _ _ _ _ _ _ _ hd h0
    have hd2 : c2.mCharState.isDeath = false := by
      rw [(updateWeaponState_frame _ _ _ hw).2, (updateAthletics_frame w duration c).2.1]
      exact hd
    obtain ⟨k1, k2⟩ := updateLocomotion_counters _ _ _ _ _ _ _ hd2 hloc
    have ka := updateAnimation_counters duration speed c0 m0
    have f := updateAnimation_fields duration speed c0 m0
    rw [h] at ka f
    simp only at ka f
    refine ⟨counters_trans (counters_trans (updateWeaponState_counters _ _ _ hw) k1) ka, ?_, ?_⟩
    · rw [f.1]
      exact k2
    · rw [f.2.2.2.2.2.2.1]
      exact hp0

theorem updateAthletics_swim (w : World) (duration : ℚ) (c : CharacterController)
    (h1 : (w.getMovementVector c.mPtr).x * (w.getMovementVector c.mPtr).x
          + (w.getMovementVector c.mPtr).y * (w.getMovementVector c.mPtr).y
          + (w.getMovementVector c.mPtr).z * (w.getMovementVector c.mPtr).z > 0)
    (h2 : c.mPtr = w.getPlayer) (h3 : w.isSwimming c.mPtr = true) :
    c.updateAthletics w duration
      = { c with
          mSecondsOfSwimming := (athleticsLoop (c.mSecondsOfSwimming + duration) 0).1
          skillCalls := c.skillCalls
            ++ List.replicate (athleticsLoop (c.mSecondsOfSwimming + duration) 0).2 (c.mPtr, 1) } := by
  unfold CharacterController.updateAthletics
  simp only
  rw [if_pos ⟨h1, h2⟩, if_pos h3]

theorem step_swimInv (ptr : Ptr) (S : ℚ) (c c1 : CharacterController) (op : Op)
    (hI : SwimInv ptr S c) (hop : Op.isSwimTick ptr op) (h : step c op = .ok c1) :
    SwimInv ptr (S + Op.duration op) c1 := by
  cases op with
  | update w duration movement =>
    obtain ⟨hp, hd, h0, h1, hsum, hpos, hrep⟩ := hI
    obtain ⟨t1, t2, t3, t4⟩ := hop
    simp only [step] at h
    split at h
    · exact absurd h (by simp)
    · rename_i r hr
      simp only [Except.ok.injEq] at h
      subst h
      obtain ⟨⟨_, k2, k3⟩, kd, kp⟩ := update_counters w duration c r.1 movement r.2 hd hr
      rw [← hp] at t1 t2 t3
      rw [updateAthletics_swim w duration c t2 t3 t1] at k2 k3
      simp only at k2 k3
      obtain ⟨k, e1, e2, e3, e4⟩ := athleticsLoop_spec (c.mSecondsOfSwimming + duration) 0
      rw [e1] at k2 k3
      simp only [Nat.zero_add] at k2 k3
      have hlen : r.1.skillCalls.length = c.skillCalls.length + k := by
        rw [k3]
        simp
      have hS0 : 0 ≤ S := by
        rw [← hsum]
        have : (0 : ℚ) ≤ (c.skillCalls.length : ℚ) := Nat.cast_nonneg _
        linarith
      have hnew : 0 < S + duration → 0 < c.mSecondsOfSwimming + duration - (k : ℚ) := by
        intro hpos2
        by_cases hc : c.mSecondsOfSwimming + duration ≤ 1
        · have hk := e3 hc
          subst hk
          simp only [Nat.cast_zero, sub_zero]
          by_cases hS : 0 < S
          · have := hpos hS
            linarith
          · have hSz : S = 0 := le_antisymm (not_lt.mp hS) hS0
            rw [hSz] at hpos2
            linarith
        · exact e4 (not_le.mp hc)
      refine ⟨kp.trans hp, kd, ?_, ?_, ?_, ?_, ?_⟩
      · rw [k2]
        by_cases hc : c.mSecondsOfSwimming + duration ≤ 1
        · have hk := e3 hc
          subst hk
          simp only [Nat.cast_zero, sub_zero]
          linarith
        · exact le_of_lt (e4 (not_le.mp hc))
      · rw [k2]
        exact e2
      · rw [k2, hlen]
        simp only [Op.duration]
        push_cast
        rw [← hsum]
        ring
      · intro hpos2
        rw [k2]
        exact hnew hpos2
      · rw [hlen, k3, List.replicate_add, ← hrep, hp]
  | playGroup g mode count => exact absurd hop (by simp [Op.isSwimTick])
  | skipAnim => exact absurd hop (by simp [Op.isSwimTick])
  | updatePtr ptr => exact absurd hop (by simp [Op.isSwimTick])
  | setState s l => exact absurd hop (by simp [Op.isSwimTick])
  | setWeaponState s => exact absurd hop (by simp [Op.isSwimTick])

theorem run_swimInv (ptr : Ptr) (ops : List Op) (S : ℚ) (c c1 : CharacterController)
    (hI : SwimInv ptr S c) (hops : ∀ op ∈ ops, Op.isSwimTick ptr op)
    (h : run c ops = .ok c1) : SwimInv ptr (S + totalDuration ops) c1 := by
  induction ops generalizing c S with
  | nil =>
    simp only [run, Except.ok.injEq] at h
    subst h
    simpa [totalDuration] using hI
  | cons op ops ih =>
    simp only [run] at h
    split at h
    · exact absurd h (by simp)
    · rename_i c2 hc2
      have h2 := step_swimInv ptr S c c2 op hI (hops op (List.mem_cons_self _ _)) hc2
      have h3 := ih (S + Op.duration op) c2 h2 (fun o ho => hops o (List.mem_cons_of_mem _ ho)) h
      have e : S + totalDuration (op :: ops) = S + Op.duration op + totalDuration ops := by
        simp only [totalDuration, List.map_cons, List.sum_cons]
        ring
      rw [e]
      exact h3

/-- C12 (amended): for a controller not in a death state whose swim-seconds
counter is zero and that has recorded no skill progress, and every sequence of
`update` calls that returns, in each of which the entity is the player, swims
and has a non-zero movement intent, with ticks that are not negative and sum to
`S >= 1`: the skill-progress calls recorded are `ceil S - 1` calls for the entity
in submerged mode, and the counter afterwards is `S - (ceil S - 1)`, which lies
in the interval (0, 1]. -/
theorem swim_seconds_accrual (c c1 : CharacterController) (ops : List Op)
    (hd : c.mCharState.isDeath = false)
    (hfresh : c.mSecondsOfSwimming = 0 ∧ c.skillCalls = [])
    (hops : ∀ op ∈ ops, Op.isSwimTick c.mPtr op)
    (hS : 1 ≤ totalDuration ops) (hr : run c ops = .ok c1) :
    c1.skillCalls = List.replicate (⌈totalDuration ops⌉ - 1).toNat (c.mPtr, 1)
    ∧ c1.mSecondsOfSwimming = totalDuration ops - ((⌈totalDuration ops⌉ - 1 : ℤ) : ℚ)
    ∧ 0 < c1.mSecondsOfSwimming ∧ c1.mSecondsOfSwimming ≤ 1 := by
  have hI : SwimInv c.mPtr 0 c := by
    refine ⟨rfl, hd, ?_, ?_, ?_, ?_, ?_⟩
    · rw [hfresh.1]
    · rw [hfresh.1]
      norm_num
    · rw [hfresh.1, hfresh.2]
      simp
    · intro h
      exact absurd h (lt_irrefl _)
    · rw [hfresh.2]
      rfl
  obtain ⟨_, _, _, h1, hsum, hpos, hrep⟩ := run_swimInv c.mPtr ops 0 c c1 hI hops hr
  rw [zero_add] at hsum hpos
  have hp := hpos (by linarith)
  have hceil : ⌈totalDuration ops⌉ = (c1.skillCalls.length : ℤ) + 1 := by
    rw [Int.ceil_eq_iff]
    push_cast
    constructor
    · linarith
    · linarith
  have hn : (⌈totalDuration ops⌉ - 1).toNat = c1.skillCalls.length := by
    rw [hceil]
    simp
  refine ⟨?_, ?_, hp, h1⟩
  · rw [hn]
    exact hrep
  · rw [hceil]
    push_cast
    linarith

theorem swim_one_second_eval :
    run (controllerIn (some animAllClips) CharacterState.Idle WeaponState.None)
        [Op.update worldSwim 1 Movement.zero]
      = .ok (swamController 1 1 []) := by
  have hg : CharacterController.getCurrentGroup animAllClips
      { controllerIn (some animAllClips) CharacterState.SwimWalkForward WeaponState.None with
        mLooping := true, mSecondsOfSwimming := 1 } ""
      = .ok ("swimwalkforward",
          { controllerIn (some animAllClips) CharacterState.SwimWalkForward WeaponState.None with
            mLooping := true, mSecondsOfSwimming := 1
            calls := [AnimCall.hasAnimation "swimwalkforward"] }) := rfl
  have hl : athleticsLoop 1 0 = (1, 0) := athleticsLoop_le 1 0 (le_refl _)
  simp only [controllerIn] at hg
  simp [run, step, CharacterController.update, CharacterController.updateLiving,
    CharacterController.updateWeaponState, CharacterController.updateAthletics,
    CharacterController.updateLocomotion, CharacterController.updateForward,
    CharacterController.updateJump, CharacterController.setState,
    CharacterController.setWeaponState, deriveWeaponState,
    CharacterController.forceStateUpdate, CharacterController.updateAnimation,
    worldSwim, controllerIn, CharacterState.isDeath, CharacterState.toNat,
    Movement.zero, hl, hg, swamController]
  norm_num [animAllClips]

theorem swim_longer_eval :
    run (controllerIn (some animAllClips) CharacterState.Idle WeaponState.None)
        [Op.update worldSwim (5 / 2) Movement.zero]
      = .ok (swamController (5 / 2) (1 / 2) [(0, 1), (0, 1)]) := by
  have hg : CharacterController.getCurrentGroup animAllClips
      { controllerIn (some animAllClips) CharacterState.SwimWalkForward WeaponState.None with
        mLooping := true, mSecondsOfSwimming := 1 / 2, skillCalls := [(0, 1), (0, 1)] } ""
      = .ok ("swimwalkforward",
          { controllerIn (some animAllClips) CharacterState.SwimWalkForward WeaponState.None with
            mLooping := true, mSecondsOfSwimming := 1 / 2, skillCalls := [(0, 1), (0, 1)]
            calls := [AnimCall.hasAnimation "swimwalkforward"] }) := rfl
  have hl : athleticsLoop (5 / 2) 0 = (1 / 2, 2) := by
    rw [athleticsLoop_gt _ _ (by norm_num), athleticsLoop_gt _ _ (by norm_num),
      athleticsLoop_le _ _ (by norm_num)]
    norm_num
  simp only [controllerIn, one_div] at hg
  simp [run, step, CharacterController.update, CharacterController.updateLiving,
    CharacterController.updateWeaponState, CharacterController.updateAthletics,
    CharacterController.updateLocomotion, CharacterController.updateForward,
    CharacterController.updateJump, CharacterController.setState,
    CharacterController.setWeaponState, deriveWeaponState,
    CharacterController.forceStateUpdate, CharacterController.updateAnimation,
    worldSwim, controllerIn, CharacterState.isDeath, CharacterState.toNat,
    Movement.zero, hl, hg, swamController]
  norm_num [animAllClips]

/-- C12 (counterexample): one submerged tick of exactly 1 second for the player
with non-zero intent, from a fresh counter: the ticks sum to 1, whose floor is
1, yet no skill progress is recorded and the counter afterwards is 1, outside
the interval [0, 1). -/
theorem swim_one_second_no_progress :
    Op.isSwimTick 0 (Op.update worldSwim 1 Movement.zero)
    ∧ totalDuration [Op.update worldSwim 1 Movement.zero] = 1
    ∧ run (controllerIn (some animAllClips) CharacterState.Idle WeaponState.None)
        [Op.update worldSwim 1 Movement.zero] = .ok (swamController 1 1 [])
    ∧ (swamController 1 1 []).skillCalls = []
    ∧ (swamController 1 1 []).mSecondsOfSwimming = 1
    ∧ ⌊(1 : ℚ)⌋ = 1 := by
  refine ⟨?_, ?_, swim_one_second_eval, rfl, rfl, ?_⟩
  · norm_num [Op.isSwimTick, worldSwim]
  · norm_num [totalDuration, Op.duration]
  · simp

/-- C12 (witness): one submerged tick of 5/2 seconds: two skill-progress calls
(`ceil (5/2) - 1`) and the counter 1/2 afterwards. -/
theorem swim_seconds_accrual_witness :
    run (controllerIn (some animAllClips) CharacterState.Idle WeaponState.None)
        [Op.update worldSwim (5 / 2) Movement.zero]
      = .ok (swamController (5 / 2) (1 / 2) [(0, 1), (0, 1)])
    ∧ ((swamController (5 / 2) (1 / 2) [(0, 1), (0, 1)]).skillCalls
        = List.replicate (⌈totalDuration [Op.update worldSwim (5 / 2) Movement.zero]⌉ - 1).toNat
            ((controllerIn (some animAllClips) CharacterState.Idle WeaponState.None).mPtr, 1)
      ∧ (swamController (5 / 2) (1 / 2) [(0, 1), (0, 1)]).mSecondsOfSwimming
        = totalDuration [Op.update worldSwim (5 / 2) Movement.zero]
          - ((⌈totalDuration [Op.update worldSwim (5 / 2) Movement.zero]⌉ - 1 : ℤ) : ℚ)
      ∧ 0 < (swamController (5 / 2) (1 / 2) [(0, 1), (0, 1)]).mSecondsOfSwimming
      ∧ (swamController (5 / 2) (1 / 2) [(0, 1), (0, 1)]).mSecondsOfSwimming ≤ 1) :=
  ⟨swim_longer_eval,
    swim_seconds_accrual
      (controllerIn (some animAllClips) CharacterState.Idle WeaponState.None)
      (swamController (5 / 2) (1 / 2) [(0, 1), (0, 1)])
      [Op.update worldSwim (5 / 2) Movement.zero] (by decide) ⟨rfl, rfl⟩
      (by
        intro op hop
        rw [List.mem_singleton] at hop
        subst hop
        norm_num [Op.isSwimTick, worldSwim, controllerIn])
      (by norm_num [totalDuration, Op.duration])
      swim_longer_eval⟩

theorem getCurrentGroup_ne_error (a : Animation) (c : CharacterController) (g : String)
    (e : Error) (hne : c.mCharState ≠ CharacterState.SpecialIdle) :
    c.getCurrentGroup a g ≠ .error e := by
  obtain ⟨g1, c1, h⟩ := getCurrentGroup_ok a c g hne
  rw [h]
  simp

theorem forceStateUpdate_returns (c : CharacterController)
    (hs : c.mAnimation ≠ none → c.mCharState ≠ CharacterState.SpecialIdle) :
    ∃ c1, c.forceStateUpdate = .ok c1 := by
  cases ha : c.mAnimation with
  | none =>
    unfold CharacterController.forceStateUpdate
    simp only [ha]
    exact ⟨c, rfl⟩
  | some a =>
    have hne : c.mCharState ≠ CharacterState.SpecialIdle := hs (by rw [ha]; simp)
    unfold CharacterController.forceStateUpdate
    simp only [ha]
    split
    · rename_i e he
      exact absurd he (getCurrentGroup_ne_error _ _ _ _ hne)
    · exact ⟨_, rfl⟩

theorem setState_returns (state : CharacterState) (loop : Bool) (c : CharacterController)
    (hs : state ≠ CharacterState.SpecialIdle) : ∃ c1, c.setState state loop = .ok c1 := by
  unfold CharacterController.setState
  split_ifs
  · exact ⟨c, rfl⟩
  · exact forceStateUpdate_returns _ (fun _ => hs)

theorem setState_ne_error (state : CharacterState) (loop : Bool) (c : CharacterController)
    (e : Error) (hs : state ≠ CharacterState.SpecialIdle) :
    c.setState state loop ≠ .error e := by
  obtain ⟨c1, h⟩ := setState_returns state loop c hs
  rw [h]
  simp

theorem setWeaponState_returns (state : WeaponState) (c : CharacterController)
    (hs : state ≠ c.mWeapState → c.mAnimation ≠ none →
      c.mCharState ≠ CharacterState.SpecialIdle) :
    ∃ c1, c.setWeaponState state = .ok c1 := by
  unfold CharacterController.setWeaponState
  split_ifs with h
  · exact ⟨c, rfl⟩
  · exact forceStateUpdate_returns _ (fun ha => hs h ha)

theorem updateSideways_returns (w : World) (duration speed : ℚ) (c : CharacterController)
    (m : Movement) : ∃ c1 m1, c.updateSideways w duration speed m = .ok (c1, m1) := by
  unfold CharacterController.updateSideways
  simp only
  split
  · rename_i e he
    exfalso
    split_ifs at he <;> first
      | exact absurd he (by simp)
      | exact setState_ne_error _ _ _ _ (by decide) he
  · exact ⟨_, _, rfl⟩

theorem updateForward_returns (w : World) (duration speed : ℚ) (c : CharacterController)
    (m : Movement) : ∃ c1 m1, c.updateForward w duration speed m = .ok (c1, m1) := by
  unfold CharacterController.updateForward
  simp only
  split
  · rename_i e he
    exfalso
    split_ifs at he <;> first
      | exact absurd he (by simp)
      | exact setState_ne_error _ _ _ _ (by decide) he
  · exact ⟨_, _, rfl⟩

theorem updateTurn_returns (w : World) (c : CharacterController) :
    ∃ c1, c.updateTurn w = .ok c1 := by
  unfold CharacterController.updateTurn
  simp only
  split_ifs
  · exact setState_returns _ _ _ (by decide)
  · exact setState_returns _ _ _ (by decide)
  · exact ⟨c, rfl⟩

theorem updateIdle_returns (w : World) (c : CharacterController)
    (hq : c.mAnimation = none → c.mAnimQueue = []) : ∃ c1, c.updateIdle w = .ok c1 := by
  unfold CharacterController.updateIdle
  simp only
  split
  · exact setState_returns _ _ _ (by split_ifs <;> decide)
  · rename_i front rest hqq
    split
    · rename_i ha
      rw [hq ha] at hqq
      exact absurd hqq (by simp)
    · exact ⟨_, rfl⟩

theorem updateLocomotion_returns (w : World) (duration speed : ℚ) (c : CharacterController)
    (m : Movement) (hq : c.mAnimation = none → c.mAnimQueue = []) :
    ∃ c1 m1, c.updateLocomotion w duration speed m = .ok (c1, m1) := by
  unfold CharacterController.updateLocomotion
  simp only
  split_ifs
  · exact updateSideways_returns _ _ _ _ _
  · exact updateForward_returns _ _ _ _ _
  · obtain ⟨c1, h⟩ := updateTurn_returns w c
    rw [h]
    exact ⟨_, _, rfl⟩
  · obtain ⟨c1, h⟩ := updateIdle_returns w c hq
    rw [h]
    exact ⟨_, _, rfl⟩
  · exact ⟨_, _, rfl⟩

theorem updateWeaponState_returns (w : World) (c : CharacterController)
    (hw : c.mCharState = CharacterState.SpecialIdle → w.isNpc c.mPtr = true →
      c.mAnimation ≠ none → deriveWeaponState w c.mPtr = c.mWeapState) :
    ∃ c1, c.updateWeaponState w = .ok c1 := by
  unfold CharacterController.updateWeaponState
  split_ifs with hn
  · exact setWeaponState_returns _ _ (fun h1 h2 h3 => h1 (hw h3 hn h2))
  · exact ⟨c, rfl⟩

theorem updateAthletics_queue (w : World) (duration : ℚ) (c : CharacterController) :
    (c.updateAthletics w duration).mAnimQueue = c.mAnimQueue := by
  unfold CharacterController.updateAthletics
  simp only
  split_ifs <;> rfl

/-- When `update` returns: always, except when it has to refresh the clip of a
controller in the special-idle state (`hw` excludes this: in that state, for an
NPC with a collaborator, the derived weapon state is the current one) or to
play the front of the queue through a null collaborator (`hq` excludes this). -/
theorem update_returns (w : World) (duration : ℚ) (c : CharacterController) (m : Movement)
    (hw : c.mCharState = CharacterState.SpecialIdle → w.isNpc c.mPtr = true →
      c.mAnimation ≠ none → deriveWeaponState w c.mPtr = c.mWeapState)
    (hq : c.mAnimation = none → c.mAnimQueue = []) :
    ∃ c1 m1, c.update w duration m = .ok (c1, m1) := by
  have hl : ∃ c0 m0 speed, c.updateLiving w duration m = .ok (c0, m0, speed) := by
    unfold CharacterController.updateLiving
    split_ifs with hd
    · exact ⟨_, _, _, rfl⟩
    · obtain ⟨⟨f1, f2, _, _⟩, k1, k2, _⟩ := updateAthletics_frame w duration c
      obtain ⟨c2, h2⟩ := updateWeaponState_returns w (c.updateAthletics w duration)
        (by rw [k1, k2, f1, f2]; exact hw)
      have hq2 : c2.mAnimation = none → c2.mAnimQueue = [] := by
        intro hn
        obtain ⟨⟨_, g2, _, _⟩, _⟩ := updateWeaponState_frame _ _ _ h2
        have hc : c.mAnimation = none := by rw [← f2, ← g2]; exact hn
        exact updateWeaponState_queue _ _ _ h2 (by rw [updateAthletics_queue]; exact hq hc)
      obtain ⟨c3, m3, h3⟩ := updateLocomotion_returns w duration (w.getSpeed c.mPtr) c2
        (CharacterController.updateJump w duration c2.mPtr m) hq2
      simp only [h2, h3]
      exact ⟨_, _, _, rfl⟩
  obtain ⟨c0, m0, speed, h⟩ := hl
  unfold CharacterController.update
  rw [h]
  exact ⟨_, _, rfl⟩

/-- C9 (failing input): constructed idle, after `playGroup "idle" 1 1` and
`skipAnim` the controller is in the special-idle state with the skip flag set,
and the `update` that follows, deriving the hand-to-hand weapon state for the
NPC, raises the table-lookup error for the special-idle state instead of
returning a controller with the flag cleared. -/
theorem update_after_skipAnim_raises :
    (∃ c0 c, CharacterController.create worldBareHands 0 (some animAllClips)
            CharacterState.Idle true = .ok c0
        ∧ run c0 [Op.playGroup "idle" 1 1, Op.skipAnim] = .ok c
        ∧ c.mSkipAnim = true ∧ c.mCharState = CharacterState.SpecialIdle
        ∧ raised (c.update worldBareHands (1 / 10) Movement.zero)
            = some (Error.failedToFindCharacterState CharacterState.SpecialIdle))
    ∧ raised playSkipThenDrawWeapon
        = some (Error.failedToFindCharacterState CharacterState.SpecialIdle) := by
  have h0 : CharacterController.create worldBareHands 0 (some animAllClips)
      CharacterState.Idle true = .ok constructedLooping := rfl
  have h1 := update_specialIdle_weapon_change worldBareHands (1 / 10)
    (constructedLooping.playGroup "idle" 1 1).skipAnim
    Movement.zero animAllClips rfl rfl rfl (by decide)
  refine ⟨⟨constructedLooping, (constructedLooping.playGroup "idle" 1 1).skipAnim,
    h0, rfl, rfl, rfl, ?_⟩, ?_⟩
  · rw [h1]
    rfl
  · unfold playSkipThenDrawWeapon
    rw [h0]
    simp only [run, step, h1]
    rfl

/-- C10 (failing input): constructed idle, after `playGroup "idle" 1 1` the
controller is in the special-idle state, not a death state; the next `update`,
with forward intent 1 at speed 3 and a tick of 1/10, deriving the hand-to-hand
weapon state for the NPC, raises the table-lookup error for the special-idle
state and returns no output position. -/
theorem update_walk_in_specialIdle_raises :
    (worldWalkForwardDrawn.getMovementVector 0).y = 1
    ∧ worldWalkForwardDrawn.getSpeed 0 = 3
    ∧ (constructedLooping.playGroup "idle" 1 1).mCharState.isDeath = false
    ∧ raised playThenWalkDrawn
        = some (Error.failedToFindCharacterState CharacterState.SpecialIdle) := by
  have h0 : CharacterController.create worldWalkForwardDrawn 0 (some animAllClips)
      CharacterState.Idle true = .ok constructedLooping := rfl
  have h1 := update_specialIdle_weapon_change worldWalkForwardDrawn (1 / 10)
    (constructedLooping.playGroup "idle" 1 1)
    Movement.zero animAllClips rfl rfl rfl (by decide)
  refine ⟨rfl, rfl, rfl, ?_⟩
  unfold playThenWalkDrawn
  rw [h0]
  simp only [run, step, h1]
  rfl

/-- C14 (failing input): constructed idle, after `playGroup "idle" 1 1` the
controller is in the special-idle state; for yaw intent 1 and no movement intent
rule (c) of the rule list gives turn-right, but the next `update`, deriving the
hand-to-hand weapon state for the NPC, raises the table-lookup error for the
special-idle state before the locomotion cascade. -/
theorem update_turn_in_specialIdle_raises :
    locomotionSpec CharacterState.SpecialIdle
        (worldTurnRightDrawn.getMovementVector 0).x (worldTurnRightDrawn.getMovementVector 0).y
        (worldTurnRightDrawn.getRotationVector 0).z (worldTurnRightDrawn.getSpeed 0)
        (worldTurnRightDrawn.isSwimming 0) (worldTurnRightDrawn.getStanceSneak 0)
        (worldTurnRightDrawn.getStanceRun 0) = CharacterState.TurnRight
    ∧ raised playThenTurnDrawn
        = some (Error.failedToFindCharacterState CharacterState.SpecialIdle) := by
  have h0 : CharacterController.create worldTurnRightDrawn 0 (some animAllClips)
      CharacterState.Idle true = .ok constructedLooping := rfl
  have h1 := update_specialIdle_weapon_change worldTurnRightDrawn (1 / 10)
    (constructedLooping.playGroup "idle" 1 1)
    Movement.zero animAllClips rfl rfl rfl (by decide)
  refine ⟨?_, ?_⟩
  · norm_num [locomotionSpec, worldTurnRightDrawn]
  · unfold playThenTurnDrawn
    rw [h0]
    simp only [run, step, h1]
    rfl

/-- C18 (amended): for a controller not in a death state, outside the case in
which `update` has to refresh the clip of a controller in the special-idle state
(`hw`: in the special-idle state, for an NPC with a collaborator, the derived
weapon state is the current one), and with an empty queue when the collaborator
is null (`hq`), `update` returns, and with intent `(x, y, z)` and jump height `j`
the output Z advances by `j * duration` when the entity is on the ground, `z > 0`
and `x = 0` and `y = 0`, by `707/1000 * j * duration` when it is on the ground,
`z > 0` and `x` or `y` is not zero, and by nothing when it is not on the ground or
`z <= 0`; the root motion added by the last part of `update` comes on top. -/
theorem update_vertical_thrust (w : World) (duration : ℚ) (c : CharacterController)
    (m : Movement) (hd : c.mCharState.isDeath = false)
    (hw : c.mCharState = CharacterState.SpecialIdle → w.isNpc c.mPtr = true →
      c.mAnimation ≠ none → deriveWeaponState w c.mPtr = c.mWeapState)
    (hq : c.mAnimation = none → c.mAnimQueue = []) :
    ∃ c1 m1, c.update w duration m = .ok (c1, m1)
      ∧ m1.mPosition.z = m.mPosition.z
        + (if w.isOnGround c.mPtr = true ∧ (w.getMovementVector c.mPtr).z > 0 then
            (if (w.getMovementVector c.mPtr).x = 0 ∧ (w.getMovementVector c.mPtr).y = 0 then
              w.getJump c.mPtr * duration
             else 707 / 1000 * w.getJump c.mPtr * duration)
           else 0)
        + (rootMotionAdded duration c c1).z := by
  obtain ⟨c1, m1, h⟩ := update_returns w duration c m hw hq
  exact ⟨c1, m1, h, update_thrust_of_returns w duration c c1 m m1 hd h⟩

/-- C18 (witness): the scenario of the counterexample: `update` returns, and
707/1000 is what the amended rule gives. -/
theorem update_vertical_thrust_witness :
    (controllerIn (some animAllClips) CharacterState.Idle WeaponState.None).update
        worldJumpForward 1 Movement.zero
      = .ok (jumpedController, ⟨⟨0, 3, 707 / 1000⟩, ⟨0, 0, 0⟩⟩)
    ∧ (707 / 1000 : ℚ) = 0
      + (if worldJumpForward.isOnGround 0 = true ∧ (worldJumpForward.getMovementVector 0).z > 0
          then
            (if (worldJumpForward.getMovementVector 0).x = 0
                ∧ (worldJumpForward.getMovementVector 0).y = 0 then
              worldJumpForward.getJump 0 * 1
             else 707 / 1000 * worldJumpForward.getJump 0 * 1)
         else 0)
      + (rootMotionAdded 1
          (controllerIn (some animAllClips) CharacterState.Idle WeaponState.None)
          jumpedController).z := by
  obtain ⟨c1, m1, h, hz⟩ := update_vertical_thrust worldJumpForward 1
    (controllerIn (some animAllClips) CharacterState.Idle WeaponState.None) Movement.zero
    (by decide) (fun hs => absurd hs (by decide)) (fun _ => rfl)
  rw [jump_eval] at h
  simp only [Except.ok.injEq, Prod.mk.injEq] at h
  obtain ⟨rfl, rfl⟩ := h
  exact ⟨jump_eval, hz⟩

end MWMechanics
